import Mathlib

/-!
# 3scale operator: convergence engine, error classification and upgrade pipeline

A shallow embedding of the control-plane logic of the operator:

* `pkg/3scale/amp/operator/upgrade.go`: the step combinators `sequentially`, `andThen`, `when`,
  the orchestration of `Upgrade`, and `deleteDeploymentConfigEnvVars`;
* `pkg/reconcilers/deploymentconfig.go`: the DeploymentConfig mutators and
  `DeploymentConfigEnvVarReconciler`;
* `pkg/3scale/amp/operator/system_reconciler.go`: `systemAppDCResourceMutator`;
* `pkg/3scale/amp/operator/redis_reconciler.go`: `RedisReconciler.Reconcile`;
* `controllers/capabilities/developeruser_controller.go`: `validateSpec`, `findParentAccount`,
  `reconcileSpec`, `Reconcile`.

Go functions that mutate an object through a pointer are functions returning the new object.
A step that acts on the cluster through `*UpgradeApiManager` is a state transformer over a
world type `σ`. A `panic` is an outcome of its own, carrying the object as it stood when the
panic was raised. Logging is not modelled.
-/

namespace ThreeScale

/-! ## Errors -/

/-- The two tags of `helper.SpecFieldError.ErrorType` used by the controllers. -/
inductive SpecErrorType where
  | InvalidError
  | OrphanError
  deriving DecidableEq, Repr

/-- The entry of a `field.ErrorList` as built by `field.Invalid(path, value, detail)`:
the rendered field path, the offending value and the detail text. -/
structure FieldError where
  Field : String
  BadValue : String
  Detail : String
  deriving DecidableEq, Repr

/-- Go `error` values that the embedded code builds or inspects. `wrap msg cause` is the value of
`fmt.Errorf` with a `%w` verb: `msg` is the whole formatted message, `cause` what `Unwrap` yields.
`statusNotFound` is an API error for which `errors.IsNotFound` holds. `specField` is
`*helper.SpecFieldError`. -/
inductive Error where
  | message (msg : String)
  | statusNotFound (msg : String)
  | specField (ErrorType : SpecErrorType) (FieldErrorList : List FieldError)
  | wrap (msg : String) (cause : Error)
  deriving DecidableEq, Repr

/-- The `reconcile.Result` of controller-runtime; `RequeueAfter` is a duration in nanoseconds. -/
structure Result where
  Requeue : Bool
  RequeueAfter : Int
  deriving DecidableEq, Repr

/-- The Go literal `reconcile.Result{}`. -/
def Result.empty : Result := ⟨false, 0⟩

/-! ## Upgrade step combinators (`upgrade.go`) -/

/-- The `(reconcile.Result, error)` pair returned by a step. -/
abbrev StepResult := Result × Option Error

/-- `type upgradeDependencyFn func(*UpgradeApiManager) (reconcile.Result, error)`: a step reads
and writes the world reachable from `u` (the manager and the cluster behind its client). -/
abbrev upgradeDependencyFn (σ : Type) := σ → StepResult × σ

/-- The loop guard `res.Requeue || err != nil`. -/
def interrupts (r : StepResult) : Bool := r.1.Requeue || r.2.isSome

/-- `func sequentially(fns ...upgradeDependencyFn) upgradeDependencyFn`: the `for` loop over `fns`
with its early `return res, err`, and `reconcile.Result{}, nil` after the loop. -/
def sequentially {σ : Type} : List (upgradeDependencyFn σ) → upgradeDependencyFn σ
  | [], u => ((Result.empty, none), u)
  | fn :: fns, u =>
    let out := fn u
    if out.1.1.Requeue || out.1.2.isSome then out else sequentially fns out.2

/-- `func andThen(first, then upgradeDependencyFn) upgradeDependencyFn`. -/
def andThen {σ : Type} (first next : upgradeDependencyFn σ) : upgradeDependencyFn σ := fun u =>
  let out := first u
  if out.1.1.Requeue || out.1.2.isSome then out else next out.2

/-- `func when(condition func(*UpgradeApiManager) bool, fn upgradeDependencyFn)`: the condition
is a read-only observation of `u` (the one built in the code, `notExternal`, reads
`u.apiManager`). -/
def when {σ : Type} (condition : σ → Bool) (fn : upgradeDependencyFn σ) : upgradeDependencyFn σ :=
  fun u => if condition u then fn u else ((Result.empty, none), u)

/-- The steps of `pre`, run one after the other from `u`, all return without interrupting the
pipeline (no requeue, nil error) and leave the world `v`. -/
inductive PassesThrough {σ : Type} : List (upgradeDependencyFn σ) → σ → σ → Prop where
  | nil (u : σ) : PassesThrough [] u u
  | cons (fn : upgradeDependencyFn σ) (fns : List (upgradeDependencyFn σ)) (u v : σ)
      (hfn : interrupts (fn u).1 = false) (hrest : PassesThrough fns (fn u).2 v) :
      PassesThrough (fn :: fns) u v

/-- The step instrumented for the examples: appends its name to the log and returns `r`. -/
def logStep (name : String) (r : StepResult) : upgradeDependencyFn (List String) :=
  fun log => (r, log ++ [name])

/-! ## Kubernetes objects

The API types come from `k8s.io/api/core/v1` and `github.com/openshift/api/apps/v1`. The fields
are those that the embedded code reads or writes, plus enough neighbours (image, name, env) to
state what a mutator leaves alone. A Go pointer or slice that is compared with
`reflect.DeepEqual` is an `Option`, so that `nil` and the empty value stay distinct. The pod
template of a DeploymentConfig is taken as present. -/

/-- The `corev1.EnvVar`; `ValueFrom` stands for the referenced source when there is one. -/
structure EnvVar where
  Name : String
  Value : String
  ValueFrom : Option String
  deriving DecidableEq, Repr

/-- The `corev1.ResourceRequirements`: resource name to quantity, for limits and requests. -/
structure ResourceRequirements where
  Limits : List (String × String)
  Requests : List (String × String)
  deriving DecidableEq, Repr

/-- The `corev1.Container`. -/
structure Container where
  Name : String
  Image : String
  Env : List EnvVar
  Resources : ResourceRequirements
  deriving DecidableEq, Repr

/-- The `corev1.Affinity`; each part stands for the scheduling terms it holds. -/
structure Affinity where
  NodeAffinity : Option String
  PodAffinity : Option String
  PodAntiAffinity : Option String
  deriving DecidableEq, Repr

/-- The `corev1.Toleration`. -/
structure Toleration where
  Key : String
  Operator : String
  Value : String
  Effect : String
  TolerationSeconds : Option Int
  deriving DecidableEq, Repr

/-- The `corev1.PodSpec`. -/
structure PodSpec where
  Containers : List Container
  InitContainers : List Container
  Affinity : Option Affinity
  Tolerations : Option (List Toleration)
  deriving DecidableEq, Repr

/-- The `corev1.PodTemplateSpec`; `Labels` is the label map of its metadata. -/
structure PodTemplateSpec where
  Labels : List (String × String)
  Spec : PodSpec
  deriving DecidableEq, Repr

/-- The `appsv1.ExecNewPodHook`. -/
structure ExecNewPodHook where
  Command : List String
  Env : List EnvVar
  ContainerName : String
  deriving DecidableEq, Repr

/-- The `appsv1.LifecycleHook`. -/
structure LifecycleHook where
  FailurePolicy : String
  ExecNewPod : Option ExecNewPodHook
  deriving DecidableEq, Repr

/-- The `appsv1.RollingDeploymentStrategyParams`. -/
structure RollingDeploymentStrategyParams where
  Pre : Option LifecycleHook
  Post : Option LifecycleHook
  deriving DecidableEq, Repr

/-- The `appsv1.RecreateDeploymentStrategyParams`. -/
structure RecreateDeploymentStrategyParams where
  Pre : Option LifecycleHook
  Mid : Option LifecycleHook
  Post : Option LifecycleHook
  deriving DecidableEq, Repr

/-- The `appsv1.DeploymentStrategy`. -/
structure DeploymentStrategy where
  RecreateParams : Option RecreateDeploymentStrategyParams
  RollingParams : Option RollingDeploymentStrategyParams
  deriving DecidableEq, Repr

/-- The `corev1.ObjectReference`. -/
structure ObjectReference where
  Kind : String
  Namespace : String
  Name : String
  deriving DecidableEq, Repr

/-- The `appsv1.DeploymentTriggerImageChangeParams`. -/
structure DeploymentTriggerImageChangeParams where
  Automatic : Bool
  ContainerNames : List String
  From : ObjectReference
  deriving DecidableEq, Repr

/-- The `appsv1.DeploymentTriggerPolicy`; `TriggerType` is its Go field `Type`. -/
structure DeploymentTriggerPolicy where
  TriggerType : String
  ImageChangeParams : Option DeploymentTriggerImageChangeParams
  deriving DecidableEq, Repr

/-- The `appsv1.DeploymentConfigSpec`. -/
structure DeploymentConfigSpec where
  Strategy : DeploymentStrategy
  Triggers : List DeploymentTriggerPolicy
  Replicas : Int
  Template : PodTemplateSpec
  deriving DecidableEq, Repr

/-- The `appsv1.DeploymentConfig`, with the name and namespace of its object metadata. -/
structure DeploymentConfig where
  Name : String
  Namespace : String
  Spec : DeploymentConfigSpec
  deriving DecidableEq, Repr

/-- The Go literal `appsv1.DeploymentConfig{}`. -/
def DeploymentConfig.zero : DeploymentConfig :=
  { Name := "", Namespace := "",
    Spec := { Strategy := { RecreateParams := none, RollingParams := none }, Triggers := [],
              Replicas := 0,
              Template := { Labels := [],
                            Spec := { Containers := [], InitContainers := [], Affinity := none,
                                      Tolerations := none } } } }

/-- The interface `common.KubernetesObject`: a DeploymentConfig, or an object of another Go type
(named as `%T` prints it). -/
inductive KubernetesObject where
  | deploymentConfig (obj : DeploymentConfig)
  | other (goType : String)
  deriving DecidableEq, Repr

/-! ## DeploymentConfig mutators (`deploymentconfig.go`) -/

/-- The value given to `panic`: the container count found and the one required by the
structural check, or the index and length of a failed slice access. -/
inductive PanicValue where
  | containersLength (found should : Nat)
  | indexOutOfRange (index length : Nat)
  deriving DecidableEq, Repr

/-- How a call of a `DCMutateFn` ends: it returns its flag, or it panics. Both carry `existing`
as the call left it. -/
inductive DCMutateOutcome where
  | returned (update : Bool) (existing : DeploymentConfig)
  | panicked (value : PanicValue) (existing : DeploymentConfig)
  deriving DecidableEq, Repr

/-- `type DCMutateFn func(desired, existing *appsv1.DeploymentConfig) bool`: it mutates
`existing` towards `desired`. -/
abbrev DCMutateFn := DeploymentConfig → DeploymentConfig → DCMutateOutcome

/-- How a call of a `MutateFn` ends: it returns `(bool, error)`, or it panics. -/
inductive MutateOutcome where
  | returned (update : Bool) (err : Option Error) (existing : KubernetesObject)
  | panicked (value : PanicValue) (existing : KubernetesObject)
  deriving DecidableEq, Repr

/-- `type MutateFn func(existing, desired common.KubernetesObject) (bool, error)`. -/
abbrev MutateFn := KubernetesObject → KubernetesObject → MutateOutcome

/-- The loop `for _, opt := range opts` of `DeploymentConfigMutator`, with the running value of
`update`; a panic of `opt` unwinds the loop. -/
def mutatorLoop (desired : DeploymentConfig) :
    List DCMutateFn → Bool → DeploymentConfig → DCMutateOutcome
  | [], update, existing => .returned update existing
  | opt :: opts, update, existing =>
    match opt desired existing with
    | .returned tmpUpdate existing1 => mutatorLoop desired opts (update || tmpUpdate) existing1
    | .panicked value existing1 => .panicked value existing1

/-- `func DeploymentConfigMutator(opts ...DCMutateFn) MutateFn`. -/
def DeploymentConfigMutator (opts : List DCMutateFn) : MutateFn := fun existingObj desiredObj =>
  match existingObj with
  | .other goType =>
    .returned false (some (.message (goType ++ " is not a *appsv1.DeploymentConfig"))) existingObj
  | .deploymentConfig existing =>
    match desiredObj with
    | .other goType =>
      .returned false (some (.message (goType ++ " is not a *appsv1.DeploymentConfig")))
        existingObj
    | .deploymentConfig desired =>
      match mutatorLoop desired opts false existing with
      | .returned update existing1 => .returned update none (.deploymentConfig existing1)
      | .panicked value existing1 => .panicked value (.deploymentConfig existing1)

/-- `func DeploymentConfigReplicasMutator(desired, existing *appsv1.DeploymentConfig) bool`. -/
def DeploymentConfigReplicasMutator : DCMutateFn := fun desired existing =>
  if desired.Spec.Replicas ≠ existing.Spec.Replicas then
    .returned true { existing with Spec.Replicas := desired.Spec.Replicas }
  else
    .returned false existing

/-- `func DeploymentConfigAffinityMutator(desired, existing *appsv1.DeploymentConfig) bool`. -/
def DeploymentConfigAffinityMutator : DCMutateFn := fun desired existing =>
  if ¬ (existing.Spec.Template.Spec.Affinity = desired.Spec.Template.Spec.Affinity) then
    .returned true
      { existing with Spec.Template.Spec.Affinity := desired.Spec.Template.Spec.Affinity }
  else
    .returned false existing

/-- `func DeploymentConfigTolerationsMutator(desired, existing *appsv1.DeploymentConfig) bool`. -/
def DeploymentConfigTolerationsMutator : DCMutateFn := fun desired existing =>
  if ¬ (existing.Spec.Template.Spec.Tolerations = desired.Spec.Template.Spec.Tolerations) then
    .returned true
      { existing with Spec.Template.Spec.Tolerations := desired.Spec.Template.Spec.Tolerations }
  else
    .returned false existing

/-- `func DeploymentConfigContainerResourcesMutator(desired, existing *appsv1.DeploymentConfig)
bool`. `CmpResources` is `helper.CmpResources`, which the mutator calls to compare two resource
requirements. The two accesses `Containers[0]` are matched on the lists. -/
def DeploymentConfigContainerResourcesMutator
    (CmpResources : ResourceRequirements → ResourceRequirements → Bool) : DCMutateFn :=
  fun desired existing =>
    if desired.Spec.Template.Spec.Containers.length ≠ 1 then
      .panicked (.containersLength desired.Spec.Template.Spec.Containers.length 1) existing
    else
      let step1 : Bool × DeploymentConfig :=
        if existing.Spec.Template.Spec.Containers.length ≠ 1 then
          (true, { existing with
                     Spec.Template.Spec.Containers := desired.Spec.Template.Spec.Containers })
        else (false, existing)
      match step1.2.Spec.Template.Spec.Containers, desired.Spec.Template.Spec.Containers with
      | [], _ => .panicked (.indexOutOfRange 0 0) step1.2
      | _ :: _, [] => .panicked (.indexOutOfRange 0 0) step1.2
      | existingContainer :: others, desiredContainer :: _ =>
        if ¬ CmpResources existingContainer.Resources desiredContainer.Resources then
          .returned true
            { step1.2 with
                Spec.Template.Spec.Containers :=
                  { existingContainer with Resources := desiredContainer.Resources } :: others }
        else
          .returned step1.1 step1.2

/-- `func GenericDeploymentConfigMutator() MutateFn`. -/
def GenericDeploymentConfigMutator
    (CmpResources : ResourceRequirements → ResourceRequirements → Bool) : MutateFn :=
  DeploymentConfigMutator
    [DeploymentConfigReplicasMutator,
     DeploymentConfigContainerResourcesMutator CmpResources,
     DeploymentConfigAffinityMutator,
     DeploymentConfigTolerationsMutator]

/-- `func GenericBackendMutators() []DCMutateFn`. -/
def GenericBackendMutators
    (CmpResources : ResourceRequirements → ResourceRequirements → Bool) : List DCMutateFn :=
  [DeploymentConfigContainerResourcesMutator CmpResources,
   DeploymentConfigAffinityMutator,
   DeploymentConfigTolerationsMutator]

/-- The mutators of `opts`, called one after the other on `desired` and the current `existing`,
all return: `flags` lists what each returned, `final` is `existing` after the last call. -/
inductive AllReturn (desired : DeploymentConfig) :
    List DCMutateFn → DeploymentConfig → List Bool → DeploymentConfig → Prop where
  | nil (existing : DeploymentConfig) : AllReturn desired [] existing [] existing
  | cons (opt : DCMutateFn) (opts : List DCMutateFn) (existing existing1 final : DeploymentConfig)
      (tmpUpdate : Bool) (flags : List Bool)
      (hopt : opt desired existing = .returned tmpUpdate existing1)
      (hrest : AllReturn desired opts existing1 flags final) :
      AllReturn desired (opt :: opts) existing (tmpUpdate :: flags) final

/-- A comparison of resource requirements for the concrete instances: field by field equality. -/
def sameResources (a b : ResourceRequirements) : Bool := decide (a = b)

/-- The effect of the resources mutator on the container list of `existing`, for a desired
DeploymentConfig whose only container is `desiredContainer`: the flag it returns and the list
it leaves. Used in the proofs as the closed form of the mutator. -/
def resourcesEffect (CmpResources : ResourceRequirements → ResourceRequirements → Bool)
    (desiredContainer : Container) : List Container → Bool × List Container
  | [existingContainer] =>
    if CmpResources existingContainer.Resources desiredContainer.Resources then
      (false, [existingContainer])
    else
      (true, [{ existingContainer with Resources := desiredContainer.Resources }])
  | _ => (true, [desiredContainer])

/-- The four generic mutators, for a given comparison of resources. -/
def IsGenericMutator (CmpResources : ResourceRequirements → ResourceRequirements → Bool)
    (m : DCMutateFn) : Prop :=
  m = DeploymentConfigReplicasMutator ∨ m = DeploymentConfigContainerResourcesMutator CmpResources ∨
    m = DeploymentConfigAffinityMutator ∨ m = DeploymentConfigTolerationsMutator

/-! ## Convergence engine -/

/-- The outcome of one pass of the convergence engine on one object. -/
inductive ReconcileOutcome where
  | Created
  | Updated
  | Unchanged
  | Failed (err : Error)
  | Aborted (value : PanicValue)
  deriving DecidableEq, Repr

/-- What one pass of the engine did: its outcome and the create and update calls it issued. -/
structure ReconcileRun where
  outcome : ReconcileOutcome
  createCalls : List KubernetesObject
  updateCalls : List KubernetesObject
  deriving DecidableEq, Repr

/-- Modelled from the spec: the convergence engine `Reconcile(desired, mutators)` of section 4.1
(the get-or-create-or-update primitive of the base reconciler, which is not among the sources).
`found` is the object fetched by the identity of `desired`, if there is one. Not found: create
`desired` verbatim, `Created`. Found: run the mutator on `(existing, desired)`; if it reports a
change, persist the mutated `existing` by a single update call, `Updated`; else `Unchanged`.
An error of the mutator is returned and a panic aborts the pass, both without a write. -/
def ConvergenceEngine.Reconcile (found : Option KubernetesObject) (desired : KubernetesObject)
    (mutator : MutateFn) : ReconcileRun :=
  match found with
  | none => { outcome := .Created, createCalls := [desired], updateCalls := [] }
  | some existing =>
    match mutator existing desired with
    | .returned _ (some err) _ => { outcome := .Failed err, createCalls := [], updateCalls := [] }
    | .returned true none existing1 =>
      { outcome := .Updated, createCalls := [], updateCalls := [existing1] }
    | .returned false none _ => { outcome := .Unchanged, createCalls := [], updateCalls := [] }
    | .panicked value _ => { outcome := .Aborted value, createCalls := [], updateCalls := [] }

/-! ## System reconciler (`system_reconciler.go`) -/

/-- The loop `for idx := 0; idx < 3; idx++` of `systemAppDCResourceMutator`, over the indices
still to visit; an access beyond the end of a container list is the run-time panic of Go. -/
def systemAppDCResourceLoop (CmpResources : ResourceRequirements → ResourceRequirements → Bool)
    (desired : DeploymentConfig) : List Nat → Bool → DeploymentConfig → DCMutateOutcome
  | [], update, existing => .returned update existing
  | idx :: rest, update, existing =>
    match existing.Spec.Template.Spec.Containers[idx]?,
        desired.Spec.Template.Spec.Containers[idx]? with
    | none, _ =>
      .panicked (.indexOutOfRange idx existing.Spec.Template.Spec.Containers.length) existing
    | some _, none =>
      .panicked (.indexOutOfRange idx desired.Spec.Template.Spec.Containers.length) existing
    | some existingContainer, some desiredContainer =>
      if ¬ CmpResources existingContainer.Resources desiredContainer.Resources then
        systemAppDCResourceLoop CmpResources desired rest true
          { existing with
              Spec.Template.Spec.Containers :=
                existing.Spec.Template.Spec.Containers.set idx
                  { existingContainer with Resources := desiredContainer.Resources } }
      else
        systemAppDCResourceLoop CmpResources desired rest update existing

/-- `func (r *SystemReconciler) systemAppDCResourceMutator(desired, existing
*appsv1.DeploymentConfig) bool`. -/
def systemAppDCResourceMutator
    (CmpResources : ResourceRequirements → ResourceRequirements → Bool) : DCMutateFn :=
  fun desired existing =>
    if desired.Spec.Template.Spec.Containers.length ≠ 3 then
      .panicked (.containersLength desired.Spec.Template.Spec.Containers.length 3) existing
    else
      let step1 : Bool × DeploymentConfig :=
        if existing.Spec.Template.Spec.Containers.length ≠ 3 then
          (true, { existing with
                     Spec.Template.Spec.Containers := desired.Spec.Template.Spec.Containers })
        else (false, existing)
      systemAppDCResourceLoop CmpResources desired [0, 1, 2] step1.1 step1.2

/-! ## DeveloperUser controller (`developeruser_controller.go`) -/

/-- The `field.Path` of apimachinery: the names from the root to the addressed field. -/
structure Path where
  segments : List String
  deriving DecidableEq, Repr

/-- `field.NewPath(name)`. -/
def Path.NewPath (name : String) : Path := ⟨[name]⟩

/-- `(*Path).Child(name)`. -/
def Path.Child (p : Path) (name : String) : Path := ⟨p.segments ++ [name]⟩

/-- `(*Path).String()`: the names joined by dots. -/
def Path.toString (p : Path) : String := ".".intercalate p.segments

/-- `field.Invalid(field, value, detail)`; `value` is the rendering of the offending value. -/
def Invalid (field : Path) (value : String) (detail : String) : FieldError :=
  { Field := field.toString, BadValue := value, Detail := detail }

/-- `errors.IsNotFound(err)` of apimachinery: the error is an API status with reason NotFound. -/
def IsNotFound : Error → Bool
  | .statusNotFound _ => true
  | _ => false

/-- Modelled from the spec: `helper.IsInvalidSpecError` (package `pkg/helper`, not among the
sources): the error is a SpecError tagged `InvalidSpec`. -/
def IsInvalidSpecError : Error → Bool
  | .specField .InvalidError _ => true
  | _ => false

/-- Modelled from the spec: `helper.IsOrphanSpecError` (package `pkg/helper`, not among the
sources): the error is a SpecError tagged `Orphan`. -/
def IsOrphanSpecError : Error → Bool
  | .specField .OrphanError _ => true
  | _ => false

/-- The text of `err.Error()`. For a `SpecFieldError` it is the aggregate of its field errors,
rendered here as `field: Invalid value: value: detail` entries joined by commas. -/
def Error.toString : Error → String
  | .message msg => msg
  | .statusNotFound msg => msg
  | .specField _ list =>
    ", ".intercalate
      (list.map fun e => e.Field ++ ": Invalid value: " ++ e.BadValue ++ ": " ++ e.Detail)
  | .wrap msg _ => msg

/-- The `types.NamespacedName`. -/
structure NamespacedName where
  Namespace : String
  Name : String
  deriving DecidableEq, Repr

/-- The `controllerhelper.ProviderAccount`. -/
structure ProviderAccount where
  AdminURLStr : String
  Token : String
  deriving DecidableEq, Repr

/-- The `capabilitiesv1beta1.DeveloperAccount`: its provider account reference (the name of a
secret, when set) and `Ready`, the value of `Status.IsReady()`. -/
structure DeveloperAccount where
  Name : String
  Namespace : String
  ProviderAccountRef : Option String
  Ready : Bool
  deriving DecidableEq, Repr

/-- The `capabilitiesv1beta1.DeveloperUser`: `DeveloperAccountRef` is the name held by
`Spec.DeveloperAccountRef`, `DeletionTimestamp` the one of the object metadata. -/
structure DeveloperUser where
  Name : String
  Namespace : String
  DeletionTimestamp : Option Nat
  Username : String
  Email : String
  DeveloperAccountRef : String
  ProviderAccountRef : Option String
  deriving DecidableEq, Repr

/-- The user entity returned by the 3scale API client. -/
structure DeveloperUserObj where
  ID : Int
  State : String
  deriving DecidableEq, Repr

/-- The `DeveloperUserStatusReconciler`, with the arguments `NewDeveloperUserStatusReconciler`
was given (after the base reconciler). -/
structure DeveloperUserStatusReconciler where
  userResource : DeveloperUser
  parentAccountCR : Option DeveloperAccount
  providerAccountHost : String
  userObj : Option DeveloperUserObj
  reconcileError : Option Error
  deriving DecidableEq, Repr

/-- An event recorded by `EventRecorder().Eventf(object, eventtype, reason, format, args...)`. -/
structure Event where
  object : DeveloperUser
  eventtype : String
  reason : String
  message : String
  deriving DecidableEq, Repr

/-- The calls a reconciliation makes on its collaborators, in the order it makes them. -/
inductive Call where
  | getDeveloperUser (key : NamespacedName)
  | validate
  | lookupProviderAccount (ns : String) (ref : Option String)
  | getDeveloperAccount (key : NamespacedName)
  | portaClient
  | threescaleReconcile
  | statusReconcile (statusReconciler : DeveloperUserStatusReconciler)
  | event (e : Event)
  deriving DecidableEq, Repr

/-- What the reconciler reaches outside this file: the cluster client, the helper packages, the
3scale API and the status reconciler. Each field is the answer of that collaborator. -/
structure Collaborators where
  getDeveloperUser : NamespacedName → Except Error DeveloperUser
  debugLogging : Bool
  marshalIndent : DeveloperUser → Option Error
  validate : DeveloperUser → List FieldError
  lookupProviderAccount : String → Option String → Except Error ProviderAccount
  getDeveloperAccount : NamespacedName → Except Error DeveloperAccount
  portaClient : ProviderAccount → Option Error
  threescaleReconcile : DeveloperUser → DeveloperAccount → ProviderAccount →
    Option DeveloperUserObj × Option Error
  statusReconcile : DeveloperUserStatusReconciler → Result × Option Error

/-- `func (r *DeveloperUserReconciler) validateSpec(resource) error`. -/
def validateSpec (c : Collaborators) (resource : DeveloperUser) : Option Error :=
  let errors := [] ++ c.validate resource
  if errors.length = 0 then none
  else some (.specField .InvalidError errors)

/-- `func (r *DeveloperUserReconciler) findParentAccount(userCR, userProviderAccount, logger)`,
with the calls it made. -/
def findParentAccount (c : Collaborators) (userCR : DeveloperUser)
    (userProviderAccount : ProviderAccount) : Except Error DeveloperAccount × List Call :=
  let parentAccountFldPath := (Path.NewPath "spec").Child "developerAccountRef"
  let devAccountKey : NamespacedName :=
    { Name := userCR.DeveloperAccountRef, Namespace := userCR.Namespace }
  match c.getDeveloperAccount devAccountKey with
  | .error err =>
    if IsNotFound err then
      (.error (.specField .OrphanError
        [Invalid parentAccountFldPath userCR.DeveloperAccountRef
          "parent account resource not found"]),
       [.getDeveloperAccount devAccountKey])
    else (.error err, [.getDeveloperAccount devAccountKey])
  | .ok devAccountCR =>
    match c.lookupProviderAccount userCR.Namespace devAccountCR.ProviderAccountRef with
    | .error err =>
      (.error err, [.getDeveloperAccount devAccountKey,
        .lookupProviderAccount userCR.Namespace devAccountCR.ProviderAccountRef])
    | .ok parentProviderAccount =>
      if userProviderAccount.AdminURLStr ≠ parentProviderAccount.AdminURLStr then
        (.error (.specField .OrphanError
          [Invalid parentAccountFldPath userCR.DeveloperAccountRef
            "parent account resource does not belong to the same provider account"]),
         [.getDeveloperAccount devAccountKey,
          .lookupProviderAccount userCR.Namespace devAccountCR.ProviderAccountRef])
      else if ¬ devAccountCR.Ready then
        (.error (.specField .OrphanError
          [Invalid parentAccountFldPath userCR.DeveloperAccountRef
            "parent account resource not ready"]),
         [.getDeveloperAccount devAccountKey,
          .lookupProviderAccount userCR.Namespace devAccountCR.ProviderAccountRef])
      else
        (.ok devAccountCR, [.getDeveloperAccount devAccountKey,
          .lookupProviderAccount userCR.Namespace devAccountCR.ProviderAccountRef])

/-- `func (r *DeveloperUserReconciler) reconcileSpec(userCR, logger)
(*DeveloperUserStatusReconciler, error)`, with the calls it made. -/
def reconcileSpec (c : Collaborators) (userCR : DeveloperUser) :
    DeveloperUserStatusReconciler × Option Error × List Call :=
  match validateSpec c userCR with
  | some err => (⟨userCR, none, "", none, some err⟩, some err, [.validate])
  | none =>
    match c.lookupProviderAccount userCR.Namespace userCR.ProviderAccountRef with
    | .error err =>
      (⟨userCR, none, "", none, some err⟩, some err,
        [.validate, .lookupProviderAccount userCR.Namespace userCR.ProviderAccountRef])
    | .ok providerAccount =>
      match findParentAccount c userCR providerAccount with
      | (.error err, calls) =>
        (⟨userCR, none, providerAccount.AdminURLStr, none, some err⟩, some err,
          [.validate, .lookupProviderAccount userCR.Namespace userCR.ProviderAccountRef] ++ calls)
      | (.ok parentAccountCR, calls) =>
        match c.portaClient providerAccount with
        | some err =>
          (⟨userCR, some parentAccountCR, providerAccount.AdminURLStr, none, some err⟩, some err,
            [.validate, .lookupProviderAccount userCR.Namespace userCR.ProviderAccountRef] ++
              calls ++ [.portaClient])
        | none =>
          let out := c.threescaleReconcile userCR parentAccountCR providerAccount
          (⟨userCR, some parentAccountCR, providerAccount.AdminURLStr, out.1, out.2⟩, out.2,
            [.validate, .lookupProviderAccount userCR.Namespace userCR.ProviderAccountRef] ++
              calls ++ [.portaClient, .threescaleReconcile])

/-- What `Reconcile` returned and the calls it made, events included. -/
structure ReconcileTrace where
  result : Result
  err : Option Error
  calls : List Call
  deriving DecidableEq, Repr

/-- `func (r *DeveloperUserReconciler) Reconcile(req ctrl.Request) (ctrl.Result, error)`. -/
def DeveloperUserReconciler.Reconcile (c : Collaborators) (req : NamespacedName) :
    ReconcileTrace :=
  match c.getDeveloperUser req with
  | .error err =>
    if IsNotFound err then ⟨Result.empty, none, [.getDeveloperUser req]⟩
    else ⟨Result.empty, some err, [.getDeveloperUser req]⟩
  | .ok developerUserCR =>
    match (if c.debugLogging then c.marshalIndent developerUserCR else none) with
    | some err => ⟨Result.empty, some err, [.getDeveloperUser req]⟩
    | none =>
      if developerUserCR.DeletionTimestamp.isSome then
        ⟨Result.empty, none, [.getDeveloperUser req]⟩
      else
        let spec := reconcileSpec c developerUserCR
        let statusReconciler := spec.1
        let reconcileErr := spec.2.1
        let status := c.statusReconcile statusReconciler
        let statusResult := status.1
        let calls := [.getDeveloperUser req] ++ spec.2.2 ++ [.statusReconcile statusReconciler]
        match status.2 with
        | some statusUpdateErr =>
          match reconcileErr with
          | some rErr =>
            ⟨Result.empty,
             some (.wrap ("Failed to reconcile developer user: " ++ rErr.toString ++
               ". Failed to update status: " ++ statusUpdateErr.toString) statusUpdateErr), calls⟩
          | none =>
            ⟨Result.empty,
             some (.wrap ("Failed to update developers user status: " ++ statusUpdateErr.toString)
               statusUpdateErr), calls⟩
        | none =>
          if statusResult.Requeue then ⟨statusResult, none, calls⟩
          else
            match reconcileErr with
            | some rErr =>
              if IsInvalidSpecError rErr then
                ⟨Result.empty, none,
                  calls ++ [.event ⟨developerUserCR, "Warning", "Invalid developer user spec",
                    rErr.toString⟩]⟩
              else if IsOrphanSpecError rErr then
                ⟨{ Requeue := true, RequeueAfter := 0 }, none, calls⟩
              else
                ⟨Result.empty, some rErr,
                  calls ++ [.event ⟨developerUserCR, "Warning", "ReconcileError",
                    rErr.toString⟩]⟩
            | none => ⟨Result.empty, none, calls⟩

/-- The collaborators of the concrete instances: the user `alice` of namespace `ns` is found,
its spec is valid, its provider account resolves to `https://admin`; the developer account
named `acme` exists and is not ready; `missing` does not exist. The provider account of `acme`
resolves when `parentLookupOk` holds and fails otherwise. -/
def sampleCollaborators (parentLookupOk : Bool) : Collaborators where
  getDeveloperUser := fun key =>
    if key.Name = "alice" then
      .ok ⟨"alice", key.Namespace, none, "alice", "alice@example.com", "acme", none⟩
    else if key.Name = "bob" then
      .ok ⟨"bob", key.Namespace, none, "bob", "bob@example.com", "missing", none⟩
    else .error (.statusNotFound "developeruser not found")
  debugLogging := false
  marshalIndent := fun _ => none
  validate := fun _ => []
  lookupProviderAccount := fun _ ref =>
    match ref with
    | none => .ok ⟨"https://admin", "token"⟩
    | some _ =>
      if parentLookupOk then .ok ⟨"https://admin", "token"⟩
      else .error (.message "secret not found")
  getDeveloperAccount := fun key =>
    if key.Name = "acme" then .ok ⟨"acme", key.Namespace, some "provider-secret", false⟩
    else .error (.statusNotFound "developeraccount not found")
  portaClient := fun _ => none
  threescaleReconcile := fun _ _ _ => (some ⟨1, "active"⟩, none)
  statusReconcile := fun _ => (Result.empty, none)

/-- `errors.Unwrap(err)`: what an error built by `fmt.Errorf` with `%w` wraps. -/
def Error.Unwrap : Error → Option Error
  | .wrap _ cause => some cause
  | _ => none

/-- The call is an invocation of `statusReconciler.Reconcile()`. -/
def Call.isStatusReconcile : Call → Bool
  | .statusReconcile _ => true
  | _ => false

/-- The collaborators of `sampleCollaborators true`, except that `Validate()` reports the
username as missing, and that the status reconciler fails when `statusFails` holds. -/
def invalidCollaborators (statusFails : Bool) : Collaborators :=
  { sampleCollaborators true with
    validate := fun _ => [⟨"spec.username", "", "username is required"⟩]
    statusReconcile := fun _ =>
      if statusFails then (Result.empty, some (.message "status update conflict"))
      else (Result.empty, none) }

/-- The collaborators of `sampleCollaborators true`, except that the 3scale API call of the
remote reconcile fails. -/
def remoteFailureCollaborators : Collaborators :=
  { sampleCollaborators true with
    getDeveloperAccount := fun key => .ok ⟨key.Name, key.Namespace, none, true⟩
    threescaleReconcile := fun _ _ _ => (none, some (.message "3scale API unreachable")) }

/-! ## Environment variables (`deploymentconfig.go`, `upgrade.go`) -/

/-- Modelled from the spec: `helper.FindEnvVar(vars, name)` (package `pkg/helper`, not among the
sources), as its callers read it: the index of the first entry of `vars` named `name`, and a
negative number (`-1`) when no entry has that name. -/
def FindEnvVar : List EnvVar → String → Int
  | [], _ => -1
  | v :: vars, name =>
    if v.Name = name then 0
    else if FindEnvVar vars name < 0 then -1
    else FindEnvVar vars name + 1

/-- `func DeploymentConfigEnvVarReconciler(desired, existing *appsv1.DeploymentConfig, envVar
string) bool`. The accesses `Containers[0]` and `Env[idx]` are matched on the lists; one that
is out of range is the run-time panic of Go. -/
def DeploymentConfigEnvVarReconciler (desired existing : DeploymentConfig) (envVar : String) :
    DCMutateOutcome :=
  match existing.Spec.Template.Spec.Containers, desired.Spec.Template.Spec.Containers with
  | [], _ => .panicked (.indexOutOfRange 0 0) existing
  | _ :: _, [] => .panicked (.indexOutOfRange 0 0) existing
  | existingContainer :: others, desiredContainer :: _ =>
    let desiredIdx := FindEnvVar desiredContainer.Env envVar
    let existingIdx := FindEnvVar existingContainer.Env envVar
    if desiredIdx < 0 ∧ existingIdx ≥ 0 then
      .returned true
        { existing with
            Spec.Template.Spec.Containers :=
              { existingContainer with
                  Env := existingContainer.Env.eraseIdx existingIdx.toNat } :: others }
    else if desiredIdx < 0 ∧ existingIdx < 0 then
      .returned false existing
    else if desiredIdx ≥ 0 ∧ existingIdx < 0 then
      match desiredContainer.Env[desiredIdx.toNat]? with
      | none => .panicked (.indexOutOfRange desiredIdx.toNat desiredContainer.Env.length) existing
      | some desiredVar =>
        .returned true
          { existing with
              Spec.Template.Spec.Containers :=
                { existingContainer with Env := existingContainer.Env ++ [desiredVar] } ::
                  others }
    else
      match existingContainer.Env[existingIdx.toNat]?, desiredContainer.Env[desiredIdx.toNat]? with
      | none, _ =>
        .panicked (.indexOutOfRange existingIdx.toNat existingContainer.Env.length) existing
      | some _, none =>
        .panicked (.indexOutOfRange desiredIdx.toNat desiredContainer.Env.length) existing
      | some existingVar, some desiredVar =>
        if ¬ (existingVar = desiredVar) then
          .returned true
            { existing with
                Spec.Template.Spec.Containers :=
                  { existingContainer with
                      Env := existingContainer.Env.set existingIdx.toNat desiredVar } :: others }
        else
          .returned false existing

/-- The loop `for _, envVarName := range envVarNames` of `deleteDeploymentConfigEnvVars` over
one env list, with the running value of `update`; `append(env[:idx], env[idx+1:]...)` drops the
entry at `idx`. -/
def deleteEnvVarsLoop : List String → List EnvVar → Bool → List EnvVar × Bool
  | [], env, update => (env, update)
  | envVarName :: envVarNames, env, update =>
    if FindEnvVar env envVarName ≥ 0 then
      deleteEnvVarsLoop envVarNames (env.eraseIdx (FindEnvVar env envVarName).toNat) true
    else
      deleteEnvVarsLoop envVarNames env update

/-- The loop over the containers (or the init containers) of `deleteDeploymentConfigEnvVars`. -/
def deleteContainersEnvVars (envVarNames : List String) :
    List Container → Bool → List Container × Bool
  | [], update => ([], update)
  | container :: containers, update =>
    let inner := deleteEnvVarsLoop envVarNames container.Env update
    let rest := deleteContainersEnvVars envVarNames containers inner.2
    ({ container with Env := inner.1 } :: rest.1, rest.2)

/-- The hook with the env of its `ExecNewPod` replaced. -/
def LifecycleHook.withEnv (hook : LifecycleHook) (env : List EnvVar) : LifecycleHook :=
  { hook with ExecNewPod := hook.ExecNewPod.map fun pod => { pod with Env := env } }

/-- The pre-hook part of `deleteDeploymentConfigEnvVars`: `preHookPod` is the `ExecNewPod` of
the rolling pre hook, overwritten by the one of the recreate pre hook when that exists; the
names are deleted from `preHookPod.Env`. -/
def deletePreHookEnvVars (envVarNames : List String) (strategy : DeploymentStrategy)
    (update : Bool) : DeploymentStrategy × Bool :=
  match (strategy.RecreateParams.bind fun p => p.Pre).bind fun h => h.ExecNewPod with
  | some preHookPod =>
    let inner := deleteEnvVarsLoop envVarNames preHookPod.Env update
    ({ strategy with
         RecreateParams := strategy.RecreateParams.map fun p =>
           { p with Pre := p.Pre.map fun h => h.withEnv inner.1 } }, inner.2)
  | none =>
    match (strategy.RollingParams.bind fun p => p.Pre).bind fun h => h.ExecNewPod with
    | some preHookPod =>
      let inner := deleteEnvVarsLoop envVarNames preHookPod.Env update
      ({ strategy with
           RollingParams := strategy.RollingParams.map fun p =>
             { p with Pre := p.Pre.map fun h => h.withEnv inner.1 } }, inner.2)
    | none => (strategy, update)

/-- The post-hook part of `deleteDeploymentConfigEnvVars`, built as the pre-hook part. -/
def deletePostHookEnvVars (envVarNames : List String) (strategy : DeploymentStrategy)
    (update : Bool) : DeploymentStrategy × Bool :=
  match (strategy.RecreateParams.bind fun p => p.Post).bind fun h => h.ExecNewPod with
  | some postHookPod =>
    let inner := deleteEnvVarsLoop envVarNames postHookPod.Env update
    ({ strategy with
         RecreateParams := strategy.RecreateParams.map fun p =>
           { p with Post := p.Post.map fun h => h.withEnv inner.1 } }, inner.2)
  | none =>
    match (strategy.RollingParams.bind fun p => p.Post).bind fun h => h.ExecNewPod with
    | some postHookPod =>
      let inner := deleteEnvVarsLoop envVarNames postHookPod.Env update
      ({ strategy with
           RollingParams := strategy.RollingParams.map fun p =>
             { p with Post := p.Post.map fun h => h.withEnv inner.1 } }, inner.2)
    | none => (strategy, update)

/-- The mid-hook part of `deleteDeploymentConfigEnvVars`; only the recreate strategy has a mid
hook. -/
def deleteMidHookEnvVars (envVarNames : List String) (strategy : DeploymentStrategy)
    (update : Bool) : DeploymentStrategy × Bool :=
  match (strategy.RecreateParams.bind fun p => p.Mid).bind fun h => h.ExecNewPod with
  | some midHookPod =>
    let inner := deleteEnvVarsLoop envVarNames midHookPod.Env update
    ({ strategy with
         RecreateParams := strategy.RecreateParams.map fun p =>
           { p with Mid := p.Mid.map fun h => h.withEnv inner.1 } }, inner.2)
  | none => (strategy, update)

/-- The body of `deleteDeploymentConfigEnvVars` between the Get and the update: `existing` as
the deletions leave it, and the final value of `update`. -/
def deleteEnvVarsFrom (envVarNames : List String) (existing : DeploymentConfig) :
    DeploymentConfig × Bool :=
  let containers :=
    deleteContainersEnvVars envVarNames existing.Spec.Template.Spec.Containers false
  let initContainers :=
    deleteContainersEnvVars envVarNames existing.Spec.Template.Spec.InitContainers containers.2
  let pre := deletePreHookEnvVars envVarNames existing.Spec.Strategy initContainers.2
  let post := deletePostHookEnvVars envVarNames pre.1 pre.2
  let mid := deleteMidHookEnvVars envVarNames post.1 post.2
  ({ existing with
       Spec.Strategy := mid.1
       Spec.Template.Spec.Containers := containers.1
       Spec.Template.Spec.InitContainers := initContainers.1 }, mid.2)

/-- What a run of `deleteDeploymentConfigEnvVars` returned, the object it held at the end (none
when the Get failed) and the objects it passed to `UpdateResource`. -/
structure DeleteEnvVarsRun where
  result : Result
  err : Option Error
  existing : Option DeploymentConfig
  updateCalls : List DeploymentConfig
  deriving DecidableEq, Repr

/-- `func (u *UpgradeApiManager) deleteDeploymentConfigEnvVars(desired, envVarNames)`. `get` is
`u.Client().Get`, `UpdateResource` is `u.UpdateResource`, `ns` is `u.apiManager.Namespace`. -/
def deleteDeploymentConfigEnvVars (get : NamespacedName → Except Error DeploymentConfig)
    (UpdateResource : DeploymentConfig → Option Error) (ns : String)
    (desired : DeploymentConfig) (envVarNames : List String) : DeleteEnvVarsRun :=
  match get { Name := desired.Name, Namespace := ns } with
  | .error err => { result := Result.empty, err := some err, existing := none, updateCalls := [] }
  | .ok existing =>
    let out := deleteEnvVarsFrom envVarNames existing
    if out.2 then
      match UpdateResource out.1 with
      | some err =>
        { result := Result.empty, err := some err, existing := some out.1,
          updateCalls := [out.1] }
      | none =>
        { result := Result.empty, err := none, existing := some out.1, updateCalls := [out.1] }
    else
      { result := Result.empty, err := none, existing := some out.1, updateCalls := [] }

/-- The env list without the entries whose name is in the deletion list, the others in their
original order: what the claims expect of the deletion. -/
def withoutNames (envVarNames : List String) (env : List EnvVar) : List EnvVar :=
  env.filter fun v => decide (v.Name ∉ envVarNames)

/-- No listed name is carried by two entries of the env list. -/
def NoRepeatedName (envVarNames : List String) (env : List EnvVar) : Prop :=
  ∀ name ∈ envVarNames, env.countP (fun v => decide (v.Name = name)) ≤ 1

instance (envVarNames : List String) (env : List EnvVar) :
    Decidable (NoRepeatedName envVarNames env) :=
  inferInstanceAs
    (Decidable (∀ name ∈ envVarNames, env.countP (fun v => decide (v.Name = name)) ≤ 1))

/-- The `ExecNewPod` of a hook, when the hook and its pod exist. -/
def hookPod (hook : Option LifecycleHook) : Option ExecNewPodHook :=
  hook.bind fun h => h.ExecNewPod

/-- The hook with the listed names removed from the env of its pod. -/
def hookWithoutNames (envVarNames : List String) (hook : Option LifecycleHook) :
    Option LifecycleHook :=
  hook.map fun h => h.withEnv (withoutNames envVarNames ((h.ExecNewPod.map fun p => p.Env).getD []))

/-- The strategy with the listed names removed from the env of every hook pod. -/
def strategyWithoutNames (envVarNames : List String) (strategy : DeploymentStrategy) :
    DeploymentStrategy :=
  { RecreateParams := strategy.RecreateParams.map fun p =>
      { Pre := hookWithoutNames envVarNames p.Pre
        Mid := hookWithoutNames envVarNames p.Mid
        Post := hookWithoutNames envVarNames p.Post }
    RollingParams := strategy.RollingParams.map fun p =>
      { Pre := hookWithoutNames envVarNames p.Pre
        Post := hookWithoutNames envVarNames p.Post } }

/-- The DeploymentConfig with the listed names removed from the env of every container, init
container and pre-, mid- and post-hook pod: what the claims expect of
`deleteDeploymentConfigEnvVars`. -/
def withoutEnvVars (envVarNames : List String) (dc : DeploymentConfig) : DeploymentConfig :=
  { dc with
      Spec.Strategy := strategyWithoutNames envVarNames dc.Spec.Strategy
      Spec.Template.Spec.Containers :=
        dc.Spec.Template.Spec.Containers.map fun c =>
          { c with Env := withoutNames envVarNames c.Env }
      Spec.Template.Spec.InitContainers :=
        dc.Spec.Template.Spec.InitContainers.map fun c =>
          { c with Env := withoutNames envVarNames c.Env } }

/-- The env lists of the hook pods of a strategy. -/
def strategyEnvLists (strategy : DeploymentStrategy) : List (List EnvVar) :=
  ((hookPod (strategy.RecreateParams.bind fun p => p.Pre)).map fun p => p.Env).toList ++
  ((hookPod (strategy.RecreateParams.bind fun p => p.Mid)).map fun p => p.Env).toList ++
  ((hookPod (strategy.RecreateParams.bind fun p => p.Post)).map fun p => p.Env).toList ++
  ((hookPod (strategy.RollingParams.bind fun p => p.Pre)).map fun p => p.Env).toList ++
  ((hookPod (strategy.RollingParams.bind fun p => p.Post)).map fun p => p.Env).toList

/-- The env lists of a DeploymentConfig: of its containers, init containers and hook pods. -/
def envLists (dc : DeploymentConfig) : List (List EnvVar) :=
  dc.Spec.Template.Spec.Containers.map (fun c => c.Env) ++
  dc.Spec.Template.Spec.InitContainers.map (fun c => c.Env) ++
  strategyEnvLists dc.Spec.Strategy

/-- The strategy does not carry a rolling and a recreate hook pod of the same kind. -/
def OneHookPodPerKind (strategy : DeploymentStrategy) : Prop :=
  (hookPod (strategy.RecreateParams.bind fun p => p.Pre) = none ∨
    hookPod (strategy.RollingParams.bind fun p => p.Pre) = none) ∧
  (hookPod (strategy.RecreateParams.bind fun p => p.Post) = none ∨
    hookPod (strategy.RollingParams.bind fun p => p.Post) = none)

/-- The env list that the deletion loop leaves, used in the proofs to name its result. -/
def envAfterDeletion (envVarNames : List String) (env : List EnvVar) : List EnvVar :=
  (deleteEnvVarsLoop envVarNames env false).1

/-- Whether the deletion loop removed an entry of the env list. -/
def deletionHappened (envVarNames : List String) (env : List EnvVar) : Bool :=
  (deleteEnvVarsLoop envVarNames env false).2

/-- The three hook parts of `deleteDeploymentConfigEnvVars` in the order of the code: pre, post,
mid. -/
def deleteHooksEnvVars (envVarNames : List String) (strategy : DeploymentStrategy)
    (update : Bool) : DeploymentStrategy × Bool :=
  let pre := deletePreHookEnvVars envVarNames strategy update
  let post := deletePostHookEnvVars envVarNames pre.1 pre.2
  deleteMidHookEnvVars envVarNames post.1 post.2

instance (strategy : DeploymentStrategy) : Decidable (OneHookPodPerKind strategy) :=
  inferInstanceAs
    (Decidable
      ((hookPod (strategy.RecreateParams.bind fun p => p.Pre) = none ∨
          hookPod (strategy.RollingParams.bind fun p => p.Pre) = none) ∧
        (hookPod (strategy.RecreateParams.bind fun p => p.Post) = none ∨
          hookPod (strategy.RollingParams.bind fun p => p.Post) = none)))

/-- The DeploymentConfig of the concrete instances: one container named `system` with the
given env list, and nothing else. -/
def sampleDC (env : List EnvVar) : DeploymentConfig :=
  { DeploymentConfig.zero with
      Name := "system-app"
      Spec.Template.Spec.Containers := [⟨"system", "system:2.10", env, ⟨[], []⟩⟩] }

/-- The DeploymentConfig of the concrete instances with a rolling and a recreate pre hook, each
with a pod whose env holds `B=2`. -/
def twoPreHooksDC : DeploymentConfig :=
  { DeploymentConfig.zero with
      Name := "system-app"
      Spec.Strategy :=
        { RecreateParams :=
            some { Pre := some ⟨"Abort", some ⟨[], [⟨"B", "2", none⟩], "system"⟩⟩,
                   Mid := none, Post := none }
          RollingParams :=
            some { Pre := some ⟨"Abort", some ⟨[], [⟨"B", "2", none⟩], "system"⟩⟩,
                   Post := none } } }

/-! ## Upgrade pipeline (`upgrade.go`) -/

/-- The selectors of `v1alpha1.ExternalComponentsSpec` that the upgrade passes to
`IsExternal`. -/
inductive ExternalComponent where
  | BackendRedis
  | SystemRedis
  | SystemDatabase
  | ZyncDatabase
  deriving DecidableEq, Repr

/-- The methods of `UpgradeApiManager` that the orchestration calls and that reach the cluster
through collaborators outside the sources (component builders, reconcilers, the client): each
is a step on the world. `IsExternal` is `u.apiManager.IsExternal(selector)`. -/
structure UpgradeSteps (σ : Type) where
  IsExternal : ExternalComponent → σ → Bool
  upgradeAMPImageStreams : upgradeDependencyFn σ
  upgradeBackendRedisImageStream : upgradeDependencyFn σ
  upgradeSystemRedisImageStream : upgradeDependencyFn σ
  upgradeSystemDatabaseImageStream : upgradeDependencyFn σ
  upgradeAPIcastDeploymentConfigs : upgradeDependencyFn σ
  upgradeBackendDeploymentConfigs : upgradeDependencyFn σ
  upgradeZyncDeploymentConfigs : upgradeDependencyFn σ
  upgradeMemcachedDeploymentConfig : upgradeDependencyFn σ
  upgradeSystemDeploymentConfigs : upgradeDependencyFn σ
  upgradeBackendRedisDeploymentConfig : upgradeDependencyFn σ
  upgradeSystemRedisDeploymentConfig : upgradeDependencyFn σ
  upgradeSystemDatabaseDeploymentConfig : upgradeDependencyFn σ
  upgradePodTemplateLabels : upgradeDependencyFn σ
  deleteSystemAppMessageBusConfigurations : upgradeDependencyFn σ
  deleteSystemSidekiqMessageBusConfigurations : upgradeDependencyFn σ
  deleteSystemSphinxMessageBusConfigurations : upgradeDependencyFn σ
  deleteSystemRedisMessageBusSecretAttributes : upgradeDependencyFn σ

/-- `func notExternal(selector) func(*UpgradeApiManager) bool`. -/
def notExternal {σ : Type} (s : UpgradeSteps σ) (selector : ExternalComponent) : σ → Bool :=
  fun u => !s.IsExternal selector u

/-- `func (u *UpgradeApiManager) upgradeDeploymentConfigs() (reconcile.Result, error)`. -/
def upgradeDeploymentConfigs {σ : Type} (s : UpgradeSteps σ) : upgradeDependencyFn σ := fun u =>
  let out1 := s.upgradeAPIcastDeploymentConfigs u
  if out1.1.1.Requeue || out1.1.2.isSome then out1 else
  let out2 := s.upgradeBackendDeploymentConfigs out1.2
  if out2.1.1.Requeue || out2.1.2.isSome then out2 else
  let out3 := s.upgradeZyncDeploymentConfigs out2.2
  if out3.1.1.Requeue || out3.1.2.isSome then out3 else
  let out4 := s.upgradeMemcachedDeploymentConfig out3.2
  if out4.1.1.Requeue || out4.1.2.isSome then out4 else
  let out5 := s.upgradeSystemDeploymentConfigs out4.2
  if out5.1.1.Requeue || out5.1.2.isSome then out5 else
  let upgradeDCs := sequentially
    [when (notExternal s .BackendRedis) s.upgradeBackendRedisDeploymentConfig,
     when (notExternal s .SystemRedis) s.upgradeSystemRedisDeploymentConfig,
     when (notExternal s .SystemDatabase) s.upgradeSystemDatabaseDeploymentConfig]
  let out6 := upgradeDCs out5.2
  if out6.1.1.Requeue || out6.1.2.isSome then out6 else
  ((Result.empty, none), out6.2)

/-- `func (u *UpgradeApiManager) upgradeImages() (reconcile.Result, error)`. -/
def upgradeImages {σ : Type} (s : UpgradeSteps σ) : upgradeDependencyFn σ := fun u =>
  let out1 := s.upgradeAMPImageStreams u
  if out1.1.1.Requeue || out1.1.2.isSome then out1 else
  let upgradeImages := sequentially
    [when (notExternal s .BackendRedis) s.upgradeBackendRedisImageStream,
     when (notExternal s .SystemRedis) s.upgradeSystemRedisImageStream,
     when (notExternal s .SystemDatabase) s.upgradeSystemDatabaseImageStream]
  let out2 := upgradeImages out1.2
  if out2.1.1.Requeue || out2.1.2.isSome then out2 else
  let out3 := upgradeDeploymentConfigs s out2.2
  if out3.1.1.Requeue || out3.1.2.isSome then out3 else
  ((Result.empty, none), out3.2)

/-- `func (u *UpgradeApiManager) Upgrade() (reconcile.Result, error)`. -/
def Upgrade {σ : Type} (s : UpgradeSteps σ) : upgradeDependencyFn σ := fun u =>
  let out1 := upgradeImages s u
  match out1.1.2 with
  | some err => ((out1.1.1, some (.wrap ("Upgrading images: " ++ err.toString) err)), out1.2)
  | none =>
    if out1.1.1.Requeue then ((out1.1.1, none), out1.2) else
    let out2 := s.upgradePodTemplateLabels out1.2
    match out2.1.2 with
    | some err =>
      ((out2.1.1, some (.wrap ("Upgrading pod template labels: " ++ err.toString) err)), out2.2)
    | none =>
      if out2.1.1.Requeue then ((out2.1.1, none), out2.2) else
      ((Result.empty, none), out2.2)

/-- `func (u *UpgradeApiManager) deleteMessageBusConfigurations() (reconcile.Result, error)`. -/
def deleteMessageBusConfigurations {σ : Type} (s : UpgradeSteps σ) : upgradeDependencyFn σ :=
  fun u =>
    let out1 := s.deleteSystemAppMessageBusConfigurations u
    if out1.1.1.Requeue || out1.1.2.isSome then out1 else
    let out2 := s.deleteSystemSidekiqMessageBusConfigurations out1.2
    if out2.1.1.Requeue || out2.1.2.isSome then out2 else
    let out3 := s.deleteSystemSphinxMessageBusConfigurations out2.2
    if out3.1.1.Requeue || out3.1.2.isSome then out3 else
    if !s.IsExternal .SystemRedis out3.2 then
      let out4 := s.deleteSystemRedisMessageBusSecretAttributes out3.2
      if out4.1.1.Requeue || out4.1.2.isSome then out4 else
      ((Result.empty, none), out4.2)
    else
      ((Result.empty, none), out3.2)

/-- The steps that `Upgrade` runs, in the order it runs them: the image streams (AMP, then the
guarded Redis and system database ones), the image change triggers of the deployment configs,
the pod template labels. -/
def upgradePipeline {σ : Type} (s : UpgradeSteps σ) : List (upgradeDependencyFn σ) :=
  [s.upgradeAMPImageStreams,
   when (notExternal s .BackendRedis) s.upgradeBackendRedisImageStream,
   when (notExternal s .SystemRedis) s.upgradeSystemRedisImageStream,
   when (notExternal s .SystemDatabase) s.upgradeSystemDatabaseImageStream,
   s.upgradeAPIcastDeploymentConfigs,
   s.upgradeBackendDeploymentConfigs,
   s.upgradeZyncDeploymentConfigs,
   s.upgradeMemcachedDeploymentConfig,
   s.upgradeSystemDeploymentConfigs,
   when (notExternal s .BackendRedis) s.upgradeBackendRedisDeploymentConfig,
   when (notExternal s .SystemRedis) s.upgradeSystemRedisDeploymentConfig,
   when (notExternal s .SystemDatabase) s.upgradeSystemDatabaseDeploymentConfig,
   s.upgradePodTemplateLabels]

/-- The steps of the concrete instances: every step appends its name to the log and returns
(no requeue, nil), except the image stream step of AMP, which returns `images`, and the pod
template label step, which returns `labels`. No component is external. -/
def sampleUpgradeSteps (images labels : StepResult) : UpgradeSteps (List String) where
  IsExternal := fun _ _ => false
  upgradeAMPImageStreams := logStep "upgradeAMPImageStreams" images
  upgradeBackendRedisImageStream := logStep "upgradeBackendRedisImageStream" (Result.empty, none)
  upgradeSystemRedisImageStream := logStep "upgradeSystemRedisImageStream" (Result.empty, none)
  upgradeSystemDatabaseImageStream :=
    logStep "upgradeSystemDatabaseImageStream" (Result.empty, none)
  upgradeAPIcastDeploymentConfigs :=
    logStep "upgradeAPIcastDeploymentConfigs" (Result.empty, none)
  upgradeBackendDeploymentConfigs :=
    logStep "upgradeBackendDeploymentConfigs" (Result.empty, none)
  upgradeZyncDeploymentConfigs := logStep "upgradeZyncDeploymentConfigs" (Result.empty, none)
  upgradeMemcachedDeploymentConfig :=
    logStep "upgradeMemcachedDeploymentConfig" (Result.empty, none)
  upgradeSystemDeploymentConfigs := logStep "upgradeSystemDeploymentConfigs" (Result.empty, none)
  upgradeBackendRedisDeploymentConfig :=
    logStep "upgradeBackendRedisDeploymentConfig" (Result.empty, none)
  upgradeSystemRedisDeploymentConfig :=
    logStep "upgradeSystemRedisDeploymentConfig" (Result.empty, none)
  upgradeSystemDatabaseDeploymentConfig :=
    logStep "upgradeSystemDatabaseDeploymentConfig" (Result.empty, none)
  upgradePodTemplateLabels := logStep "upgradePodTemplateLabels" labels
  deleteSystemAppMessageBusConfigurations :=
    logStep "deleteSystemAppMessageBusConfigurations" (Result.empty, none)
  deleteSystemSidekiqMessageBusConfigurations :=
    logStep "deleteSystemSidekiqMessageBusConfigurations" (Result.empty, none)
  deleteSystemSphinxMessageBusConfigurations :=
    logStep "deleteSystemSphinxMessageBusConfigurations" (Result.empty, none)
  deleteSystemRedisMessageBusSecretAttributes :=
    logStep "deleteSystemRedisMessageBusSecretAttributes" (Result.empty, none)

/-! ## Redis reconciler (`redis_reconciler.go`) -/

/-- What `RedisReconciler.Reconcile` calls: `Redis(r.apiManager, r.Client())`, which reads the
cluster and may fail, and the reconciliation of each object by the base reconciler, a step on
the world that returns an error or nil. `ConfigMap` tells whether `r.ConfigMap != nil`. -/
structure RedisReconcilerSteps (σ : Type) where
  Redis : σ → Option Error
  ConfigMap : Bool
  ReconcileDeploymentConfig : σ → Option Error × σ
  ReconcileService : σ → Option Error × σ
  ReconcileConfigMap : σ → Option Error × σ
  ReconcilePersistentVolumeClaim : σ → Option Error × σ
  ReconcileImagestream : σ → Option Error × σ
  ReconcileSecret : σ → Option Error × σ

/-- `func (r *RedisReconciler) Reconcile() (reconcile.Result, error)`. -/
def RedisReconciler.Reconcile {σ : Type} (s : RedisReconcilerSteps σ) : upgradeDependencyFn σ :=
  fun u =>
    match s.Redis u with
    | some err => ((Result.empty, some err), u)
    | none =>
      let out1 := s.ReconcileDeploymentConfig u
      match out1.1 with
      | some err => ((Result.empty, some err), out1.2)
      | none =>
        let out2 := s.ReconcileService out1.2
        match out2.1 with
        | some err => ((Result.empty, some err), out2.2)
        | none =>
          let out3 := if s.ConfigMap then s.ReconcileConfigMap out2.2 else (none, out2.2)
          match out3.1 with
          | some err => ((Result.empty, some err), out3.2)
          | none =>
            let out4 := s.ReconcilePersistentVolumeClaim out3.2
            match out4.1 with
            | some err => ((Result.empty, some err), out4.2)
            | none =>
              let out5 := s.ReconcileImagestream out4.2
              match out5.1 with
              | some err => ((Result.empty, some err), out5.2)
              | none =>
                let out6 := s.ReconcileSecret out5.2
                match out6.1 with
                | some err => ((Result.empty, some err), out6.2)
                | none => ((Result.empty, none), out6.2)

/-- The reconciliation of one object seen as a pipeline step: it returns `reconcile.Result{}`
with the error of the reconciliation. -/
def objectStep {σ : Type} (f : σ → Option Error × σ) : upgradeDependencyFn σ :=
  fun u => ((Result.empty, (f u).1), (f u).2)

/-- The object reconciliations of `RedisReconciler.Reconcile` in the order of the code; the
ConfigMap is there when the reconciler has one. -/
def redisObjectSteps {σ : Type} (s : RedisReconcilerSteps σ) : List (σ → Option Error × σ) :=
  [s.ReconcileDeploymentConfig, s.ReconcileService] ++
    (if s.ConfigMap then [s.ReconcileConfigMap] else []) ++
    [s.ReconcilePersistentVolumeClaim, s.ReconcileImagestream, s.ReconcileSecret]

/-- The reconciler of the concrete instances: each object reconciliation appends its kind to
the log and succeeds, except the one of the kind `failing`, which returns an error; building
the Redis component fails when `optionsFail` holds. -/
def sampleRedisSteps (optionsFail : Bool) (failing : String) : RedisReconcilerSteps (List String)
    where
  Redis := fun _ => if optionsFail then some (.message "redis options: secret not found") else none
  ConfigMap := true
  ReconcileDeploymentConfig := fun log =>
    (if failing = "DeploymentConfig" then some (.message "DeploymentConfig failed") else none,
      log ++ ["DeploymentConfig"])
  ReconcileService := fun log =>
    (if failing = "Service" then some (.message "Service failed") else none,
      log ++ ["Service"])
  ReconcileConfigMap := fun log =>
    (if failing = "ConfigMap" then some (.message "ConfigMap failed") else none,
      log ++ ["ConfigMap"])
  ReconcilePersistentVolumeClaim := fun log =>
    (if failing = "PersistentVolumeClaim" then some (.message "PersistentVolumeClaim failed")
      else none, log ++ ["PersistentVolumeClaim"])
  ReconcileImagestream := fun log =>
    (if failing = "ImageStream" then some (.message "ImageStream failed") else none,
      log ++ ["ImageStream"])
  ReconcileSecret := fun log =>
    (if failing = "Secret" then some (.message "Secret failed") else none, log ++ ["Secret"])

/-! ## Image change triggers (`upgrade.go`) -/

/-- The constant `appsv1.DeploymentTriggerOnImageChange`. -/
def DeploymentTriggerOnImageChange : String := "ImageChange"

/-- The loop of `findDeploymentTriggerOnImageChange` over the policies from index `i` on, with
the running value of `result`, and the two returns after the loop. -/
def findDeploymentTriggerLoop : List DeploymentTriggerPolicy → Nat → Int → Int × Option Error
  | [], _, result =>
    if result = -1 then
      (-1, some (.message "no imageChangeParams deployment trigger policy found"))
    else (result, none)
  | policy :: policies, i, result =>
    if policy.TriggerType = DeploymentTriggerOnImageChange then
      if result ≠ -1 then
        (-1, some (.message "found more than one imageChangeParams Deployment trigger policy"))
      else findDeploymentTriggerLoop policies (i + 1) i
    else findDeploymentTriggerLoop policies (i + 1) result

/-- `func (u *UpgradeApiManager) findDeploymentTriggerOnImageChange(triggerPolicies) (int,
error)`. -/
def findDeploymentTriggerOnImageChange (triggerPolicies : List DeploymentTriggerPolicy) :
    Int × Option Error :=
  findDeploymentTriggerLoop triggerPolicies 0 (-1)

/-- The run-time panics of Go that the trigger code can raise. -/
inductive RuntimePanic where
  | indexOutOfRange (index : Int) (length : Nat)
  | nilPointerDereference
  deriving DecidableEq, Repr

/-- How a call of `ensureDeploymentConfigImageChangeTrigger` ends: it returns `(bool, error)`,
or it panics; both carry `existing` as the call left it. -/
inductive EnsureOutcome where
  | returned (changed : Bool) (err : Option Error) (existing : DeploymentConfig)
  | panicked (value : RuntimePanic) (existing : DeploymentConfig)
  deriving DecidableEq, Repr

/-- The Go slice access `triggers[pos]`: out of range for a negative index or one beyond the
end. -/
def triggerAt (triggers : List DeploymentTriggerPolicy) (pos : Int) :
    Option DeploymentTriggerPolicy :=
  if pos < 0 then none else triggers[pos.toNat]?

/-- The text of `fmt.Errorf` with the format "unexpected: (quote)%s(quote) in DeploymentConfig
(quote)%s(quote)", the quote being the single quote character. -/
def unexpectedInDeploymentConfig (err : Error) (name : String) : Error :=
  .message ("unexpected: " ++ String.singleton (Char.ofNat 39) ++ err.toString ++
    String.singleton (Char.ofNat 39) ++ " in DeploymentConfig " ++
    String.singleton (Char.ofNat 39) ++ name ++ String.singleton (Char.ofNat 39))

/-- `func (u *UpgradeApiManager) ensureDeploymentConfigImageChangeTrigger(desired, existing
*appsv1.DeploymentConfig) (bool, error)`. `ImageChangeParams` is a pointer: reading `From.Name`
through a nil one panics; the one of existing is read first. -/
def ensureDeploymentConfigImageChangeTrigger (desired existing : DeploymentConfig) :
    EnsureOutcome :=
  match findDeploymentTriggerOnImageChange desired.Spec.Triggers with
  | (_, some err) => .returned false (some (unexpectedInDeploymentConfig err desired.Name)) existing
  | (desiredPos, none) =>
    match findDeploymentTriggerOnImageChange existing.Spec.Triggers with
    | (_, some err) =>
      .returned false (some (unexpectedInDeploymentConfig err existing.Name)) existing
    | (existingPos, none) =>
      match triggerAt desired.Spec.Triggers desiredPos with
      | none => .panicked (.indexOutOfRange desiredPos desired.Spec.Triggers.length) existing
      | some desiredTrigger =>
        match triggerAt existing.Spec.Triggers existingPos with
        | none => .panicked (.indexOutOfRange existingPos existing.Spec.Triggers.length) existing
        | some existingTrigger =>
          match existingTrigger.ImageChangeParams with
          | none => .panicked .nilPointerDereference existing
          | some existingParams =>
            match desiredTrigger.ImageChangeParams with
            | none => .panicked .nilPointerDereference existing
            | some desiredParams =>
              if ¬ (existingParams.From.Name = desiredParams.From.Name) then
                .returned true none
                  { existing with
                      Spec.Triggers :=
                        existing.Spec.Triggers.set existingPos.toNat
                          { existingTrigger with
                              ImageChangeParams :=
                                some { existingParams with
                                         From.Name := desiredParams.From.Name } } }
              else
                .returned false none existing

/-- What a run of `upgradeDeploymentConfigImageChangeTrigger` did: what it returned (none when
it panicked) and the objects it passed to `UpdateResource`. -/
structure TriggerUpgradeRun where
  returned : Option StepResult
  updateCalls : List DeploymentConfig
  deriving DecidableEq, Repr

/-- `func (u *UpgradeApiManager) upgradeDeploymentConfigImageChangeTrigger(desired)
(reconcile.Result, error)`. `get` is `u.Client().Get`, `UpdateResource` is `u.UpdateResource`,
`ns` is `u.apiManager.Namespace`. -/
def upgradeDeploymentConfigImageChangeTrigger
    (get : NamespacedName → Except Error DeploymentConfig)
    (UpdateResource : DeploymentConfig → Option Error) (ns : String)
    (desired : DeploymentConfig) : TriggerUpgradeRun :=
  match get { Name := desired.Name, Namespace := ns } with
  | .error err => { returned := some (Result.empty, some err), updateCalls := [] }
  | .ok existing =>
    match ensureDeploymentConfigImageChangeTrigger desired existing with
    | .panicked _ _ => { returned := none, updateCalls := [] }
    | .returned _ (some err) _ => { returned := some (Result.empty, some err), updateCalls := [] }
    | .returned changed none existing1 =>
      if changed then
        { returned := some ({ Requeue := true, RequeueAfter := 0 }, UpdateResource existing1),
          updateCalls := [existing1] }
      else
        { returned := some (Result.empty, none), updateCalls := [] }

/-- The DeploymentConfig of the concrete instances with one image change trigger on the image
stream tag `tag`, after a config change trigger. -/
def triggerDC (tag : String) : DeploymentConfig :=
  { DeploymentConfig.zero with
      Name := "apicast-staging"
      Spec.Triggers :=
        [⟨"ConfigChange", none⟩,
         ⟨"ImageChange", some ⟨true, ["apicast-staging"], ⟨"ImageStreamTag", "", tag⟩⟩⟩] }

/-- The test `triggerPolicies[i].Type == appsv1.DeploymentTriggerOnImageChange` of the loop of
`findDeploymentTriggerOnImageChange`, as a Boolean. -/
def isImageChangeTrigger (policy : DeploymentTriggerPolicy) : Bool :=
  decide (policy.TriggerType = DeploymentTriggerOnImageChange)

/-! ## Pod template labels (`upgrade.go`)

A Go `map[string]string` is kept as a list of entries and read with `List.lookup`. -/

/-- The Go map write `m[key] = value`. -/
def mapStore (m : List (String × String)) (key value : String) : List (String × String) :=
  (key, value) :: m.filter fun e => decide (e.1 ≠ key)

/-- The Go builtin `delete(m, key)`. -/
def mapDelete (m : List (String × String)) (key : String) : List (String × String) :=
  m.filter fun e => decide (e.1 ≠ key)

/-- Modelled from the spec: `helper.MergeMapStringString(modified, existing, desired)` is called
by `ensurePodTemplateLabels` and its body is not among the sources; the spec says of the label
migration that it merges the new labels. Every entry of desired that existing lacks, or holds
with another value, is written into existing and sets the flag; the pair returned is the final
flag and the final map. -/
def MergeMapStringString :
    Bool → List (String × String) → List (String × String) → Bool × List (String × String)
  | modified, existing, [] => (modified, existing)
  | modified, existing, (k, v) :: desired =>
    if existing.lookup k = some v then MergeMapStringString modified existing desired
    else MergeMapStringString true (mapStore existing k v) desired

/-- The slice `oldLabelKeys` of `ensurePodTemplateLabels`. -/
def oldLabelKeys : List String :=
  ["com.redhat.product-name", "com.redhat.component-type", "com.redhat.product-version",
   "com.redhat.component-version", "com.redhat.component-name"]

/-- The loop `for _, key := range oldLabelKeys` of `ensurePodTemplateLabels` over the keys left,
with the running values of `updated` and of the labels of existing. -/
def deleteOldLabelsLoop :
    List String → Bool → List (String × String) → Bool × List (String × String)
  | [], updated, labels => (updated, labels)
  | key :: keys, updated, labels =>
    if (labels.lookup key).isSome then deleteOldLabelsLoop keys true (mapDelete labels key)
    else deleteOldLabelsLoop keys updated labels

/-- The part of `ensurePodTemplateLabels` between the read of existing and the test of
`updated`: the merge of the labels of desired and the removal of the old metering labels. It
gives the final value of `updated` and existing as the code left it. -/
def mergePodTemplateLabels (desired existing : DeploymentConfig) : Bool × DeploymentConfig :=
  let merged :=
    MergeMapStringString false existing.Spec.Template.Labels desired.Spec.Template.Labels
  let cleaned := deleteOldLabelsLoop oldLabelKeys merged.1 merged.2
  (cleaned.1, { existing with Spec.Template.Labels := cleaned.2 })

/-- The two calls that the label migration makes on the cluster, `u.Client().Get` and
`u.UpdateResource`, over a cluster state `σ`. -/
structure Client (σ : Type) where
  Get : NamespacedName → σ → Except Error DeploymentConfig
  UpdateResource : DeploymentConfig → σ → Option Error × σ

/-- `func (u *UpgradeApiManager) ensurePodTemplateLabels(desired *appsv1.DeploymentConfig)
(bool, error)`; `ns` is `u.apiManager.Namespace`. -/
def ensurePodTemplateLabels {σ : Type} (client : Client σ) (ns : String)
    (desired : DeploymentConfig) (world : σ) : (Bool × Option Error) × σ :=
  match client.Get ⟨ns, desired.Name⟩ world with
  | .error err => ((false, some err), world)
  | .ok existing =>
    let out := mergePodTemplateLabels desired existing
    if out.1 then
      match client.UpdateResource out.2 world with
      | (some err, world1) => ((false, some err), world1)
      | (none, world1) => ((true, none), world1)
    else ((false, none), world)

/-- The loop `for _, desired := range deploymentConfigs` of `upgradePodTemplateLabels` over the
DeploymentConfigs left, with the running value of `updated`, and the return after it. -/
def podTemplateLabelsLoop {σ : Type} (client : Client σ) (ns : String) :
    List DeploymentConfig → Bool → upgradeDependencyFn σ
  | [], updated, world => (({ Requeue := updated, RequeueAfter := 0 }, none), world)
  | desired :: rest, updated, world =>
    match ensurePodTemplateLabels client ns desired world with
    | ((_, some err), world1) => ((Result.empty, some err), world1)
    | ((updatedTmp, none), world1) =>
      podTemplateLabelsLoop client ns rest (updated || updatedTmp) world1

/-- `func (u *UpgradeApiManager) upgradePodTemplateLabels() (reconcile.Result, error)`.
`deploymentConfigs` stands for the first part of the function, which builds the components and
collects their DeploymentConfigs, or fails. -/
def upgradePodTemplateLabels {σ : Type} (client : Client σ) (ns : String)
    (deploymentConfigs : σ → Except Error (List DeploymentConfig)) : upgradeDependencyFn σ :=
  fun world =>
    match deploymentConfigs world with
    | .error err => ((Result.empty, some err), world)
    | .ok dcs => podTemplateLabelsLoop client ns dcs false world

/-- A cluster answers reads with what was last written: after a successful update of the object
read under a key, by an object of the same name and namespace, a read of that key returns the
update and the reads of the other keys are as before. -/
def ReadsItsWrites {σ : Type} (client : Client σ) : Prop :=
  ∀ (world world1 : σ) (key : NamespacedName) (existing updated : DeploymentConfig),
    client.Get key world = .ok existing →
    client.UpdateResource updated world = (none, world1) →
    updated.Name = existing.Name → updated.Namespace = existing.Namespace →
    client.Get key world1 = .ok updated ∧
    ∀ other, other ≠ key → client.Get other world1 = client.Get other world

/-- The labels of desired are a Go map, so no key comes twice, and hold none of the old metering
labels. -/
def LabelsMigrated (desired : DeploymentConfig) : Prop :=
  (desired.Spec.Template.Labels.map Prod.fst).Nodup ∧
  ∀ key ∈ oldLabelKeys, desired.Spec.Template.Labels.lookup key = none

instance (desired : DeploymentConfig) : Decidable (LabelsMigrated desired) :=
  inferInstanceAs (Decidable
    ((desired.Spec.Template.Labels.map Prod.fst).Nodup ∧
      ∀ key ∈ oldLabelKeys, desired.Spec.Template.Labels.lookup key = none))

/-- The cluster of the concrete instances: the DeploymentConfigs it stores and the update calls
it has received. -/
structure Cluster where
  objects : List DeploymentConfig
  updateCalls : List DeploymentConfig
  deriving DecidableEq, Repr

/-- Whether a stored object is the one named by the key. -/
def hasKey (key : NamespacedName) (o : DeploymentConfig) : Bool :=
  decide (o.Namespace = key.Namespace ∧ o.Name = key.Name)

/-- The client of the concrete instances: a read returns the stored object of that name and
namespace, an update replaces it and is recorded. -/
def clusterClient : Client Cluster where
  Get := fun key world =>
    match world.objects.find? (hasKey key) with
    | some o => .ok o
    | none => .error (.statusNotFound "deploymentconfig not found")
  UpdateResource := fun obj world =>
    (none,
      { objects :=
          world.objects.map fun o => if hasKey ⟨obj.Namespace, obj.Name⟩ o then obj else o
        updateCalls := world.updateCalls ++ [obj] })

/-- The DeploymentConfig of the concrete instances named `name` in the namespace `ns` with the
pod template labels `labels`. -/
def labelledDC (name : String) (labels : List (String × String)) : DeploymentConfig :=
  { DeploymentConfig.zero with
      Name := name
      Namespace := "ns"
      Spec.Template.Labels := labels }

/-! ## System reconciler (`system_reconciler.go`) -/

/-- The objects that `SystemReconciler.Reconcile` takes from the System component, each named by
the method of `component.System` that builds it. -/
inductive SystemObject where
  | SharedStorage
  | ProviderService
  | MasterService
  | DeveloperService
  | SphinxService
  | MemcachedService
  | AppDeploymentConfig
  | SidekiqDeploymentConfig
  | SphinxDeploymentConfig
  | SystemConfigMap
  | EnvironmentConfigMap
  | SMTPSecret
  | EventsHookSecret
  | MasterApicastSecret
  | SeedSecret
  | RecaptchaSecret
  | AppSecret
  | MemcachedSecret
  | AppPodDisruptionBudget
  | SidekiqPodDisruptionBudget
  | SystemSidekiqPodMonitor
  | SystemAppPodMonitor
  | SystemGrafanaDashboard
  | SystemAppPrometheusRules
  | SystemSidekiqPrometheusRules
  deriving DecidableEq, Repr

/-- What `SystemReconciler.Reconcile` calls: `System(r.apiManager, r.Client())`, which reads the
cluster and may fail; the reconciliations of the base reconciler, one method per kind of object,
each a step on the world that returns an error or nil (the mutator passed with the object is
part of the step); `validateS3StorageProvidedConfiguration` and
`helper.SumRateForOpenshiftVersion`, which read the cluster. `FileStorageS3` tells whether
`r.apiManager.Spec.System.FileStorageSpec` and its field `S3` are both non-nil. -/
structure SystemReconcilerSteps (σ : Type) where
  System : σ → Option Error
  FileStorageS3 : Bool
  validateS3StorageProvidedConfiguration : σ → Option Error
  ReconcilePersistentVolumeClaim : SystemObject → σ → Option Error × σ
  ReconcileService : SystemObject → σ → Option Error × σ
  ReconcileDeploymentConfig : SystemObject → σ → Option Error × σ
  ReconcileConfigMap : SystemObject → σ → Option Error × σ
  ReconcileSecret : SystemObject → σ → Option Error × σ
  ReconcilePodDisruptionBudget : SystemObject → σ → Option Error × σ
  ReconcilePodMonitor : SystemObject → σ → Option Error × σ
  SumRateForOpenshiftVersion : σ → Option Error
  ReconcileGrafanaDashboard : SystemObject → σ → Option Error × σ
  ReconcilePrometheusRules : SystemObject → σ → Option Error × σ

/-- `func (r *SystemReconciler) reconcileFileStorage(system *component.System) error`. The
branch on `DeprecatedS3` only logs. -/
def SystemReconciler.reconcileFileStorage {σ : Type} (s : SystemReconcilerSteps σ) :
    σ → Option Error × σ :=
  fun u =>
    if s.FileStorageS3 then (s.validateS3StorageProvidedConfiguration u, u)
    else s.ReconcilePersistentVolumeClaim .SharedStorage u

/-- The statements `err = f(...)` and `if err != nil { return reconcile.Result{}, err }`,
followed by the rest of the function. -/
def orReturn {σ : Type} (f : σ → Option Error × σ) (rest : upgradeDependencyFn σ) :
    upgradeDependencyFn σ :=
  fun u =>
    match (f u).1 with
    | some err => ((Result.empty, some err), (f u).2)
    | none => rest (f u).2

/-- `func (r *SystemReconciler) Reconcile() (reconcile.Result, error)`. -/
def SystemReconciler.Reconcile {σ : Type} (s : SystemReconcilerSteps σ) :
    upgradeDependencyFn σ :=
  fun u =>
    match s.System u with
    | some err => ((Result.empty, some err), u)
    | none =>
      (orReturn (SystemReconciler.reconcileFileStorage s) <|
       orReturn (s.ReconcileService .ProviderService) <|
       orReturn (s.ReconcileService .MasterService) <|
       orReturn (s.ReconcileService .DeveloperService) <|
       orReturn (s.ReconcileService .SphinxService) <|
       orReturn (s.ReconcileService .MemcachedService) <|
       orReturn (s.ReconcileDeploymentConfig .AppDeploymentConfig) <|
       orReturn (s.ReconcileDeploymentConfig .SidekiqDeploymentConfig) <|
       orReturn (s.ReconcileDeploymentConfig .SphinxDeploymentConfig) <|
       orReturn (s.ReconcileConfigMap .SystemConfigMap) <|
       orReturn (s.ReconcileConfigMap .EnvironmentConfigMap) <|
       orReturn (s.ReconcileSecret .SMTPSecret) <|
       orReturn (s.ReconcileSecret .EventsHookSecret) <|
       orReturn (s.ReconcileSecret .MasterApicastSecret) <|
       orReturn (s.ReconcileSecret .SeedSecret) <|
       orReturn (s.ReconcileSecret .RecaptchaSecret) <|
       orReturn (s.ReconcileSecret .AppSecret) <|
       orReturn (s.ReconcileSecret .MemcachedSecret) <|
       orReturn (s.ReconcilePodDisruptionBudget .AppPodDisruptionBudget) <|
       orReturn (s.ReconcilePodDisruptionBudget .SidekiqPodDisruptionBudget) <|
       orReturn (s.ReconcilePodMonitor .SystemSidekiqPodMonitor) <|
       orReturn (s.ReconcilePodMonitor .SystemAppPodMonitor) <|
       orReturn (fun v => (s.SumRateForOpenshiftVersion v, v)) <|
       orReturn (s.ReconcileGrafanaDashboard .SystemGrafanaDashboard) <|
       orReturn (s.ReconcilePrometheusRules .SystemAppPrometheusRules) <|
       orReturn (s.ReconcilePrometheusRules .SystemSidekiqPrometheusRules) <|
       fun v => ((Result.empty, none), v)) u

/-- What `SystemReconciler.Reconcile` does before it reconciles the DeploymentConfigs: the file
storage and the five services. -/
def systemStepsBeforeWorkloads {σ : Type} (s : SystemReconcilerSteps σ) :
    List (σ → Option Error × σ) :=
  [SystemReconciler.reconcileFileStorage s, s.ReconcileService .ProviderService,
   s.ReconcileService .MasterService, s.ReconcileService .DeveloperService,
   s.ReconcileService .SphinxService, s.ReconcileService .MemcachedService]

/-- The reconciliations of the three system DeploymentConfigs. -/
def systemWorkloadSteps {σ : Type} (s : SystemReconcilerSteps σ) :
    List (σ → Option Error × σ) :=
  [s.ReconcileDeploymentConfig .AppDeploymentConfig,
   s.ReconcileDeploymentConfig .SidekiqDeploymentConfig,
   s.ReconcileDeploymentConfig .SphinxDeploymentConfig]

/-- The reconciliations of the two system ConfigMaps. -/
def systemConfigMapSteps {σ : Type} (s : SystemReconcilerSteps σ) :
    List (σ → Option Error × σ) :=
  [s.ReconcileConfigMap .SystemConfigMap, s.ReconcileConfigMap .EnvironmentConfigMap]

/-- The reconciliations of the seven system secrets. -/
def systemSecretSteps {σ : Type} (s : SystemReconcilerSteps σ) :
    List (σ → Option Error × σ) :=
  [s.ReconcileSecret .SMTPSecret, s.ReconcileSecret .EventsHookSecret,
   s.ReconcileSecret .MasterApicastSecret, s.ReconcileSecret .SeedSecret,
   s.ReconcileSecret .RecaptchaSecret, s.ReconcileSecret .AppSecret,
   s.ReconcileSecret .MemcachedSecret]

/-- What `SystemReconciler.Reconcile` does after the secrets: the pod disruption budgets and
the monitoring objects. -/
def systemStepsAfterSecrets {σ : Type} (s : SystemReconcilerSteps σ) :
    List (σ → Option Error × σ) :=
  [s.ReconcilePodDisruptionBudget .AppPodDisruptionBudget,
   s.ReconcilePodDisruptionBudget .SidekiqPodDisruptionBudget,
   s.ReconcilePodMonitor .SystemSidekiqPodMonitor, s.ReconcilePodMonitor .SystemAppPodMonitor,
   fun v => (s.SumRateForOpenshiftVersion v, v),
   s.ReconcileGrafanaDashboard .SystemGrafanaDashboard,
   s.ReconcilePrometheusRules .SystemAppPrometheusRules,
   s.ReconcilePrometheusRules .SystemSidekiqPrometheusRules]

/-- The step of the concrete instances: it appends the kind and the object to the log, and
fails for the object `failing`. -/
def logObject (kind : String) (failing : Option SystemObject) (obj : SystemObject) :
    List (String × SystemObject) → Option Error × List (String × SystemObject) :=
  fun log =>
    (if failing = some obj then some (.message (kind ++ " failed")) else none,
      log ++ [(kind, obj)])

/-- The system reconciler of the concrete instances, with shared file storage: every
reconciliation appends its kind and its object to the log and succeeds, except the one of the
object `failing`. -/
def sampleSystemSteps (failing : Option SystemObject) :
    SystemReconcilerSteps (List (String × SystemObject)) where
  System := fun _ => none
  FileStorageS3 := false
  validateS3StorageProvidedConfiguration := fun _ => none
  ReconcilePersistentVolumeClaim := logObject "PersistentVolumeClaim" failing
  ReconcileService := logObject "Service" failing
  ReconcileDeploymentConfig := logObject "DeploymentConfig" failing
  ReconcileConfigMap := logObject "ConfigMap" failing
  ReconcileSecret := logObject "Secret" failing
  ReconcilePodDisruptionBudget := logObject "PodDisruptionBudget" failing
  ReconcilePodMonitor := logObject "PodMonitor" failing
  SumRateForOpenshiftVersion := fun _ => none
  ReconcileGrafanaDashboard := logObject "GrafanaDashboard" failing
  ReconcilePrometheusRules := logObject "PrometheusRules" failing

/-- The event that the call records, when the call is one on the event recorder. -/
def Call.toEvent : Call → Option Event
  | .event e => some e
  | _ => none

/-- The events that a reconciliation recorded, in the order it recorded them. -/
def ReconcileTrace.events (t : ReconcileTrace) : List Event :=
  t.calls.filterMap Call.toEvent

/-- The collaborators `base`, except that the status reconciler returns no error and asks for a
requeue after `after`. -/
def statusRequeueCollaborators (base : Collaborators) (after : Int) : Collaborators :=
  { base with statusReconcile := fun _ => ({ Requeue := true, RequeueAfter := after }, none) }

/-! ## Theorems -/

theorem sequentially_append_interrupt {σ : Type} (pre post : List (upgradeDependencyFn σ))
    (fn : upgradeDependencyFn σ) (u v : σ) (hpre : PassesThrough pre u v)
    (hfn : interrupts (fn v).1 = true) :
    sequentially (pre ++ fn :: post) u = fn v := by
  induction hpre with
  | nil u =>
    simp only [List.nil_append, sequentially]
    simp only [interrupts] at hfn
    simp [hfn]
  | cons g gs u w hg _ ih =>
    simp only [List.cons_append, sequentially]
    simp only [interrupts] at hg
    simp only [hg]
    exact ih hfn

theorem sequentially_passes {σ : Type} (fns : List (upgradeDependencyFn σ)) (u v : σ)
    (h : PassesThrough fns u v) : sequentially fns u = ((Result.empty, none), v) := by
  induction h with
  | nil u => rfl
  | cons g gs u w hg _ ih =>
    simp only [sequentially]
    simp only [interrupts] at hg
    simp only [hg]
    exact ih

theorem sequentially_cases {σ : Type} (fns : List (upgradeDependencyFn σ)) (u : σ) :
    (∃ pre fn post v, fns = pre ++ fn :: post ∧ PassesThrough pre u v ∧
        interrupts (fn v).1 = true) ∨ (∃ v, PassesThrough fns u v) := by
  induction fns generalizing u with
  | nil => exact Or.inr ⟨u, PassesThrough.nil u⟩
  | cons g gs ih =>
    by_cases hg : interrupts (g u).1 = true
    · exact Or.inl ⟨[], g, gs, u, rfl, PassesThrough.nil u, hg⟩
    · have hg2 : interrupts (g u).1 = false := by simpa using hg
      rcases ih (g u).2 with ⟨pre, fn, post, v, hsplit, hpass, hint⟩ | ⟨v, hpass⟩
      · exact Or.inl ⟨g :: pre, fn, post, v, by simp [hsplit],
          PassesThrough.cons g pre u v hg2 hpass, hint⟩
      · exact Or.inr ⟨v, PassesThrough.cons g gs u v hg2 hpass⟩

/-- C1: `sequentially(steps...)(u)` runs the steps in list order and stops at the first step
whose result has `Requeue=true` or whose error is non-nil: it returns that step's result and
error and leaves the world as that step left it, whatever the later steps are; when no step
interrupts, every step has run and the pipeline returns `(reconcile.Result{}, nil)`; one of the
two cases always applies. For `[A, B, C]` with `A` returning (no requeue, nil) and `B` returning
(requeue, nil) the pipeline returns what `B` returned, in the world `B` left. -/
theorem sequentially_stops_at_first_interrupt {σ : Type} (fns : List (upgradeDependencyFn σ))
    (u : σ) :
    (∀ pre fn post v, fns = pre ++ fn :: post → PassesThrough pre u v →
        interrupts (fn v).1 = true → sequentially fns u = fn v) ∧
    (∀ v, PassesThrough fns u v → sequentially fns u = ((Result.empty, none), v)) ∧
    ((∃ pre fn post v, fns = pre ++ fn :: post ∧ PassesThrough pre u v ∧
        interrupts (fn v).1 = true) ∨ (∃ v, PassesThrough fns u v)) ∧
    (∀ A B C : upgradeDependencyFn σ, fns = [A, B, C] →
        (A u).1.1.Requeue = false → (A u).1.2 = none →
        (B (A u).2).1.1.Requeue = true → (B (A u).2).1.2 = none →
        sequentially fns u = B (A u).2 ∧ (sequentially fns u).1.1.Requeue = true ∧
          (sequentially fns u).1.2 = none) := by
  refine ⟨?_, ?_, sequentially_cases fns u, ?_⟩
  · intro pre fn post v hsplit hpass hint
    rw [hsplit]
    exact sequentially_append_interrupt pre post fn u v hpass hint
  · intro v hpass
    exact sequentially_passes fns u v hpass
  · intro A B C hfns hA1 hA2 hB1 hB2
    have hpass : PassesThrough [A] u (A u).2 :=
      PassesThrough.cons A [] u (A u).2 (by simp [interrupts, hA1, hA2]) (PassesThrough.nil _)
    have hrun : sequentially fns u = B (A u).2 := by
      rw [hfns]
      exact sequentially_append_interrupt [A] [C] B u (A u).2 hpass (by simp [interrupts, hB1])
    exact ⟨hrun, by rw [hrun]; exact hB1, by rw [hrun]; exact hB2⟩

/-- Witness for C1: with logging steps `A` (no requeue), `B` (requeue) and `C`, the pipeline
returns the requeue of `B` and the log holds `A` and `B` only. -/
theorem sequentially_stops_at_first_interrupt_witness :
    sequentially [logStep "A" (Result.empty, none), logStep "B" (⟨true, 0⟩, none),
        logStep "C" (Result.empty, some (Error.message "unreachable"))] [] =
      ((⟨true, 0⟩, none), ["A", "B"]) ∧
    (sequentially [logStep "A" (Result.empty, none), logStep "B" (⟨true, 0⟩, none),
        logStep "C" (Result.empty, some (Error.message "unreachable"))] []).1.1.Requeue = true :=
  ⟨((sequentially_stops_at_first_interrupt
      [logStep "A" (Result.empty, none), logStep "B" (⟨true, 0⟩, none),
        logStep "C" (Result.empty, some (Error.message "unreachable"))] []).2.2.2
      _ _ _ rfl rfl rfl rfl rfl).1,
   ((sequentially_stops_at_first_interrupt
      [logStep "A" (Result.empty, none), logStep "B" (⟨true, 0⟩, none),
        logStep "C" (Result.empty, some (Error.message "unreachable"))] []).2.2.2
      _ _ _ rfl rfl rfl rfl rfl).2.1⟩

/-- C2: `when(p, f)(u)` with `p(u)` false returns `(reconcile.Result{}, nil)` (so `Requeue` is
false) and leaves the world untouched, whatever `f` is; with `p(u)` true it is exactly `f(u)`.
The condition is read at each call, against the world of that call: placed after a step `g`
that does not interrupt, the guard is decided by the world `g` left, not by the one the
pipeline was built or started in. -/
theorem when_guard {σ : Type} (condition : σ → Bool) (fn : upgradeDependencyFn σ) (u : σ) :
    (condition u = false →
        when condition fn u = ((⟨false, 0⟩, none), u) ∧
        ∀ fn2 : upgradeDependencyFn σ, when condition fn2 u = when condition fn u) ∧
    (condition u = true → when condition fn u = fn u) ∧
    (∀ g : upgradeDependencyFn σ, interrupts (g u).1 = false →
        sequentially [g, when condition fn] u =
          if condition (g u).2 then sequentially [fn] (g u).2
          else ((Result.empty, none), (g u).2)) := by
  refine ⟨?_, ?_, ?_⟩
  · intro h
    simp [when, h, Result.empty]
  · intro h
    simp [when, h]
  · intro g hg
    simp only [interrupts] at hg
    simp only [sequentially, hg, when]
    by_cases hc : condition (g u).2 = true
    · simp [hc]
    · simp [hc, Result.empty]

/-- Witness for C2: a guard that reads the log. On the empty log the guarded step is skipped and
nothing is logged; after step `A` has logged, the same guarded step runs. -/
theorem when_guard_witness :
    when (fun log : List String => log.length = 1) (logStep "F" (⟨true, 0⟩, none)) [] =
      ((⟨false, 0⟩, none), []) ∧
    when (fun log : List String => log.length = 1) (logStep "F" (⟨true, 0⟩, none)) ["A"] =
      ((⟨true, 0⟩, none), ["A", "F"]) :=
  ⟨((when_guard (fun log : List String => log.length = 1) (logStep "F" (⟨true, 0⟩, none))
      []).1 (by decide)).1,
   (when_guard (fun log : List String => log.length = 1) (logStep "F" (⟨true, 0⟩, none))
      ["A"]).2.1 (by decide)⟩

/-- C3: composition of steps is associative. For all steps `a`, `b`, `c` (any step, so also
`when p f`), nesting to the left, nesting to the right and the flat pipeline are the same
state transformer: same result, same error, same effect on the world. -/
theorem sequentially_assoc {σ : Type} (a b c : upgradeDependencyFn σ) :
    sequentially [sequentially [a, b], c] = sequentially [a, b, c] ∧
    sequentially [a, sequentially [b, c]] = sequentially [a, b, c] ∧
    (∀ (p q r : σ → Bool),
      sequentially [sequentially [when p a, when q b], when r c] =
        sequentially [when p a, sequentially [when q b, when r c]]) := by
  have left : ∀ x y z : upgradeDependencyFn σ,
      sequentially [sequentially [x, y], z] = sequentially [x, y, z] := by
    intro x y z
    funext u
    simp only [sequentially]
    by_cases hx : ((x u).1.1.Requeue || (x u).1.2.isSome) = true
    · simp [hx]
    · by_cases hy : ((y (x u).2).1.1.Requeue || (y (x u).2).1.2.isSome) = true
      · simp [hx, hy]
      · simp [hx, hy, Result.empty]
  have right : ∀ x y z : upgradeDependencyFn σ,
      sequentially [x, sequentially [y, z]] = sequentially [x, y, z] := by
    intro x y z
    funext u
    simp only [sequentially]
    by_cases hx : ((x u).1.1.Requeue || (x u).1.2.isSome) = true
    · simp [hx]
    · by_cases hy : ((y (x u).2).1.1.Requeue || (y (x u).2).1.2.isSome) = true
      · simp [hx, hy]
      · by_cases hz : ((z (y (x u).2).2).1.1.Requeue || (z (y (x u).2).2).1.2.isSome) = true
        · simp [hx, hy, hz]
        · simp [hx, hy, hz, Result.empty]
  exact ⟨left a b c, right a b c, fun p q r => by rw [left, right]⟩

/-! ### DeploymentConfig mutators -/

theorem mutatorLoop_allReturn (desired : DeploymentConfig) (opts : List DCMutateFn)
    (existing final : DeploymentConfig) (flags : List Bool) (update : Bool)
    (h : AllReturn desired opts existing flags final) :
    mutatorLoop desired opts update existing = .returned (update || flags.any id) final := by
  induction h generalizing update with
  | nil e => simp [mutatorLoop]
  | cons opt opts e e1 fin tmp flags hopt _ ih =>
    simp only [mutatorLoop, hopt]
    rw [ih]
    simp [Bool.or_assoc]

theorem mutatorLoop_panic (desired : DeploymentConfig) (pre post : List DCMutateFn)
    (opt : DCMutateFn) (existing mid final : DeploymentConfig) (flags : List Bool)
    (value : PanicValue) (update : Bool) (h : AllReturn desired pre existing flags mid)
    (hopt : opt desired mid = .panicked value final) :
    mutatorLoop desired (pre ++ opt :: post) update existing = .panicked value final := by
  induction h generalizing update with
  | nil e => simp [mutatorLoop, hopt]
  | cons o os e e1 fin tmp flags ho _ ih =>
    simp only [List.cons_append, mutatorLoop, ho]
    exact ih _ hopt

theorem allReturn_length (desired : DeploymentConfig) (opts : List DCMutateFn)
    (existing final : DeploymentConfig) (flags : List Bool)
    (h : AllReturn desired opts existing flags final) : flags.length = opts.length := by
  induction h with
  | nil e => rfl
  | cons opt opts e e1 fin tmp flags _ _ ih => simp [ih]

theorem allReturn_or_panic (desired : DeploymentConfig) (opts : List DCMutateFn)
    (existing : DeploymentConfig) :
    (∃ flags final, AllReturn desired opts existing flags final) ∨
    (∃ pre opt post flags mid value final, opts = pre ++ opt :: post ∧
        AllReturn desired pre existing flags mid ∧ opt desired mid = .panicked value final) := by
  induction opts generalizing existing with
  | nil => exact Or.inl ⟨[], existing, AllReturn.nil existing⟩
  | cons o os ih =>
    cases ho : o desired existing with
    | panicked value fin =>
      exact Or.inr ⟨[], o, os, [], existing, value, fin, rfl, AllReturn.nil existing, ho⟩
    | returned tmp e1 =>
      rcases ih e1 with ⟨flags, fin, hall⟩ | ⟨pre, opt, post, flags, mid, value, fin, hs, hall, hp⟩
      · exact Or.inl ⟨tmp :: flags, fin, AllReturn.cons o os existing e1 fin tmp flags ho hall⟩
      · exact Or.inr ⟨o :: pre, opt, post, tmp :: flags, mid, value, fin, by simp [hs],
          AllReturn.cons o pre existing e1 mid tmp flags ho hall, hp⟩

/-- C4, as stated, fails when a mutator panics: `DeploymentConfigMutator` built from the
resources mutator and the replicas mutator, on a desired DeploymentConfig without containers
and two replicas, does not return `(true, nil)` or `(false, nil)`; the resources mutator panics
and the replicas mutator is never called (`existing` keeps its replicas). -/
theorem DeploymentConfigMutator_panic_counterexample :
    DeploymentConfigMutator
        [DeploymentConfigContainerResourcesMutator sameResources, DeploymentConfigReplicasMutator]
        (.deploymentConfig DeploymentConfig.zero)
        (.deploymentConfig { DeploymentConfig.zero with Spec.Replicas := 2 }) =
      .panicked (.containersLength 0 1) (.deploymentConfig DeploymentConfig.zero) ∧
    ¬ ∃ update final,
      DeploymentConfigMutator
        [DeploymentConfigContainerResourcesMutator sameResources, DeploymentConfigReplicasMutator]
        (.deploymentConfig DeploymentConfig.zero)
        (.deploymentConfig { DeploymentConfig.zero with Spec.Replicas := 2 }) =
      .returned update none final := by
  have h : DeploymentConfigMutator
        [DeploymentConfigContainerResourcesMutator sameResources, DeploymentConfigReplicasMutator]
        (.deploymentConfig DeploymentConfig.zero)
        (.deploymentConfig { DeploymentConfig.zero with Spec.Replicas := 2 }) =
      .panicked (.containersLength 0 1) (.deploymentConfig DeploymentConfig.zero) := by
    rfl
  refine ⟨h, ?_⟩
  rintro ⟨update, final, hret⟩
  rw [h] at hret
  cases hret

/-- C4, amended: on two DeploymentConfigs the `MutateFn` built by
`DeploymentConfigMutator(opts...)` calls the mutators of `opts` in list order, each once, on
`desired` and on `existing` as the calls before it left it. When every call returns, all
mutators have run (one flag per mutator), also after an earlier one reported a change, and the
result is `(true, nil)` if some mutator returned true and `(false, nil)` otherwise, with
`existing` as the last call left it. When a call panics, the `MutateFn` panics with the same
value and no later mutator is called. One of the two always applies. -/
theorem DeploymentConfigMutator_accumulates (opts : List DCMutateFn)
    (desired existing : DeploymentConfig) :
    (∀ flags final, AllReturn desired opts existing flags final →
        flags.length = opts.length ∧
        DeploymentConfigMutator opts (.deploymentConfig existing) (.deploymentConfig desired) =
          .returned (flags.any id) none (.deploymentConfig final)) ∧
    (∀ pre opt post flags mid value final, opts = pre ++ opt :: post →
        AllReturn desired pre existing flags mid → opt desired mid = .panicked value final →
        DeploymentConfigMutator opts (.deploymentConfig existing) (.deploymentConfig desired) =
          .panicked value (.deploymentConfig final)) ∧
    ((∃ flags final, AllReturn desired opts existing flags final) ∨
     (∃ pre opt post flags mid value final, opts = pre ++ opt :: post ∧
        AllReturn desired pre existing flags mid ∧ opt desired mid = .panicked value final)) := by
  refine ⟨?_, ?_, allReturn_or_panic desired opts existing⟩
  · intro flags final hall
    refine ⟨allReturn_length desired opts existing final flags hall, ?_⟩
    simp [DeploymentConfigMutator, mutatorLoop_allReturn desired opts existing final flags false hall]
  · intro pre opt post flags mid value final hsplit hall hpanic
    subst hsplit
    simp [DeploymentConfigMutator,
      mutatorLoop_panic desired pre post opt existing mid final flags value false hall hpanic]

/-- Witness for C4: the replicas mutator reports a change (1 to 2 replicas), the affinity and
tolerations mutators after it are still called and report none; the result is `(true, nil)`. -/
theorem DeploymentConfigMutator_accumulates_witness :
    DeploymentConfigMutator
        [DeploymentConfigReplicasMutator, DeploymentConfigAffinityMutator,
         DeploymentConfigTolerationsMutator]
        (.deploymentConfig { DeploymentConfig.zero with Spec.Replicas := 1 })
        (.deploymentConfig { DeploymentConfig.zero with Spec.Replicas := 2 }) =
      .returned true none (.deploymentConfig { DeploymentConfig.zero with Spec.Replicas := 2 }) :=
  ((DeploymentConfigMutator_accumulates
      [DeploymentConfigReplicasMutator, DeploymentConfigAffinityMutator,
       DeploymentConfigTolerationsMutator]
      { DeploymentConfig.zero with Spec.Replicas := 2 }
      { DeploymentConfig.zero with Spec.Replicas := 1 }).1
    [true, false, false] { DeploymentConfig.zero with Spec.Replicas := 2 }
    (AllReturn.cons _ _ _ { DeploymentConfig.zero with Spec.Replicas := 2 } _ true _ rfl
      (AllReturn.cons _ _ _ { DeploymentConfig.zero with Spec.Replicas := 2 } _ false _ rfl
        (AllReturn.cons _ _ _ { DeploymentConfig.zero with Spec.Replicas := 2 } _ false _ rfl
          (AllReturn.nil _))))).2

theorem replicasMutator_eq (desired existing : DeploymentConfig) :
    DeploymentConfigReplicasMutator desired existing =
      .returned (decide (desired.Spec.Replicas ≠ existing.Spec.Replicas))
        { existing with Spec.Replicas := desired.Spec.Replicas } := by
  unfold DeploymentConfigReplicasMutator
  by_cases h : desired.Spec.Replicas = existing.Spec.Replicas
  · simp [h]
  · simp [h]

theorem affinityMutator_eq (desired existing : DeploymentConfig) :
    DeploymentConfigAffinityMutator desired existing =
      .returned (decide (existing.Spec.Template.Spec.Affinity ≠ desired.Spec.Template.Spec.Affinity))
        { existing with Spec.Template.Spec.Affinity := desired.Spec.Template.Spec.Affinity } := by
  unfold DeploymentConfigAffinityMutator
  by_cases h : existing.Spec.Template.Spec.Affinity = desired.Spec.Template.Spec.Affinity
  · simp [h.symm]
  · simp [h]

theorem tolerationsMutator_eq (desired existing : DeploymentConfig) :
    DeploymentConfigTolerationsMutator desired existing =
      .returned
        (decide (existing.Spec.Template.Spec.Tolerations ≠ desired.Spec.Template.Spec.Tolerations))
        { existing with
            Spec.Template.Spec.Tolerations := desired.Spec.Template.Spec.Tolerations } := by
  unfold DeploymentConfigTolerationsMutator
  by_cases h : existing.Spec.Template.Spec.Tolerations = desired.Spec.Template.Spec.Tolerations
  · simp [h.symm]
  · simp [h]

theorem resourcesMutator_eq (cmp : ResourceRequirements → ResourceRequirements → Bool)
    (desired existing : DeploymentConfig) (desiredContainer : Container)
    (hd : desired.Spec.Template.Spec.Containers = [desiredContainer]) :
    DeploymentConfigContainerResourcesMutator cmp desired existing =
      .returned (resourcesEffect cmp desiredContainer existing.Spec.Template.Spec.Containers).1
        { existing with
            Spec.Template.Spec.Containers :=
              (resourcesEffect cmp desiredContainer existing.Spec.Template.Spec.Containers).2 } := by
  unfold DeploymentConfigContainerResourcesMutator
  simp only [hd, List.length_singleton, ne_eq, not_true_eq_false, if_false]
  rcases hc : existing.Spec.Template.Spec.Containers with _ | ⟨c, _ | ⟨c2, cs⟩⟩
  · by_cases hcmp : cmp desiredContainer.Resources desiredContainer.Resources = true
    · simp [resourcesEffect, hcmp]
    · simp [resourcesEffect, hcmp]
  · by_cases hcmp : cmp c.Resources desiredContainer.Resources = true
    · simp [resourcesEffect, hcmp, hc]
      rw [← hc]
    · simp [resourcesEffect, hcmp, hc]
  · by_cases hcmp : cmp desiredContainer.Resources desiredContainer.Resources = true
    · simp [resourcesEffect, hcmp]
    · simp [resourcesEffect, hcmp]

theorem mutatorLoop_swap (cmp : ResourceRequirements → ResourceRequirements → Bool)
    (desired : DeploymentConfig) (desiredContainer : Container)
    (hd : desired.Spec.Template.Spec.Containers = [desiredContainer])
    (m1 m2 : DCMutateFn) (h1 : IsGenericMutator cmp m1) (h2 : IsGenericMutator cmp m2)
    (rest : List DCMutateFn) (update : Bool) (existing : DeploymentConfig) :
    mutatorLoop desired (m1 :: m2 :: rest) update existing =
      mutatorLoop desired (m2 :: m1 :: rest) update existing := by
  rcases h1 with rfl | rfl | rfl | rfl <;> rcases h2 with rfl | rfl | rfl | rfl <;>
    simp only [mutatorLoop, replicasMutator_eq, affinityMutator_eq, tolerationsMutator_eq,
      resourcesMutator_eq cmp desired _ desiredContainer hd] <;>
    first
      | rfl
      | (congr 1; simp only [Bool.or_assoc]; congr 1; exact Bool.or_comm _ _)

theorem mutatorLoop_perm (cmp : ResourceRequirements → ResourceRequirements → Bool)
    (desired : DeploymentConfig) (desiredContainer : Container)
    (hd : desired.Spec.Template.Spec.Containers = [desiredContainer])
    (l1 l2 : List DCMutateFn) (hperm : l1.Perm l2) (hall : ∀ m ∈ l1, IsGenericMutator cmp m)
    (update : Bool) (existing : DeploymentConfig) :
    mutatorLoop desired l1 update existing = mutatorLoop desired l2 update existing := by
  induction hperm generalizing update existing with
  | nil => rfl
  | cons x _ ih =>
    simp only [mutatorLoop]
    cases x desired existing with
    | returned tmp e1 => exact ih (fun m hm => hall m (List.mem_cons_of_mem _ hm)) _ _
    | panicked value e1 => rfl
  | swap x y l =>
    exact mutatorLoop_swap cmp desired desiredContainer hd y x
      (hall y (by simp)) (hall x (by simp)) l update existing
  | trans h12 _ ih1 ih2 =>
    rw [ih1 hall, ih2 (fun m hm => hall m ((h12.mem_iff).mpr hm))]

theorem mutatorLoop_generic (cmp : ResourceRequirements → ResourceRequirements → Bool)
    (desired existing : DeploymentConfig) (desiredContainer : Container)
    (hd : desired.Spec.Template.Spec.Containers = [desiredContainer]) (update : Bool) :
    mutatorLoop desired
        [DeploymentConfigReplicasMutator, DeploymentConfigContainerResourcesMutator cmp,
         DeploymentConfigAffinityMutator, DeploymentConfigTolerationsMutator] update existing =
      .returned
        (update || decide (desired.Spec.Replicas ≠ existing.Spec.Replicas) ||
          (resourcesEffect cmp desiredContainer existing.Spec.Template.Spec.Containers).1 ||
          decide (existing.Spec.Template.Spec.Affinity ≠ desired.Spec.Template.Spec.Affinity) ||
          decide (existing.Spec.Template.Spec.Tolerations ≠
            desired.Spec.Template.Spec.Tolerations))
        { existing with
            Spec.Replicas := desired.Spec.Replicas
            Spec.Template.Spec.Containers :=
              (resourcesEffect cmp desiredContainer existing.Spec.Template.Spec.Containers).2
            Spec.Template.Spec.Affinity := desired.Spec.Template.Spec.Affinity
            Spec.Template.Spec.Tolerations := desired.Spec.Template.Spec.Tolerations } := by
  simp only [mutatorLoop, replicasMutator_eq, affinityMutator_eq, tolerationsMutator_eq,
    resourcesMutator_eq cmp desired _ desiredContainer hd]

theorem resourcesEffect_idem (cmp : ResourceRequirements → ResourceRequirements → Bool)
    (hrefl : ∀ r, cmp r r = true) (desiredContainer : Container) (cs : List Container) :
    resourcesEffect cmp desiredContainer (resourcesEffect cmp desiredContainer cs).2 =
      (false, (resourcesEffect cmp desiredContainer cs).2) := by
  rcases cs with _ | ⟨c, _ | ⟨c2, cs⟩⟩
  · simp [resourcesEffect, hrefl]
  · by_cases hcmp : cmp c.Resources desiredContainer.Resources = true
    · simp [resourcesEffect, hcmp]
    · simp [resourcesEffect, hcmp, hrefl]
  · simp [resourcesEffect, hrefl]

/-- C5: for a desired DeploymentConfig with exactly one container and any existing one, the
replicas, container resources, affinity and tolerations mutators applied in any order (any
permutation of the four, composed by `DeploymentConfigMutator`) return normally with the same
final `existing` and the same changed flag as in the order of
`GenericDeploymentConfigMutator`. -/
theorem generic_mutators_commute (cmp : ResourceRequirements → ResourceRequirements → Bool)
    (desired existing : DeploymentConfig)
    (hone : desired.Spec.Template.Spec.Containers.length = 1) (opts : List DCMutateFn)
    (hperm : opts.Perm
      [DeploymentConfigReplicasMutator, DeploymentConfigContainerResourcesMutator cmp,
       DeploymentConfigAffinityMutator, DeploymentConfigTolerationsMutator]) :
    DeploymentConfigMutator opts (.deploymentConfig existing) (.deploymentConfig desired) =
      GenericDeploymentConfigMutator cmp (.deploymentConfig existing) (.deploymentConfig desired) ∧
    ∃ update final,
      DeploymentConfigMutator opts (.deploymentConfig existing) (.deploymentConfig desired) =
        .returned update none (.deploymentConfig final) := by
  obtain ⟨desiredContainer, hd⟩ := List.length_eq_one.mp hone
  have hall : ∀ m ∈ opts, IsGenericMutator cmp m := by
    intro m hm
    have hm2 := (hperm.mem_iff).mp hm
    simp only [List.mem_cons, List.mem_singleton, List.not_mem_nil, or_false] at hm2
    exact hm2
  have hloop := mutatorLoop_perm cmp desired desiredContainer hd opts _ hperm hall false existing
  have hgen := mutatorLoop_generic cmp desired existing desiredContainer hd false
  refine ⟨?_, ?_⟩
  · simp only [GenericDeploymentConfigMutator, DeploymentConfigMutator, hloop]
  · simp only [DeploymentConfigMutator, hloop, hgen]
    exact ⟨_, _, rfl⟩

/-- Witness for C5: the order tolerations, affinity, resources, replicas on a concrete pair. -/
theorem generic_mutators_commute_witness :
    DeploymentConfigMutator
        [DeploymentConfigTolerationsMutator, DeploymentConfigAffinityMutator,
         DeploymentConfigContainerResourcesMutator sameResources, DeploymentConfigReplicasMutator]
        (.deploymentConfig DeploymentConfig.zero)
        (.deploymentConfig
          { DeploymentConfig.zero with
              Spec.Replicas := 2
              Spec.Template.Spec.Containers := [⟨"redis", "redis:5", [], ⟨[("cpu", "200m")], []⟩⟩] }) =
      GenericDeploymentConfigMutator sameResources (.deploymentConfig DeploymentConfig.zero)
        (.deploymentConfig
          { DeploymentConfig.zero with
              Spec.Replicas := 2
              Spec.Template.Spec.Containers :=
                [⟨"redis", "redis:5", [], ⟨[("cpu", "200m")], []⟩⟩] }) :=
  (generic_mutators_commute sameResources
    { DeploymentConfig.zero with
        Spec.Replicas := 2
        Spec.Template.Spec.Containers := [⟨"redis", "redis:5", [], ⟨[("cpu", "200m")], []⟩⟩] }
    DeploymentConfig.zero rfl
    [DeploymentConfigTolerationsMutator, DeploymentConfigAffinityMutator,
     DeploymentConfigContainerResourcesMutator sameResources, DeploymentConfigReplicasMutator]
    (by
      refine (List.Perm.trans (List.reverse_perm _).symm ?_)
      simp only [List.reverse_cons, List.reverse_nil, List.nil_append, List.cons_append]
      exact List.Perm.refl _)).1

/-- C6: when desired and existing each have exactly one container and `helper.CmpResources`
reports the existing resources as different from the desired ones, the resources mutator
returns true and leaves `existing` with its container carrying the desired resources (and
otherwise as it was); when it reports them equal, the mutator returns false and `existing` is
unchanged. -/
theorem container_resources_drift (cmp : ResourceRequirements → ResourceRequirements → Bool)
    (desired existing : DeploymentConfig) (desiredContainer existingContainer : Container)
    (hd : desired.Spec.Template.Spec.Containers = [desiredContainer])
    (he : existing.Spec.Template.Spec.Containers = [existingContainer]) :
    (cmp existingContainer.Resources desiredContainer.Resources = false →
      ∃ final, DeploymentConfigContainerResourcesMutator cmp desired existing =
          .returned true final ∧
        final.Spec.Template.Spec.Containers.map Container.Resources =
          desired.Spec.Template.Spec.Containers.map Container.Resources ∧
        final = { existing with
                    Spec.Template.Spec.Containers :=
                      [{ existingContainer with Resources := desiredContainer.Resources }] }) ∧
    (cmp existingContainer.Resources desiredContainer.Resources = true →
      DeploymentConfigContainerResourcesMutator cmp desired existing =
        .returned false existing) := by
  rw [resourcesMutator_eq cmp desired existing desiredContainer hd, he]
  constructor
  · intro hcmp
    refine ⟨_, ?_, ?_, rfl⟩
    · simp [resourcesEffect, hcmp]
    · simp [hd]
  · intro hcmp
    simp only [resourcesEffect, hcmp, if_true]
    rw [← he]

/-- Witness for C6: existing resources `cpu: 100m`, desired `cpu: 200m`. -/
theorem container_resources_drift_witness :
    ∃ final,
      DeploymentConfigContainerResourcesMutator sameResources
          { DeploymentConfig.zero with
              Spec.Template.Spec.Containers := [⟨"redis", "redis:5", [], ⟨[("cpu", "200m")], []⟩⟩] }
          { DeploymentConfig.zero with
              Spec.Template.Spec.Containers :=
                [⟨"redis", "redis:4", [], ⟨[("cpu", "100m")], []⟩⟩] } =
        .returned true final ∧
      final.Spec.Template.Spec.Containers = [⟨"redis", "redis:4", [], ⟨[("cpu", "200m")], []⟩⟩] := by
  obtain ⟨final, hrun, _, hfinal⟩ :=
    (container_resources_drift sameResources
      { DeploymentConfig.zero with
          Spec.Template.Spec.Containers := [⟨"redis", "redis:5", [], ⟨[("cpu", "200m")], []⟩⟩] }
      { DeploymentConfig.zero with
          Spec.Template.Spec.Containers := [⟨"redis", "redis:4", [], ⟨[("cpu", "100m")], []⟩⟩] }
      ⟨"redis", "redis:5", [], ⟨[("cpu", "200m")], []⟩⟩
      ⟨"redis", "redis:4", [], ⟨[("cpu", "100m")], []⟩⟩ rfl rfl).1 (by decide)
  exact ⟨final, hrun, by rw [hfinal]⟩

theorem generic_eq (cmp : ResourceRequirements → ResourceRequirements → Bool)
    (desired existing : DeploymentConfig) (desiredContainer : Container)
    (hd : desired.Spec.Template.Spec.Containers = [desiredContainer]) :
    GenericDeploymentConfigMutator cmp (.deploymentConfig existing) (.deploymentConfig desired) =
      .returned
        (false || decide (desired.Spec.Replicas ≠ existing.Spec.Replicas) ||
          (resourcesEffect cmp desiredContainer existing.Spec.Template.Spec.Containers).1 ||
          decide (existing.Spec.Template.Spec.Affinity ≠ desired.Spec.Template.Spec.Affinity) ||
          decide (existing.Spec.Template.Spec.Tolerations ≠
            desired.Spec.Template.Spec.Tolerations))
        none
        (.deploymentConfig
          { existing with
              Spec.Replicas := desired.Spec.Replicas
              Spec.Template.Spec.Containers :=
                (resourcesEffect cmp desiredContainer existing.Spec.Template.Spec.Containers).2
              Spec.Template.Spec.Affinity := desired.Spec.Template.Spec.Affinity
              Spec.Template.Spec.Tolerations := desired.Spec.Template.Spec.Tolerations }) := by
  simp only [GenericDeploymentConfigMutator, DeploymentConfigMutator,
    mutatorLoop_generic cmp desired existing desiredContainer hd false]

/-- C7: for a desired DeploymentConfig with exactly one container, any existing one, and a
`helper.CmpResources` that reports equal resources as equal: `GenericDeploymentConfigMutator`
applied to `(existing, desired)` returns normally, and applied a second time to the object it
left and the same desired it returns `(false, nil)` and leaves the object unchanged; the
convergence engine then reports `Unchanged` and issues no create or update call. -/
theorem generic_mutator_idempotent (cmp : ResourceRequirements → ResourceRequirements → Bool)
    (hrefl : ∀ r, cmp r r = true) (desired existing : DeploymentConfig)
    (hone : desired.Spec.Template.Spec.Containers.length = 1) :
    ∃ update final,
      GenericDeploymentConfigMutator cmp (.deploymentConfig existing)
          (.deploymentConfig desired) = .returned update none (.deploymentConfig final) ∧
      GenericDeploymentConfigMutator cmp (.deploymentConfig final)
          (.deploymentConfig desired) = .returned false none (.deploymentConfig final) ∧
      ConvergenceEngine.Reconcile (some (.deploymentConfig final)) (.deploymentConfig desired)
          (GenericDeploymentConfigMutator cmp) =
        { outcome := .Unchanged, createCalls := [], updateCalls := [] } := by
  obtain ⟨desiredContainer, hd⟩ := List.length_eq_one.mp hone
  have hfirst := generic_eq cmp desired existing desiredContainer hd
  have hsecond := generic_eq cmp desired
    { existing with
        Spec.Replicas := desired.Spec.Replicas
        Spec.Template.Spec.Containers :=
          (resourcesEffect cmp desiredContainer existing.Spec.Template.Spec.Containers).2
        Spec.Template.Spec.Affinity := desired.Spec.Template.Spec.Affinity
        Spec.Template.Spec.Tolerations := desired.Spec.Template.Spec.Tolerations }
    desiredContainer hd
  simp only [resourcesEffect_idem cmp hrefl, ne_eq, not_true_eq_false, decide_False,
    Bool.or_self] at hsecond
  refine ⟨_, _, hfirst, hsecond, ?_⟩
  simp only [ConvergenceEngine.Reconcile, hsecond]

/-- Witness for C7: an existing DeploymentConfig without containers and a desired one with one
container and two replicas. -/
theorem generic_mutator_idempotent_witness :
    ∃ update final,
      GenericDeploymentConfigMutator sameResources (.deploymentConfig DeploymentConfig.zero)
          (.deploymentConfig
            { DeploymentConfig.zero with
                Spec.Replicas := 2
                Spec.Template.Spec.Containers :=
                  [⟨"redis", "redis:5", [], ⟨[("cpu", "200m")], []⟩⟩] }) =
        .returned update none (.deploymentConfig final) ∧
      GenericDeploymentConfigMutator sameResources (.deploymentConfig final)
          (.deploymentConfig
            { DeploymentConfig.zero with
                Spec.Replicas := 2
                Spec.Template.Spec.Containers :=
                  [⟨"redis", "redis:5", [], ⟨[("cpu", "200m")], []⟩⟩] }) =
        .returned false none (.deploymentConfig final) := by
  obtain ⟨update, final, h1, h2, _⟩ :=
    generic_mutator_idempotent sameResources (fun r => by simp [sameResources])
      { DeploymentConfig.zero with
          Spec.Replicas := 2
          Spec.Template.Spec.Containers := [⟨"redis", "redis:5", [], ⟨[("cpu", "200m")], []⟩⟩] }
      DeploymentConfig.zero rfl
  exact ⟨update, final, h1, h2⟩

/-- C8: when the desired DeploymentConfig does not have exactly one container,
`DeploymentConfigContainerResourcesMutator` panics and `existing` is as it was before the call,
for every `existing`; when desired does not have exactly three containers,
`systemAppDCResourceMutator` panics and `existing` is as it was. Neither returns normally in
that case. -/
theorem structural_fail_fast (cmp : ResourceRequirements → ResourceRequirements → Bool)
    (desired existing : DeploymentConfig) :
    (desired.Spec.Template.Spec.Containers.length ≠ 1 →
      DeploymentConfigContainerResourcesMutator cmp desired existing =
          .panicked (.containersLength desired.Spec.Template.Spec.Containers.length 1) existing ∧
      ∀ update final,
        DeploymentConfigContainerResourcesMutator cmp desired existing ≠
          .returned update final) ∧
    (desired.Spec.Template.Spec.Containers.length ≠ 3 →
      systemAppDCResourceMutator cmp desired existing =
          .panicked (.containersLength desired.Spec.Template.Spec.Containers.length 3) existing ∧
      ∀ update final,
        systemAppDCResourceMutator cmp desired existing ≠ .returned update final) := by
  constructor
  · intro h
    have hp : DeploymentConfigContainerResourcesMutator cmp desired existing =
        .panicked (.containersLength desired.Spec.Template.Spec.Containers.length 1) existing := by
      simp [DeploymentConfigContainerResourcesMutator, h]
    refine ⟨hp, ?_⟩
    intro update final hret
    rw [hp] at hret
    cases hret
  · intro h
    have hp : systemAppDCResourceMutator cmp desired existing =
        .panicked (.containersLength desired.Spec.Template.Spec.Containers.length 3) existing := by
      simp [systemAppDCResourceMutator, h]
    refine ⟨hp, ?_⟩
    intro update final hret
    rw [hp] at hret
    cases hret

/-- Witness for C8: a desired DeploymentConfig with two containers, against an existing one
with other resources; both mutators panic and `existing` is untouched. -/
theorem structural_fail_fast_witness :
    DeploymentConfigContainerResourcesMutator sameResources
        { DeploymentConfig.zero with
            Spec.Template.Spec.Containers :=
              [⟨"a", "img:2", [], ⟨[("cpu", "200m")], []⟩⟩, ⟨"b", "img:2", [], ⟨[], []⟩⟩] }
        { DeploymentConfig.zero with
            Spec.Template.Spec.Containers := [⟨"a", "img:1", [], ⟨[("cpu", "100m")], []⟩⟩] } =
      .panicked (.containersLength 2 1)
        { DeploymentConfig.zero with
            Spec.Template.Spec.Containers := [⟨"a", "img:1", [], ⟨[("cpu", "100m")], []⟩⟩] } ∧
    systemAppDCResourceMutator sameResources
        { DeploymentConfig.zero with
            Spec.Template.Spec.Containers :=
              [⟨"a", "img:2", [], ⟨[("cpu", "200m")], []⟩⟩, ⟨"b", "img:2", [], ⟨[], []⟩⟩] }
        { DeploymentConfig.zero with
            Spec.Template.Spec.Containers := [⟨"a", "img:1", [], ⟨[("cpu", "100m")], []⟩⟩] } =
      .panicked (.containersLength 2 3)
        { DeploymentConfig.zero with
            Spec.Template.Spec.Containers := [⟨"a", "img:1", [], ⟨[("cpu", "100m")], []⟩⟩] } :=
  ⟨((structural_fail_fast sameResources
      { DeploymentConfig.zero with
          Spec.Template.Spec.Containers :=
            [⟨"a", "img:2", [], ⟨[("cpu", "200m")], []⟩⟩, ⟨"b", "img:2", [], ⟨[], []⟩⟩] }
      { DeploymentConfig.zero with
          Spec.Template.Spec.Containers := [⟨"a", "img:1", [], ⟨[("cpu", "100m")], []⟩⟩] }).1
      (by decide)).1,
   ((structural_fail_fast sameResources
      { DeploymentConfig.zero with
          Spec.Template.Spec.Containers :=
            [⟨"a", "img:2", [], ⟨[("cpu", "200m")], []⟩⟩, ⟨"b", "img:2", [], ⟨[], []⟩⟩] }
      { DeploymentConfig.zero with
          Spec.Template.Spec.Containers := [⟨"a", "img:1", [], ⟨[("cpu", "100m")], []⟩⟩] }).2
      (by decide)).1⟩

/-- C9, as stated, fails for an existing DeploymentConfig that does not have exactly one
container: with two existing containers the resources mutator replaces the whole container
list by the desired one, so the image and the env of the first container change and the second
container is gone. -/
theorem resources_mutator_frame_counterexample :
    DeploymentConfigContainerResourcesMutator sameResources
        { DeploymentConfig.zero with
            Spec.Template.Spec.Containers :=
              [⟨"redis", "redis:5", [⟨"A", "1", none⟩], ⟨[("cpu", "200m")], []⟩⟩] }
        { DeploymentConfig.zero with
            Spec.Template.Spec.Containers :=
              [⟨"redis", "redis:4", [⟨"B", "2", none⟩], ⟨[("cpu", "100m")], []⟩⟩,
               ⟨"sidecar", "proxy:1", [], ⟨[], []⟩⟩] } =
      .returned true
        { DeploymentConfig.zero with
            Spec.Template.Spec.Containers :=
              [⟨"redis", "redis:5", [⟨"A", "1", none⟩], ⟨[("cpu", "200m")], []⟩⟩] } ∧
    ([⟨"redis", "redis:5", [⟨"A", "1", none⟩], ⟨[("cpu", "200m")], []⟩⟩] : List Container).map
        Container.Image ≠
      ([⟨"redis", "redis:4", [⟨"B", "2", none⟩], ⟨[("cpu", "100m")], []⟩⟩,
        ⟨"sidecar", "proxy:1", [], ⟨[], []⟩⟩] : List Container).map Container.Image ∧
    ([⟨"redis", "redis:5", [⟨"A", "1", none⟩], ⟨[("cpu", "200m")], []⟩⟩] : List Container).map
        Container.Env ≠
      ([⟨"redis", "redis:4", [⟨"B", "2", none⟩], ⟨[("cpu", "100m")], []⟩⟩,
        ⟨"sidecar", "proxy:1", [], ⟨[], []⟩⟩] : List Container).map Container.Env := by
  refine ⟨rfl, by decide, by decide⟩

/-- C9, amended: each mutator returns with `existing` changed in its own field only: putting
the old value of that field back gives the object as it was before the call. The replicas
mutator changes nothing but `spec.replicas`, the affinity mutator nothing but the affinity of
the pod template, the tolerations mutator nothing but its tolerations. The resources mutator,
for a desired DeploymentConfig with exactly one container, changes nothing but the resources
of the container when `existing` has exactly one container (image, env, name and all other
fields stay); when `existing` does not have exactly one container it replaces the container
list by the desired one and changes nothing outside the container list. -/
theorem mutators_frame (cmp : ResourceRequirements → ResourceRequirements → Bool)
    (desired existing : DeploymentConfig) :
    (∃ update final, DeploymentConfigReplicasMutator desired existing = .returned update final ∧
        { final with Spec.Replicas := existing.Spec.Replicas } = existing) ∧
    (∃ update final, DeploymentConfigAffinityMutator desired existing = .returned update final ∧
        { final with Spec.Template.Spec.Affinity := existing.Spec.Template.Spec.Affinity } =
          existing) ∧
    (∃ update final,
        DeploymentConfigTolerationsMutator desired existing = .returned update final ∧
        { final with
            Spec.Template.Spec.Tolerations := existing.Spec.Template.Spec.Tolerations } =
          existing) ∧
    (∀ desiredContainer existingContainer,
        desired.Spec.Template.Spec.Containers = [desiredContainer] →
        existing.Spec.Template.Spec.Containers = [existingContainer] →
        ∃ update final finalContainer,
          DeploymentConfigContainerResourcesMutator cmp desired existing =
            .returned update final ∧
          final.Spec.Template.Spec.Containers = [finalContainer] ∧
          { finalContainer with Resources := existingContainer.Resources } = existingContainer ∧
          { final with
              Spec.Template.Spec.Containers := existing.Spec.Template.Spec.Containers } =
            existing) ∧
    (∀ desiredContainer,
        desired.Spec.Template.Spec.Containers = [desiredContainer] →
        existing.Spec.Template.Spec.Containers.length ≠ 1 →
        ∃ final,
          DeploymentConfigContainerResourcesMutator cmp desired existing =
            .returned true final ∧
          final.Spec.Template.Spec.Containers = desired.Spec.Template.Spec.Containers ∧
          { final with
              Spec.Template.Spec.Containers := existing.Spec.Template.Spec.Containers } =
            existing) := by
  refine ⟨⟨_, _, replicasMutator_eq desired existing, rfl⟩,
    ⟨_, _, affinityMutator_eq desired existing, rfl⟩,
    ⟨_, _, tolerationsMutator_eq desired existing, rfl⟩, ?_, ?_⟩
  · intro desiredContainer existingContainer hd he
    rw [resourcesMutator_eq cmp desired existing desiredContainer hd, he]
    by_cases hcmp : cmp existingContainer.Resources desiredContainer.Resources = true
    · refine ⟨_, _, existingContainer, rfl, ?_, rfl, ?_⟩
      · simp [resourcesEffect, hcmp]
      · simp [← he]
    · refine ⟨_, _, { existingContainer with Resources := desiredContainer.Resources }, rfl, ?_,
        rfl, ?_⟩
      · simp [resourcesEffect, hcmp]
      · simp [← he]
  · intro desiredContainer hd hlen
    rw [resourcesMutator_eq cmp desired existing desiredContainer hd]
    have heff : resourcesEffect cmp desiredContainer existing.Spec.Template.Spec.Containers =
        (true, [desiredContainer]) := by
      rcases hc : existing.Spec.Template.Spec.Containers with _ | ⟨c, _ | ⟨c2, cs⟩⟩
      · rfl
      · rw [hc] at hlen
        exact absurd rfl hlen
      · rfl
    rw [heff]
    exact ⟨_, rfl, hd.symm, rfl⟩

/-- Witness for C9 (amended): one existing container with image `redis:4` and env `B=2`; only
its resources change. -/
theorem mutators_frame_witness :
    ∃ update final finalContainer,
      DeploymentConfigContainerResourcesMutator sameResources
          { DeploymentConfig.zero with
              Spec.Template.Spec.Containers :=
                [⟨"redis", "redis:5", [⟨"A", "1", none⟩], ⟨[("cpu", "200m")], []⟩⟩] }
          { DeploymentConfig.zero with
              Spec.Template.Spec.Containers :=
                [⟨"redis", "redis:4", [⟨"B", "2", none⟩], ⟨[("cpu", "100m")], []⟩⟩] } =
        .returned update final ∧
      final.Spec.Template.Spec.Containers = [finalContainer] ∧
      finalContainer.Image = "redis:4" ∧ finalContainer.Env = [⟨"B", "2", none⟩] := by
  obtain ⟨update, final, finalContainer, hrun, hfinal, hframe, _⟩ :=
    (mutators_frame sameResources
      { DeploymentConfig.zero with
          Spec.Template.Spec.Containers :=
            [⟨"redis", "redis:5", [⟨"A", "1", none⟩], ⟨[("cpu", "200m")], []⟩⟩] }
      { DeploymentConfig.zero with
          Spec.Template.Spec.Containers :=
            [⟨"redis", "redis:4", [⟨"B", "2", none⟩], ⟨[("cpu", "100m")], []⟩⟩] }).2.2.2.1
      ⟨"redis", "redis:5", [⟨"A", "1", none⟩], ⟨[("cpu", "200m")], []⟩⟩
      ⟨"redis", "redis:4", [⟨"B", "2", none⟩], ⟨[("cpu", "100m")], []⟩⟩ rfl rfl
  refine ⟨update, final, finalContainer, hrun, hfinal, ?_, ?_⟩
  · have h := congrArg Container.Image hframe
    exact h
  · have h := congrArg Container.Env hframe
    exact h

/-! ### DeveloperUser controller -/

theorem isOrphan_not_invalid (e : Error) (h : IsOrphanSpecError e = true) :
    IsInvalidSpecError e = false := by
  cases e with
  | specField t l => cases t <;> simp_all [IsOrphanSpecError, IsInvalidSpecError]
  | _ => simp_all [IsOrphanSpecError]

/-- C10, as stated, fails for a parent account that exists and is not ready when the lookup of
its provider account fails: `findParentAccount` then returns the lookup error, which is not an
Orphan error. Here the account `acme` exists, is not ready, and its provider secret is
missing. -/
theorem findParentAccount_not_ready_counterexample :
    (sampleCollaborators false).getDeveloperAccount ⟨"ns", "acme"⟩ =
      .ok ⟨"acme", "ns", some "provider-secret", false⟩ ∧
    (findParentAccount (sampleCollaborators false)
        ⟨"alice", "ns", none, "alice", "alice@example.com", "acme", none⟩
        ⟨"https://admin", "token"⟩).1 = .error (.message "secret not found") ∧
    IsOrphanSpecError (.message "secret not found") = false :=
  ⟨rfl, rfl, rfl⟩

/-- C10, amended: `findParentAccount` returns an Orphan `SpecFieldError` with one entry at the
field path `spec.developerAccountRef` when the Get of the referenced DeveloperAccount reports
NotFound, and when the account exists, the lookup of its provider account succeeds, and the
account is not ready; when that lookup fails it returns the lookup error. When `reconcileSpec`
fails with an Orphan error and the status reconciler returns no error, `Reconcile` (on a
resource that is found and not being deleted) returns `Requeue=true` and a nil error. -/
theorem orphan_classification (c : Collaborators) (userCR : DeveloperUser)
    (userProviderAccount : ProviderAccount) (req : NamespacedName) :
    (∀ err, c.getDeveloperAccount ⟨userCR.Namespace, userCR.DeveloperAccountRef⟩ = .error err →
      IsNotFound err = true →
      (findParentAccount c userCR userProviderAccount).1 =
        .error (.specField .OrphanError
          [⟨"spec.developerAccountRef", userCR.DeveloperAccountRef,
            "parent account resource not found"⟩])) ∧
    (∀ account parentProviderAccount,
      c.getDeveloperAccount ⟨userCR.Namespace, userCR.DeveloperAccountRef⟩ = .ok account →
      c.lookupProviderAccount userCR.Namespace account.ProviderAccountRef =
        .ok parentProviderAccount →
      account.Ready = false →
      ∃ detail, (findParentAccount c userCR userProviderAccount).1 =
        .error (.specField .OrphanError
          [⟨"spec.developerAccountRef", userCR.DeveloperAccountRef, detail⟩])) ∧
    (∀ account err,
      c.getDeveloperAccount ⟨userCR.Namespace, userCR.DeveloperAccountRef⟩ = .ok account →
      c.lookupProviderAccount userCR.Namespace account.ProviderAccountRef = .error err →
      (findParentAccount c userCR userProviderAccount).1 = .error err) ∧
    (∀ developerUserCR reconcileErr statusResult,
      c.getDeveloperUser req = .ok developerUserCR →
      (c.debugLogging = true → c.marshalIndent developerUserCR = none) →
      developerUserCR.DeletionTimestamp = none →
      (reconcileSpec c developerUserCR).2.1 = some reconcileErr →
      IsOrphanSpecError reconcileErr = true →
      c.statusReconcile (reconcileSpec c developerUserCR).1 = (statusResult, none) →
      (DeveloperUserReconciler.Reconcile c req).result.Requeue = true ∧
      (DeveloperUserReconciler.Reconcile c req).err = none) := by
  refine ⟨?_, ?_, ?_, ?_⟩
  · intro err hget hnf
    simp only [findParentAccount, hget, hnf, if_true]
    rfl
  · intro account ppa hget hlookup hready
    simp only [findParentAccount, hget, hlookup, hready]
    by_cases hurl : userProviderAccount.AdminURLStr = ppa.AdminURLStr
    · exact ⟨_, by simp [hurl]; rfl⟩
    · exact ⟨_, by simp [hurl]; rfl⟩
  · intro account err hget hlookup
    simp only [findParentAccount, hget, hlookup]
  · intro cr rErr statusResult hget hmarshal hdel hspec horphan hstatus
    have hinv := isOrphan_not_invalid rErr horphan
    have hm : (if c.debugLogging then c.marshalIndent cr else none) = none := by
      by_cases hd : c.debugLogging = true
      · simp [hd, hmarshal hd]
      · simp [hd]
    simp only [DeveloperUserReconciler.Reconcile, hget, hm]
    simp only [hdel, hspec, hstatus, hinv, horphan]
    by_cases hreq : statusResult.Requeue = true
    · simp [hreq]
    · simp [hreq]

/-- Witness for C10 (amended): the user `bob` references the account `missing`, which does not
exist; the status reconciler reports no error; `Reconcile` asks for a requeue with a nil
error. -/
theorem orphan_classification_witness :
    (DeveloperUserReconciler.Reconcile (sampleCollaborators true) ⟨"ns", "bob"⟩).result.Requeue =
      true ∧
    (DeveloperUserReconciler.Reconcile (sampleCollaborators true) ⟨"ns", "bob"⟩).err = none :=
  (orphan_classification (sampleCollaborators true)
      ⟨"bob", "ns", none, "bob", "bob@example.com", "missing", none⟩
      ⟨"https://admin", "token"⟩ ⟨"ns", "bob"⟩).2.2.2
    ⟨"bob", "ns", none, "bob", "bob@example.com", "missing", none⟩
    (.specField .OrphanError
      [⟨"spec.developerAccountRef", "missing", "parent account resource not found"⟩])
    Result.empty rfl (fun _ => rfl) rfl rfl rfl rfl

theorem reconcile_reached (c : Collaborators) (req : NamespacedName) (userCR : DeveloperUser)
    (hget : c.getDeveloperUser req = .ok userCR)
    (hmarshal : c.debugLogging = true → c.marshalIndent userCR = none)
    (hdel : userCR.DeletionTimestamp = none) :
    DeveloperUserReconciler.Reconcile c req =
      match (c.statusReconcile (reconcileSpec c userCR).1).2 with
      | some statusUpdateErr =>
        match (reconcileSpec c userCR).2.1 with
        | some rErr =>
          ⟨Result.empty,
           some (.wrap ("Failed to reconcile developer user: " ++ rErr.toString ++
             ". Failed to update status: " ++ statusUpdateErr.toString) statusUpdateErr),
           [.getDeveloperUser req] ++ (reconcileSpec c userCR).2.2 ++
             [.statusReconcile (reconcileSpec c userCR).1]⟩
        | none =>
          ⟨Result.empty,
           some (.wrap ("Failed to update developers user status: " ++ statusUpdateErr.toString)
             statusUpdateErr),
           [.getDeveloperUser req] ++ (reconcileSpec c userCR).2.2 ++
             [.statusReconcile (reconcileSpec c userCR).1]⟩
      | none =>
        if (c.statusReconcile (reconcileSpec c userCR).1).1.Requeue then
          ⟨(c.statusReconcile (reconcileSpec c userCR).1).1, none,
            [.getDeveloperUser req] ++ (reconcileSpec c userCR).2.2 ++
              [.statusReconcile (reconcileSpec c userCR).1]⟩
        else
          match (reconcileSpec c userCR).2.1 with
          | some rErr =>
            if IsInvalidSpecError rErr then
              ⟨Result.empty, none,
                [.getDeveloperUser req] ++ (reconcileSpec c userCR).2.2 ++
                  [.statusReconcile (reconcileSpec c userCR).1] ++
                  [.event ⟨userCR, "Warning", "Invalid developer user spec", rErr.toString⟩]⟩
            else if IsOrphanSpecError rErr then
              ⟨{ Requeue := true, RequeueAfter := 0 }, none,
                [.getDeveloperUser req] ++ (reconcileSpec c userCR).2.2 ++
                  [.statusReconcile (reconcileSpec c userCR).1]⟩
            else
              ⟨Result.empty, some rErr,
                [.getDeveloperUser req] ++ (reconcileSpec c userCR).2.2 ++
                  [.statusReconcile (reconcileSpec c userCR).1] ++
                  [.event ⟨userCR, "Warning", "ReconcileError", rErr.toString⟩]⟩
          | none =>
            ⟨Result.empty, none,
              [.getDeveloperUser req] ++ (reconcileSpec c userCR).2.2 ++
                [.statusReconcile (reconcileSpec c userCR).1]⟩ := by
  have hm : (if c.debugLogging then c.marshalIndent userCR else none) = none := by
    by_cases hd : c.debugLogging = true
    · simp [hd, hmarshal hd]
    · simp [hd]
  simp only [DeveloperUserReconciler.Reconcile, hget, hm, hdel]
  rfl

theorem reconcileSpec_invalid (c : Collaborators) (userCR : DeveloperUser)
    (h : c.validate userCR ≠ []) :
    reconcileSpec c userCR =
      (⟨userCR, none, "", none, some (.specField .InvalidError (c.validate userCR))⟩,
        some (.specField .InvalidError (c.validate userCR)), [.validate]) := by
  simp [reconcileSpec, validateSpec, h]

theorem findParentAccount_calls (c : Collaborators) (userCR : DeveloperUser)
    (account : ProviderAccount) :
    ∀ call ∈ (findParentAccount c userCR account).2, call.isStatusReconcile = false := by
  have hall : ((findParentAccount c userCR account).2.all
      fun call => !call.isStatusReconcile) = true := by
    unfold findParentAccount
    dsimp only
    split
    · split <;> rfl
    · split
      · rfl
      · split
        · rfl
        · split <;> rfl
  intro call hcall
  have h := List.all_eq_true.mp hall call hcall
  simpa using h

theorem reconcileSpec_calls (c : Collaborators) (userCR : DeveloperUser) :
    (∀ call ∈ (reconcileSpec c userCR).2.2, call.isStatusReconcile = false) ∧
    (reconcileSpec c userCR).1.reconcileError = (reconcileSpec c userCR).2.1 ∧
    (reconcileSpec c userCR).1.userResource = userCR := by
  unfold reconcileSpec
  split
  · refine ⟨?_, rfl, rfl⟩
    intro call hcall
    simp only [List.mem_singleton] at hcall
    subst hcall
    rfl
  · split
    · refine ⟨?_, rfl, rfl⟩
      intro call hcall
      simp only [List.mem_cons, List.mem_singleton, List.not_mem_nil, or_false] at hcall
      rcases hcall with rfl | rfl <;> rfl
    · rename_i providerAccount _
      have hparent := findParentAccount_calls c userCR providerAccount
      split
      · rename_i err calls hfp
        rw [hfp] at hparent
        refine ⟨?_, rfl, rfl⟩
        intro call hcall
        simp only [List.cons_append, List.nil_append, List.mem_cons] at hcall
        rcases hcall with rfl | rfl | hmem
        · rfl
        · rfl
        · exact hparent call hmem
      · rename_i parentAccountCR calls hfp
        rw [hfp] at hparent
        split
        · refine ⟨?_, rfl, rfl⟩
          intro call hcall
          simp only [List.cons_append, List.nil_append, List.mem_cons, List.mem_append,
            List.mem_singleton, List.not_mem_nil, or_false] at hcall
          rcases hcall with rfl | rfl | hmem | rfl
          · rfl
          · rfl
          · exact hparent call hmem
          · rfl
        · refine ⟨?_, rfl, rfl⟩
          intro call hcall
          simp only [List.cons_append, List.nil_append, List.mem_cons, List.mem_append,
            List.mem_singleton, List.not_mem_nil, or_false] at hcall
          rcases hcall with rfl | rfl | hmem | rfl | rfl
          · rfl
          · rfl
          · exact hparent call hmem
          · rfl
          · rfl

/-- C11: when `Validate()` returns a non-empty error list, `validateSpec` returns a
`SpecFieldError` of type `InvalidError` carrying exactly that list (nil when the list is
empty); `reconcileSpec` returns it having made no call but the validation, whatever the
provider-account and parent-account lookups would answer; and when the status reconciler
returns no error and no requeue, `Reconcile` (on a resource that is found and not being
deleted) returns `(reconcile.Result{}, nil)`: no retry. -/
theorem invalid_spec_classification (c : Collaborators) (req : NamespacedName)
    (userCR : DeveloperUser) :
    (c.validate userCR = [] → validateSpec c userCR = none) ∧
    (c.validate userCR ≠ [] →
      validateSpec c userCR = some (.specField .InvalidError (c.validate userCR)) ∧
      IsInvalidSpecError (.specField .InvalidError (c.validate userCR)) = true ∧
      (reconcileSpec c userCR).2.1 = some (.specField .InvalidError (c.validate userCR)) ∧
      (reconcileSpec c userCR).2.2 = [.validate] ∧
      (∀ c2 : Collaborators, c2.validate = c.validate →
        reconcileSpec c2 userCR = reconcileSpec c userCR) ∧
      (∀ statusResult, c.getDeveloperUser req = .ok userCR →
        (c.debugLogging = true → c.marshalIndent userCR = none) →
        userCR.DeletionTimestamp = none →
        c.statusReconcile (reconcileSpec c userCR).1 = (statusResult, none) →
        statusResult.Requeue = false →
        (DeveloperUserReconciler.Reconcile c req).result = Result.empty ∧
        (DeveloperUserReconciler.Reconcile c req).result.Requeue = false ∧
        (DeveloperUserReconciler.Reconcile c req).err = none)) := by
  constructor
  · intro h
    simp [validateSpec, h]
  · intro h
    have hspec := reconcileSpec_invalid c userCR h
    refine ⟨by simp [validateSpec, h], rfl, by rw [hspec], by rw [hspec], ?_, ?_⟩
    · intro c2 hc2
      have h2 : c2.validate userCR ≠ [] := by rw [hc2]; exact h
      rw [hspec, reconcileSpec_invalid c2 userCR h2, hc2]
    · intro statusResult hget hmarshal hdel hstatus hreq
      rw [reconcile_reached c req userCR hget hmarshal hdel, hstatus]
      simp only [hreq, hspec]
      exact ⟨rfl, rfl, rfl⟩

/-- Witness for C11: the spec of `bob` fails validation and its parent account `missing` does
not exist; `Reconcile` returns no requeue and no error. -/
theorem invalid_spec_classification_witness :
    (DeveloperUserReconciler.Reconcile (invalidCollaborators false) ⟨"ns", "bob"⟩).result =
      Result.empty ∧
    (DeveloperUserReconciler.Reconcile (invalidCollaborators false) ⟨"ns", "bob"⟩).err = none :=
  ⟨((((invalid_spec_classification (invalidCollaborators false) ⟨"ns", "bob"⟩
      ⟨"bob", "ns", none, "bob", "bob@example.com", "missing", none⟩).2
      (by decide)).2.2.2.2.2) Result.empty rfl (fun _ => rfl) rfl rfl rfl).1,
   ((((invalid_spec_classification (invalidCollaborators false) ⟨"ns", "bob"⟩
      ⟨"bob", "ns", none, "bob", "bob@example.com", "missing", none⟩).2
      (by decide)).2.2.2.2.2) Result.empty rfl (fun _ => rfl) rfl rfl rfl).2.2⟩

/-- C12: when the primary reconcile error is neither InvalidSpec nor Orphan and the status
reconciler does not request a requeue, `Reconcile` returns a non-nil error; when the status
reconciler also returned no error, the returned error is the primary error itself, with
`reconcile.Result{}` (no requeue). -/
theorem other_errors_surface (c : Collaborators) (req : NamespacedName) (userCR : DeveloperUser)
    (reconcileErr : Error) (statusResult : Result) (statusUpdateErr : Option Error)
    (hget : c.getDeveloperUser req = .ok userCR)
    (hmarshal : c.debugLogging = true → c.marshalIndent userCR = none)
    (hdel : userCR.DeletionTimestamp = none)
    (hspec : (reconcileSpec c userCR).2.1 = some reconcileErr)
    (hinvalid : IsInvalidSpecError reconcileErr = false)
    (horphan : IsOrphanSpecError reconcileErr = false)
    (hstatus : c.statusReconcile (reconcileSpec c userCR).1 = (statusResult, statusUpdateErr))
    (hreq : statusResult.Requeue = false) :
    (DeveloperUserReconciler.Reconcile c req).err ≠ none ∧
    (statusUpdateErr = none →
      (DeveloperUserReconciler.Reconcile c req).err = some reconcileErr ∧
      (DeveloperUserReconciler.Reconcile c req).result = Result.empty ∧
      (DeveloperUserReconciler.Reconcile c req).result.Requeue = false) := by
  rw [reconcile_reached c req userCR hget hmarshal hdel, hstatus, hspec]
  cases statusUpdateErr with
  | some e2 => simp
  | none => simp [hreq, hinvalid, horphan, Result.empty]

/-- Witness for C12: the 3scale API call of the remote reconcile fails; `Reconcile` returns
that error. -/
theorem other_errors_surface_witness :
    (DeveloperUserReconciler.Reconcile remoteFailureCollaborators ⟨"ns", "alice"⟩).err =
      some (.message "3scale API unreachable") :=
  ((other_errors_surface remoteFailureCollaborators ⟨"ns", "alice"⟩
      ⟨"alice", "ns", none, "alice", "alice@example.com", "acme", none⟩
      (.message "3scale API unreachable") Result.empty none rfl (fun _ => rfl) rfl rfl rfl rfl
      rfl rfl).2 rfl).1

/-- C13: when the status reconciler returns an error `E2`, `Reconcile` returns a non-nil error
that wraps `E2`, whatever the primary error is (none, InvalidSpec, Orphan or other) and
whatever result the status reconciler returned; when the primary reconcile failed with `E1`,
the message of the returned error contains the message of `E1` followed by the message of
`E2`. -/
theorem status_write_precedence (c : Collaborators) (req : NamespacedName)
    (userCR : DeveloperUser) (statusResult : Result) (E2 : Error)
    (hget : c.getDeveloperUser req = .ok userCR)
    (hmarshal : c.debugLogging = true → c.marshalIndent userCR = none)
    (hdel : userCR.DeletionTimestamp = none)
    (hstatus : c.statusReconcile (reconcileSpec c userCR).1 = (statusResult, some E2)) :
    (∃ e, (DeveloperUserReconciler.Reconcile c req).err = some e ∧ e.Unwrap = some E2) ∧
    (∀ E1, (reconcileSpec c userCR).2.1 = some E1 →
      ∃ e before between,
        (DeveloperUserReconciler.Reconcile c req).err = some e ∧
        e.toString = before ++ E1.toString ++ between ++ E2.toString) := by
  rw [reconcile_reached c req userCR hget hmarshal hdel, hstatus]
  constructor
  · cases (reconcileSpec c userCR).2.1 with
    | some rErr => exact ⟨_, rfl, rfl⟩
    | none => exact ⟨_, rfl, rfl⟩
  · intro E1 hE1
    rw [hE1]
    exact ⟨_, "Failed to reconcile developer user: ", ". Failed to update status: ", rfl, rfl⟩

/-- Witness for C13: the spec of `bob` is invalid and the status update fails; the returned
error wraps the status error. -/
theorem status_write_precedence_witness :
    ∃ e, (DeveloperUserReconciler.Reconcile (invalidCollaborators true) ⟨"ns", "bob"⟩).err =
        some e ∧
      e.Unwrap = some (.message "status update conflict") :=
  (status_write_precedence (invalidCollaborators true) ⟨"ns", "bob"⟩
    ⟨"bob", "ns", none, "bob", "bob@example.com", "missing", none⟩ Result.empty
    (.message "status update conflict") rfl (fun _ => rfl) rfl rfl).1

/-- C14: for a DeveloperUser that is found and not being deleted, whatever the collaborators
answer (so for every outcome of `reconcileSpec`: success, or failure at validation, provider
account lookup, parent account lookup, API client construction or remote reconcile),
`reconcileSpec` returns a status reconciler built for that resource and holding the primary
error, and `Reconcile` calls `Reconcile()` of exactly that status reconciler, once. -/
theorem status_reconciler_invoked_once (c : Collaborators) (req : NamespacedName)
    (userCR : DeveloperUser)
    (hget : c.getDeveloperUser req = .ok userCR)
    (hmarshal : c.debugLogging = true → c.marshalIndent userCR = none)
    (hdel : userCR.DeletionTimestamp = none) :
    (DeveloperUserReconciler.Reconcile c req).calls.filter Call.isStatusReconcile =
      [.statusReconcile (reconcileSpec c userCR).1] ∧
    (reconcileSpec c userCR).1.userResource = userCR ∧
    (reconcileSpec c userCR).1.reconcileError = (reconcileSpec c userCR).2.1 := by
  obtain ⟨hcalls, herr, hres⟩ := reconcileSpec_calls c userCR
  refine ⟨?_, hres, herr⟩
  have hfilter : (reconcileSpec c userCR).2.2.filter Call.isStatusReconcile = [] := by
    rw [List.filter_eq_nil_iff]
    intro call hcall
    simp [hcalls call hcall]
  rw [reconcile_reached c req userCR hget hmarshal hdel]
  split
  · split <;> simp [List.filter_append, hfilter, List.filter_cons, Call.isStatusReconcile]
  · split
    · simp [List.filter_append, hfilter, List.filter_cons, Call.isStatusReconcile]
    · split
      · split
        · simp [List.filter_append, hfilter, List.filter_cons, Call.isStatusReconcile]
        · split <;> simp [List.filter_append, hfilter, List.filter_cons, Call.isStatusReconcile]
      · simp [List.filter_append, hfilter, List.filter_cons, Call.isStatusReconcile]

/-- Witness for C14: the remote reconcile fails; the status reconciler is still called, once,
and it holds the error. -/
theorem status_reconciler_invoked_once_witness :
    (DeveloperUserReconciler.Reconcile remoteFailureCollaborators ⟨"ns", "alice"⟩).calls.filter
        Call.isStatusReconcile =
      [.statusReconcile
        ⟨⟨"alice", "ns", none, "alice", "alice@example.com", "acme", none⟩,
          some ⟨"acme", "ns", none, true⟩, "https://admin", none,
          some (.message "3scale API unreachable")⟩] :=
  (status_reconciler_invoked_once remoteFailureCollaborators ⟨"ns", "alice"⟩
    ⟨"alice", "ns", none, "alice", "alice@example.com", "acme", none⟩ rfl (fun _ => rfl) rfl).1

/-! ### Environment variables -/

theorem findEnvVar_ge (env : List EnvVar) (name : String) : -1 ≤ FindEnvVar env name := by
  induction env with
  | nil => simp [FindEnvVar]
  | cons v vs ih =>
    simp only [FindEnvVar]
    split
    · omega
    · split <;> omega

theorem findEnvVar_neg_iff (env : List EnvVar) (name : String) :
    FindEnvVar env name < 0 ↔ ∀ v ∈ env, v.Name ≠ name := by
  induction env with
  | nil => simp [FindEnvVar]
  | cons v vs ih =>
    simp only [FindEnvVar, List.mem_cons, forall_eq_or_imp]
    by_cases hv : v.Name = name
    · simp [hv]
    · simp only [hv, if_false, ne_eq, not_false_eq_true, true_and]
      rw [← ih]
      have := findEnvVar_ge vs name
      split <;> omega

theorem findEnvVar_lt_length (env : List EnvVar) (name : String)
    (h : 0 ≤ FindEnvVar env name) : (FindEnvVar env name).toNat < env.length := by
  induction env with
  | nil => simp [FindEnvVar] at h
  | cons v vs ih =>
    simp only [FindEnvVar] at h ⊢
    by_cases hv : v.Name = name
    · simp [hv]
    · simp only [hv, if_false] at h ⊢
      by_cases hn : FindEnvVar vs name < 0
      · simp [hn] at h
      · simp only [hn, if_false, List.length_cons]
        have := ih (by omega)
        omega

theorem findEnvVar_getElem (env : List EnvVar) (name : String)
    (h : 0 ≤ FindEnvVar env name) :
    ∃ v, env[(FindEnvVar env name).toNat]? = some v ∧ v.Name = name ∧
      env.find? (fun w => decide (w.Name = name)) = some v := by
  induction env with
  | nil => simp [FindEnvVar] at h
  | cons v vs ih =>
    simp only [FindEnvVar] at h ⊢
    by_cases hv : v.Name = name
    · exact ⟨v, by simp [hv], hv, by simp [hv]⟩
    · simp only [hv, if_false] at h ⊢
      by_cases hn : FindEnvVar vs name < 0
      · simp [hn] at h
      · simp only [hn, if_false]
        obtain ⟨w, hw, hname, hfind⟩ := ih (by omega)
        refine ⟨w, ?_, hname, ?_⟩
        · have hidx : (FindEnvVar vs name + 1).toNat = (FindEnvVar vs name).toNat + 1 := by
            omega
          rw [hidx, List.getElem?_cons_succ]
          exact hw
        · simp [List.find?_cons, hv, hfind]

theorem erase_found_eq_filter (env : List EnvVar) (name : String)
    (hcount : env.countP (fun v => decide (v.Name = name)) ≤ 1)
    (h : 0 ≤ FindEnvVar env name) :
    env.eraseIdx (FindEnvVar env name).toNat = env.filter fun v => decide (v.Name ≠ name) := by
  induction env with
  | nil => simp [FindEnvVar] at h
  | cons v vs ih =>
    simp only [FindEnvVar] at h ⊢
    by_cases hv : v.Name = name
    · have hzero : vs.countP (fun w => decide (w.Name = name)) = 0 := by
        simp only [List.countP_cons, hv, decide_True, if_true] at hcount
        omega
      have hnone : ∀ w ∈ vs, ¬ (decide (w.Name = name) = true) := List.countP_eq_zero.mp hzero
      have hfilter : vs.filter (fun w => decide (w.Name ≠ name)) = vs := by
        rw [List.filter_eq_self]
        intro w hw
        simpa using hnone w hw
      simp only [hv, if_true, Int.toNat_zero, List.eraseIdx_cons_zero]
      rw [List.filter_cons_of_neg (by simp [hv]), hfilter]
    · simp only [hv, if_false] at h ⊢
      by_cases hn : FindEnvVar vs name < 0
      · simp [hn] at h
      · have hcount2 : vs.countP (fun w => decide (w.Name = name)) ≤ 1 := by
          simp only [List.countP_cons, hv, decide_False] at hcount
          simpa using hcount
        have hidx : (FindEnvVar vs name + 1).toNat = (FindEnvVar vs name).toNat + 1 := by
          omega
        simp only [hn, if_false, hidx, List.eraseIdx_cons_succ]
        rw [ih hcount2 (by omega)]
        simp [hv]

theorem filter_absent_eq_self (env : List EnvVar) (name : String)
    (h : FindEnvVar env name < 0) : (env.filter fun v => decide (v.Name ≠ name)) = env := by
  rw [List.filter_eq_self]
  intro v hv
  simpa using (findEnvVar_neg_iff env name).mp h v hv

theorem noRepeatedName_filter (names : List String) (env : List EnvVar) (p : EnvVar → Bool)
    (h : NoRepeatedName names env) : NoRepeatedName names (env.filter p) := by
  intro name hname
  exact Nat.le_trans (List.Sublist.countP_le _ (List.filter_sublist env)) (h name hname)

theorem deleteEnvVarsLoop_eq (names : List String) (env : List EnvVar) (update : Bool)
    (h : NoRepeatedName names env) :
    deleteEnvVarsLoop names env update =
      (withoutNames names env, update || env.any fun v => decide (v.Name ∈ names)) := by
  induction names generalizing env update with
  | nil => simp [deleteEnvVarsLoop, withoutNames]
  | cons n ns ih =>
    have hns : NoRepeatedName ns env := fun name hname => h name (List.mem_cons_of_mem _ hname)
    simp only [deleteEnvVarsLoop]
    by_cases hfound : 0 ≤ FindEnvVar env n
    · have hex : ∃ v ∈ env, v.Name = n := by
        by_contra hno
        have hneg := (findEnvVar_neg_iff env n).mpr (by
          intro v hv hname
          exact hno ⟨v, hv, hname⟩)
        omega
      simp only [ge_iff_le, hfound, if_true]
      rw [erase_found_eq_filter env n (h n (List.mem_cons_self _ _)) hfound,
        ih _ true (noRepeatedName_filter ns env _ hns)]
      obtain ⟨v, hv, hname⟩ := hex
      have hany : (env.any fun w => decide (w.Name ∈ n :: ns)) = true := by
        rw [List.any_eq_true]
        exact ⟨v, hv, by simp [hname]⟩
      simp only [withoutNames, List.filter_filter, hany, Bool.or_true, Bool.true_or]
      congr 1
      apply List.filter_congr
      intro w _
      simp only [List.mem_cons, not_or, ne_eq]
      by_cases hw : w.Name = n <;> by_cases hw2 : w.Name ∈ ns <;> simp [hw, hw2]
    · have hneg : FindEnvVar env n < 0 := by omega
      have hnone := (findEnvVar_neg_iff env n).mp hneg
      simp only [ge_iff_le, hfound, if_false]
      rw [ih env update hns]
      have hfilter : withoutNames ns env = withoutNames (n :: ns) env := by
        simp only [withoutNames]
        apply List.filter_congr
        intro w hw
        have := hnone w hw
        simp [this]
      have hany : (env.any fun w => decide (w.Name ∈ ns)) =
          (env.any fun w => decide (w.Name ∈ n :: ns)) := by
        rw [Bool.eq_iff_iff, List.any_eq_true, List.any_eq_true]
        constructor
        · rintro ⟨w, hw, hmem⟩
          exact ⟨w, hw, by simp at hmem; simp [hmem]⟩
        · rintro ⟨w, hw, hmem⟩
          have := hnone w hw
          exact ⟨w, hw, by simp at hmem; simpa [this] using hmem⟩
      rw [hfilter, hany]

theorem deleteEnvVarsLoop_length (names : List String) (env : List EnvVar) (update : Bool) :
    (deleteEnvVarsLoop names env update).1.length ≤ env.length ∧
    ((deleteEnvVarsLoop names env update).2 = true →
      update = true ∨ (deleteEnvVarsLoop names env update).1.length < env.length) := by
  induction names generalizing env update with
  | nil => simp [deleteEnvVarsLoop]
  | cons n ns ih =>
    simp only [deleteEnvVarsLoop]
    by_cases hfound : 0 ≤ FindEnvVar env n
    · have hlt := findEnvVar_lt_length env n hfound
      have hlen : (env.eraseIdx (FindEnvVar env n).toNat).length = env.length - 1 := by
        rw [List.length_eraseIdx]
        simp [hlt]
      obtain ⟨h1, _⟩ := ih (env.eraseIdx (FindEnvVar env n).toNat) true
      simp only [ge_iff_le, hfound, if_true]
      constructor
      · omega
      · intro _
        right
        omega
    · simp only [ge_iff_le, hfound, if_false]
      exact ih env update

theorem deleteEnvVarsLoop_changed (names : List String) (env : List EnvVar) (update : Bool)
    (h : (deleteEnvVarsLoop names env update).2 = true) :
    update = true ∨ (deleteEnvVarsLoop names env update).1 ≠ env := by
  rcases (deleteEnvVarsLoop_length names env update).2 h with hu | hlen
  · exact Or.inl hu
  · right
    intro heq
    rw [heq] at hlen
    exact Nat.lt_irrefl _ hlen

theorem deleteContainersEnvVars_eq (names : List String) (cs : List Container) (update : Bool)
    (h : ∀ c ∈ cs, NoRepeatedName names c.Env) :
    deleteContainersEnvVars names cs update =
      (cs.map fun c => { c with Env := withoutNames names c.Env },
       update || cs.any fun c => c.Env.any fun v => decide (v.Name ∈ names)) := by
  induction cs generalizing update with
  | nil => simp [deleteContainersEnvVars]
  | cons c cs ih =>
    simp only [deleteContainersEnvVars]
    rw [deleteEnvVarsLoop_eq names c.Env update (h c (List.mem_cons_self _ _)),
      ih _ (fun d hd => h d (List.mem_cons_of_mem _ hd))]
    simp [Bool.or_assoc]

theorem deleteContainersEnvVars_changed (names : List String) (cs : List Container)
    (update : Bool) (h : (deleteContainersEnvVars names cs update).2 = true) :
    update = true ∨ (deleteContainersEnvVars names cs update).1 ≠ cs := by
  induction cs generalizing update with
  | nil => exact Or.inl (by simpa [deleteContainersEnvVars] using h)
  | cons c cs ih =>
    simp only [deleteContainersEnvVars] at h ⊢
    rcases ih _ h with hinner | hrest
    · rcases deleteEnvVarsLoop_changed names c.Env update hinner with hu | henv
      · exact Or.inl hu
      · right
        intro heq
        apply henv
        have := (List.cons.inj heq).1
        exact congrArg Container.Env this
    · right
      intro heq
      exact hrest (List.cons.inj heq).2

theorem deleteEnvVarsLoop_true (names : List String) (env : List EnvVar) :
    (deleteEnvVarsLoop names env true).2 = true := by
  induction names generalizing env with
  | nil => rfl
  | cons n ns ih =>
    simp only [deleteEnvVarsLoop]
    split
    · exact ih _
    · exact ih _

theorem deleteEnvVarsLoop_split (names : List String) (env : List EnvVar) (update : Bool) :
    deleteEnvVarsLoop names env update =
      (envAfterDeletion names env, update || deletionHappened names env) := by
  induction names generalizing env update with
  | nil => simp [deleteEnvVarsLoop, envAfterDeletion, deletionHappened]
  | cons n ns ih =>
    simp only [deleteEnvVarsLoop, envAfterDeletion, deletionHappened]
    split
    · rw [ih _ true]
      simp [envAfterDeletion, deletionHappened, deleteEnvVarsLoop_true]
    · rw [ih env update, ih env false]
      simp

theorem envAfterDeletion_eq_self_iff (names : List String) (env : List EnvVar) :
    envAfterDeletion names env = env ↔ deletionHappened names env = false := by
  constructor
  · intro heq
    by_contra hne
    have htrue : (deleteEnvVarsLoop names env false).2 = true := by
      simpa [deletionHappened] using hne
    rcases deleteEnvVarsLoop_changed names env false htrue with h | h
    · cases h
    · exact h heq
  · intro hfalse
    simp only [envAfterDeletion, deletionHappened] at hfalse ⊢
    induction names generalizing env with
    | nil => rfl
    | cons n ns ih =>
      simp only [deleteEnvVarsLoop] at hfalse ⊢
      split at hfalse
      · rw [deleteEnvVarsLoop_true] at hfalse
        cases hfalse
      · rename_i hnot
        simp only [hnot, if_false]
        exact ih env hfalse

theorem deleteEnvVarsLoop_clean (names : List String) (env : List EnvVar) (update : Bool) :
    deleteEnvVarsLoop names (withoutNames names env) update =
      (withoutNames names env, update) := by
  have hgen : ∀ (ns : List String), (∀ n ∈ ns, n ∈ names) →
      deleteEnvVarsLoop ns (withoutNames names env) update =
        (withoutNames names env, update) := by
    intro ns
    induction ns with
    | nil => intro _; rfl
    | cons n rest ih =>
      intro hsub
      have hneg : FindEnvVar (withoutNames names env) n < 0 := by
        rw [findEnvVar_neg_iff]
        intro v hv hname
        have hmem := (List.mem_filter.mp hv).2
        have hn := hsub n (List.mem_cons_self _ _)
        rw [← hname] at hn
        simp [hn] at hmem
      have hnot : ¬ (0 ≤ FindEnvVar (withoutNames names env) n) := by omega
      simp only [deleteEnvVarsLoop, ge_iff_le, hnot, if_false]
      exact ih (fun m hm => hsub m (List.mem_cons_of_mem _ hm))
  exact hgen names (fun n hn => hn)

set_option maxHeartbeats 4000000 in
theorem deleteHooksEnvVars_eq (names : List String) (strategy : DeploymentStrategy)
    (update : Bool) (hone : OneHookPodPerKind strategy)
    (hrep : ∀ env ∈ strategyEnvLists strategy, NoRepeatedName names env) :
    deleteHooksEnvVars names strategy update =
      (strategyWithoutNames names strategy,
       update || (strategyEnvLists strategy).any fun env =>
         env.any fun v => decide (v.Name ∈ names)) := by
  rcases strategy with
    ⟨_ | ⟨_ | ⟨fp1, _ | ⟨cmd1, env1, cn1⟩⟩, _ | ⟨fp2, _ | ⟨cmd2, env2, cn2⟩⟩,
        _ | ⟨fp3, _ | ⟨cmd3, env3, cn3⟩⟩⟩,
      _ | ⟨_ | ⟨fp4, _ | ⟨cmd4, env4, cn4⟩⟩, _ | ⟨fp5, _ | ⟨cmd5, env5, cn5⟩⟩⟩⟩ <;>
    (try simp [OneHookPodPerKind, hookPod] at hone) <;>
    (try simp [strategyEnvLists, hookPod] at hrep) <;>
    simp [deleteHooksEnvVars, deletePreHookEnvVars, deletePostHookEnvVars,
      deleteMidHookEnvVars, strategyWithoutNames, strategyEnvLists, hookPod, hookWithoutNames,
      LifecycleHook.withEnv, deleteEnvVarsLoop_eq, Bool.or_assoc, Bool.or_comm,
      Bool.or_left_comm, *]

set_option maxHeartbeats 4000000 in
theorem deleteHooksEnvVars_clean (names : List String) (strategy : DeploymentStrategy)
    (update : Bool) :
    deleteHooksEnvVars names (strategyWithoutNames names strategy) update =
      (strategyWithoutNames names strategy, update) := by
  rcases strategy with
    ⟨_ | ⟨_ | ⟨fp1, _ | ⟨cmd1, env1, cn1⟩⟩, _ | ⟨fp2, _ | ⟨cmd2, env2, cn2⟩⟩,
        _ | ⟨fp3, _ | ⟨cmd3, env3, cn3⟩⟩⟩,
      _ | ⟨_ | ⟨fp4, _ | ⟨cmd4, env4, cn4⟩⟩, _ | ⟨fp5, _ | ⟨cmd5, env5, cn5⟩⟩⟩⟩ <;>
    simp [deleteHooksEnvVars, deletePreHookEnvVars, deletePostHookEnvVars,
      deleteMidHookEnvVars, strategyWithoutNames, hookWithoutNames,
      LifecycleHook.withEnv, deleteEnvVarsLoop_clean]

set_option maxHeartbeats 4000000 in
theorem deleteHooksEnvVars_changed (names : List String) (strategy : DeploymentStrategy)
    (update : Bool) (h : (deleteHooksEnvVars names strategy update).2 = true) :
    update = true ∨ (deleteHooksEnvVars names strategy update).1 ≠ strategy := by
  revert h
  rcases strategy with
    ⟨_ | ⟨_ | ⟨fp1, _ | ⟨cmd1, env1, cn1⟩⟩, _ | ⟨fp2, _ | ⟨cmd2, env2, cn2⟩⟩,
        _ | ⟨fp3, _ | ⟨cmd3, env3, cn3⟩⟩⟩,
      _ | ⟨_ | ⟨fp4, _ | ⟨cmd4, env4, cn4⟩⟩, _ | ⟨fp5, _ | ⟨cmd5, env5, cn5⟩⟩⟩⟩ <;>
    simp [deleteHooksEnvVars, deletePreHookEnvVars, deletePostHookEnvVars,
      deleteMidHookEnvVars, LifecycleHook.withEnv, deleteEnvVarsLoop_split,
      envAfterDeletion_eq_self_iff] <;>
    (try simp only [← Bool.not_eq_true]) <;>
    tauto

theorem deleteContainersEnvVars_clean (names : List String) (cs : List Container)
    (update : Bool) :
    deleteContainersEnvVars names
        (cs.map fun c => { c with Env := withoutNames names c.Env }) update =
      (cs.map fun c => { c with Env := withoutNames names c.Env }, update) := by
  induction cs generalizing update with
  | nil => rfl
  | cons c cs ih =>
    simp only [List.map_cons, deleteContainersEnvVars, deleteEnvVarsLoop_clean]
    rw [ih]

theorem deleteEnvVarsFrom_unfold (names : List String) (existing : DeploymentConfig) :
    deleteEnvVarsFrom names existing =
      ({ existing with
           Spec.Strategy :=
             (deleteHooksEnvVars names existing.Spec.Strategy
               (deleteContainersEnvVars names existing.Spec.Template.Spec.InitContainers
                 (deleteContainersEnvVars names existing.Spec.Template.Spec.Containers
                   false).2).2).1
           Spec.Template.Spec.Containers :=
             (deleteContainersEnvVars names existing.Spec.Template.Spec.Containers false).1
           Spec.Template.Spec.InitContainers :=
             (deleteContainersEnvVars names existing.Spec.Template.Spec.InitContainers
               (deleteContainersEnvVars names existing.Spec.Template.Spec.Containers
                 false).2).1 },
       (deleteHooksEnvVars names existing.Spec.Strategy
         (deleteContainersEnvVars names existing.Spec.Template.Spec.InitContainers
           (deleteContainersEnvVars names existing.Spec.Template.Spec.Containers
             false).2).2).2) := rfl

theorem any_env_map (cs : List Container) (p : List EnvVar → Bool) :
    ((cs.map fun c => c.Env).any p) = cs.any fun c => p c.Env := by
  induction cs with
  | nil => rfl
  | cons c cs ih => simp only [List.map_cons, List.any_cons, ih]

theorem deleteEnvVarsFrom_eq (names : List String) (existing : DeploymentConfig)
    (hone : OneHookPodPerKind existing.Spec.Strategy)
    (hrep : ∀ env ∈ envLists existing, NoRepeatedName names env) :
    deleteEnvVarsFrom names existing =
      (withoutEnvVars names existing,
       (envLists existing).any fun env => env.any fun v => decide (v.Name ∈ names)) := by
  have hc : ∀ c ∈ existing.Spec.Template.Spec.Containers, NoRepeatedName names c.Env := by
    intro c hc
    apply hrep
    simp only [envLists, List.mem_append, List.mem_map]
    exact Or.inl (Or.inl ⟨c, hc, rfl⟩)
  have hi : ∀ c ∈ existing.Spec.Template.Spec.InitContainers, NoRepeatedName names c.Env := by
    intro c hc
    apply hrep
    simp only [envLists, List.mem_append, List.mem_map]
    exact Or.inl (Or.inr ⟨c, hc, rfl⟩)
  have hs : ∀ env ∈ strategyEnvLists existing.Spec.Strategy, NoRepeatedName names env := by
    intro env henv
    apply hrep
    simp only [envLists, List.mem_append]
    exact Or.inr henv
  rw [deleteEnvVarsFrom_unfold, deleteContainersEnvVars_eq names _ false hc,
    deleteContainersEnvVars_eq names _ _ hi, deleteHooksEnvVars_eq names _ _ hone hs]
  simp only [withoutEnvVars, envLists, List.any_append, Bool.false_or, Bool.or_assoc,
    any_env_map]

theorem deleteEnvVarsFrom_clean (names : List String) (existing : DeploymentConfig) :
    deleteEnvVarsFrom names (withoutEnvVars names existing) =
      (withoutEnvVars names existing, false) := by
  rw [deleteEnvVarsFrom_unfold]
  simp only [withoutEnvVars, deleteContainersEnvVars_clean, deleteHooksEnvVars_clean]

theorem deleteEnvVarsFrom_changed (names : List String) (existing : DeploymentConfig)
    (h : (deleteEnvVarsFrom names existing).2 = true) :
    (deleteEnvVarsFrom names existing).1 ≠ existing := by
  rw [deleteEnvVarsFrom_unfold] at h ⊢
  simp only at h ⊢
  intro heq
  have hstrategy := congrArg (fun dc : DeploymentConfig => dc.Spec.Strategy) heq
  have hcontainers :=
    congrArg (fun dc : DeploymentConfig => dc.Spec.Template.Spec.Containers) heq
  have hinit :=
    congrArg (fun dc : DeploymentConfig => dc.Spec.Template.Spec.InitContainers) heq
  simp only at hstrategy hcontainers hinit
  rcases deleteHooksEnvVars_changed names _ _ h with h2 | h2
  · rcases deleteContainersEnvVars_changed names _ _ h2 with h3 | h3
    · rcases deleteContainersEnvVars_changed names _ _ h3 with h4 | h4
      · cases h4
      · exact h4 hcontainers
    · exact h3 hinit
  · exact h2 hstrategy

set_option maxHeartbeats 4000000 in
theorem deleteHooksEnvVars_rerun (names : List String) (strategy : DeploymentStrategy)
    (update update2 : Bool)
    (hrep : ∀ env ∈ strategyEnvLists strategy, NoRepeatedName names env) :
    deleteHooksEnvVars names (deleteHooksEnvVars names strategy update).1 update2 =
      ((deleteHooksEnvVars names strategy update).1, update2) := by
  rcases strategy with
    ⟨_ | ⟨_ | ⟨fp1, _ | ⟨cmd1, env1, cn1⟩⟩, _ | ⟨fp2, _ | ⟨cmd2, env2, cn2⟩⟩,
        _ | ⟨fp3, _ | ⟨cmd3, env3, cn3⟩⟩⟩,
      _ | ⟨_ | ⟨fp4, _ | ⟨cmd4, env4, cn4⟩⟩, _ | ⟨fp5, _ | ⟨cmd5, env5, cn5⟩⟩⟩⟩ <;>
    (try simp [strategyEnvLists, hookPod] at hrep) <;>
    simp [deleteHooksEnvVars, deletePreHookEnvVars, deletePostHookEnvVars,
      deleteMidHookEnvVars, LifecycleHook.withEnv, deleteEnvVarsLoop_eq,
      deleteEnvVarsLoop_clean, *]

theorem deleteEnvVarsFrom_rerun (names : List String) (existing : DeploymentConfig)
    (hrep : ∀ env ∈ envLists existing, NoRepeatedName names env) :
    deleteEnvVarsFrom names (deleteEnvVarsFrom names existing).1 =
      ((deleteEnvVarsFrom names existing).1, false) := by
  have hc : ∀ c ∈ existing.Spec.Template.Spec.Containers, NoRepeatedName names c.Env := by
    intro c hc
    apply hrep
    simp only [envLists, List.mem_append, List.mem_map]
    exact Or.inl (Or.inl ⟨c, hc, rfl⟩)
  have hi : ∀ c ∈ existing.Spec.Template.Spec.InitContainers, NoRepeatedName names c.Env := by
    intro c hc
    apply hrep
    simp only [envLists, List.mem_append, List.mem_map]
    exact Or.inl (Or.inr ⟨c, hc, rfl⟩)
  have hs : ∀ env ∈ strategyEnvLists existing.Spec.Strategy, NoRepeatedName names env := by
    intro env henv
    apply hrep
    simp only [envLists, List.mem_append]
    exact Or.inr henv
  rw [deleteEnvVarsFrom_unfold names existing, deleteContainersEnvVars_eq names _ false hc,
    deleteContainersEnvVars_eq names _ _ hi]
  rw [deleteEnvVarsFrom_unfold]
  simp only [deleteContainersEnvVars_clean, deleteHooksEnvVars_rerun names _ _ _ hs]

theorem hookPod_hookWithoutNames (names : List String) (hook : Option LifecycleHook) :
    ((hookPod (hookWithoutNames names hook)).map fun p => p.Env).toList =
      (((hookPod hook).map fun p => p.Env).toList).map (withoutNames names) := by
  rcases hook with _ | ⟨fp, _ | ⟨cmd, env, cn⟩⟩ <;>
    simp [hookPod, hookWithoutNames, LifecycleHook.withEnv]

theorem strategyEnvLists_withoutNames (names : List String) (strategy : DeploymentStrategy) :
    strategyEnvLists (strategyWithoutNames names strategy) =
      (strategyEnvLists strategy).map (withoutNames names) := by
  rcases strategy with ⟨_ | ⟨pre, mid, post⟩, _ | ⟨rpre, rpost⟩⟩ <;>
    simp [strategyEnvLists, strategyWithoutNames, hookPod_hookWithoutNames] <;>
    simp [hookPod]

theorem envLists_withoutEnvVars (names : List String) (dc : DeploymentConfig) :
    envLists (withoutEnvVars names dc) = (envLists dc).map (withoutNames names) := by
  simp only [envLists, withoutEnvVars, strategyEnvLists_withoutNames, List.map_append,
    List.map_map]
  rfl

theorem withoutNames_eq_self (names : List String) (env : List EnvVar)
    (h : ∀ v ∈ env, v.Name ∉ names) : withoutNames names env = env := by
  unfold withoutNames
  rw [List.filter_eq_self]
  intro v hv
  simpa using h v hv

theorem hookWithoutNames_eq_self (names : List String) (hook : Option LifecycleHook)
    (h : ∀ env ∈ ((hookPod hook).map fun p => p.Env).toList, withoutNames names env = env) :
    hookWithoutNames names hook = hook := by
  rcases hook with _ | ⟨fp, _ | ⟨cmd, env, cn⟩⟩
  · rfl
  · rfl
  · simp only [hookPod, Option.bind_some, Option.map_some', Option.toList_some,
      List.mem_singleton, forall_eq] at h
    simp [hookWithoutNames, LifecycleHook.withEnv, h]

theorem strategyWithoutNames_eq_self (names : List String) (strategy : DeploymentStrategy)
    (h : ∀ env ∈ strategyEnvLists strategy, withoutNames names env = env) :
    strategyWithoutNames names strategy = strategy := by
  have hpre := hookWithoutNames_eq_self names (strategy.RecreateParams.bind fun p => p.Pre)
    (fun env henv => h env (by simp only [strategyEnvLists, List.mem_append]; tauto))
  have hmid := hookWithoutNames_eq_self names (strategy.RecreateParams.bind fun p => p.Mid)
    (fun env henv => h env (by simp only [strategyEnvLists, List.mem_append]; tauto))
  have hpost := hookWithoutNames_eq_self names (strategy.RecreateParams.bind fun p => p.Post)
    (fun env henv => h env (by simp only [strategyEnvLists, List.mem_append]; tauto))
  have hrpre := hookWithoutNames_eq_self names (strategy.RollingParams.bind fun p => p.Pre)
    (fun env henv => h env (by simp only [strategyEnvLists, List.mem_append]; tauto))
  have hrpost := hookWithoutNames_eq_self names (strategy.RollingParams.bind fun p => p.Post)
    (fun env henv => h env (by simp only [strategyEnvLists, List.mem_append]; tauto))
  rcases strategy with ⟨_ | ⟨pre, mid, post⟩, _ | ⟨rpre, rpost⟩⟩ <;>
    simp only [Option.bind] at hpre hmid hpost hrpre hrpost <;>
    simp [strategyWithoutNames, *]

theorem map_eq_self_of_forall {α : Type} (f : α → α) (xs : List α)
    (h : ∀ x ∈ xs, f x = x) : xs.map f = xs := by
  induction xs with
  | nil => rfl
  | cons x xs ih =>
    rw [List.map_cons, h x (List.mem_cons_self _ _),
      ih fun y hy => h y (List.mem_cons_of_mem _ hy)]

theorem withoutEnvVars_eq_self (names : List String) (dc : DeploymentConfig)
    (h : ∀ env ∈ envLists dc, ∀ v ∈ env, v.Name ∉ names) : withoutEnvVars names dc = dc := by
  have hc : (dc.Spec.Template.Spec.Containers.map fun c =>
      ({ c with Env := withoutNames names c.Env } : Container)) =
      dc.Spec.Template.Spec.Containers := by
    apply map_eq_self_of_forall
    intro c hc
    rw [withoutNames_eq_self names c.Env (h c.Env (by
      simp only [envLists, List.mem_append, List.mem_map]
      exact Or.inl (Or.inl ⟨c, hc, rfl⟩)))]
  have hi : (dc.Spec.Template.Spec.InitContainers.map fun c =>
      ({ c with Env := withoutNames names c.Env } : Container)) =
      dc.Spec.Template.Spec.InitContainers := by
    apply map_eq_self_of_forall
    intro c hc
    rw [withoutNames_eq_self names c.Env (h c.Env (by
      simp only [envLists, List.mem_append, List.mem_map]
      exact Or.inl (Or.inr ⟨c, hc, rfl⟩)))]
  have hs : strategyWithoutNames names dc.Spec.Strategy = dc.Spec.Strategy :=
    strategyWithoutNames_eq_self names dc.Spec.Strategy fun env henv =>
      withoutNames_eq_self names env (h env (by
        simp only [envLists, List.mem_append]
        exact Or.inr henv))
  simp only [withoutEnvVars, hc, hi, hs]

/-- C16, as stated, fails for an env list with two entries of a listed name: on `[B=1, B=2]`
with the deletion list `[B]` the first run leaves `[B=2]`, and the second run, against that
object, removes `B=2` and issues an update call. -/
theorem env_var_migration_rerun_counterexample :
    (deleteDeploymentConfigEnvVars
        (fun _ => .ok (sampleDC [⟨"B", "1", none⟩, ⟨"B", "2", none⟩])) (fun _ => none) "ns"
        (sampleDC []) ["B"]).existing = some (sampleDC [⟨"B", "2", none⟩]) ∧
    (deleteDeploymentConfigEnvVars (fun _ => .ok (sampleDC [⟨"B", "2", none⟩])) (fun _ => none)
        "ns" (sampleDC []) ["B"]).updateCalls = [sampleDC []] ∧
    (deleteDeploymentConfigEnvVars (fun _ => .ok (sampleDC [⟨"B", "2", none⟩])) (fun _ => none)
        "ns" (sampleDC []) ["B"]).existing = some (sampleDC []) := by
  refine ⟨by decide, by decide, by decide⟩

/-- C16, amended: in every run of `deleteDeploymentConfigEnvVars` at most one update call is
issued, and one is issued only if the run changed the object, that is removed at least one env
var. When no env list of `existing` holds two entries of the same listed name, a second run
against the object produced by the first run is a no-op: it leaves the object as it is, issues
no update call and returns `(reconcile.Result{}, nil)`. -/
theorem env_var_migration_idempotent (get get2 : NamespacedName → Except Error DeploymentConfig)
    (UpdateResource : DeploymentConfig → Option Error) (ns : String)
    (desired existing : DeploymentConfig) (envVarNames : List String)
    (hget : get ⟨ns, desired.Name⟩ = .ok existing) :
    (deleteDeploymentConfigEnvVars get UpdateResource ns desired envVarNames).updateCalls.length
      ≤ 1 ∧
    ((deleteDeploymentConfigEnvVars get UpdateResource ns desired envVarNames).updateCalls ≠ [] →
      (deleteDeploymentConfigEnvVars get UpdateResource ns desired envVarNames).existing ≠
        some existing) ∧
    ((∀ env ∈ envLists existing, NoRepeatedName envVarNames env) →
      ∀ final,
        (deleteDeploymentConfigEnvVars get UpdateResource ns desired envVarNames).existing =
          some final →
        get2 ⟨ns, desired.Name⟩ = .ok final →
        (deleteDeploymentConfigEnvVars get2 UpdateResource ns desired envVarNames).existing =
          some final ∧
        (deleteDeploymentConfigEnvVars get2 UpdateResource ns desired envVarNames).updateCalls =
          [] ∧
        (deleteDeploymentConfigEnvVars get2 UpdateResource ns desired envVarNames).err = none ∧
        (deleteDeploymentConfigEnvVars get2 UpdateResource ns desired envVarNames).result =
          Result.empty) := by
  refine ⟨?_, ?_, ?_⟩
  · simp only [deleteDeploymentConfigEnvVars, hget]
    split
    · split <;> simp
    · simp
  · simp only [deleteDeploymentConfigEnvVars, hget]
    by_cases hflag : (deleteEnvVarsFrom envVarNames existing).2 = true
    · have hchanged := deleteEnvVarsFrom_changed envVarNames existing hflag
      simp only [hflag, if_true]
      split
      · intro _ heq
        exact hchanged (Option.some.inj heq)
      · intro _ heq
        exact hchanged (Option.some.inj heq)
    · simp [hflag]
  · intro hrep final hfinal hget2
    have hfirst : final = (deleteEnvVarsFrom envVarNames existing).1 := by
      simp only [deleteDeploymentConfigEnvVars, hget] at hfinal
      split at hfinal
      · split at hfinal <;> exact (Option.some.inj hfinal).symm
      · exact (Option.some.inj hfinal).symm
    subst hfirst
    simp only [deleteDeploymentConfigEnvVars, hget2,
      deleteEnvVarsFrom_rerun envVarNames existing hrep]
    exact ⟨rfl, rfl, rfl, rfl⟩

/-- Witness for C16 (amended): from `[A=1, B=2]` with the deletion list `[B]` the first run
leaves `[A=1]`; the second run against that object issues no update call. The same holds for
the DeploymentConfig with a rolling and a recreate pre hook pod: the first run cleans the
recreate pod, and the second run against that object issues no update call. -/
theorem env_var_migration_idempotent_witness :
    (deleteDeploymentConfigEnvVars (fun _ => .ok (sampleDC [⟨"A", "1", none⟩])) (fun _ => none)
        "ns" (sampleDC []) ["B"]).updateCalls = [] ∧
    (deleteDeploymentConfigEnvVars (fun _ => .ok (sampleDC [⟨"A", "1", none⟩])) (fun _ => none)
        "ns" (sampleDC []) ["B"]).existing = some (sampleDC [⟨"A", "1", none⟩]) ∧
    (deleteDeploymentConfigEnvVars
        (fun _ => .ok
          { twoPreHooksDC with
              Spec.Strategy.RecreateParams :=
                some { Pre := some ⟨"Abort", some ⟨[], [], "system"⟩⟩,
                       Mid := none, Post := none } })
        (fun _ => none) "ns" (sampleDC []) ["B"]).updateCalls = [] :=
  ⟨((env_var_migration_idempotent
      (fun _ => .ok (sampleDC [⟨"A", "1", none⟩, ⟨"B", "2", none⟩]))
      (fun _ => .ok (sampleDC [⟨"A", "1", none⟩])) (fun _ => none) "ns" (sampleDC [])
      (sampleDC [⟨"A", "1", none⟩, ⟨"B", "2", none⟩]) ["B"] rfl).2.2
      (by decide) (sampleDC [⟨"A", "1", none⟩]) (by decide) rfl).2.1,
   ((env_var_migration_idempotent
      (fun _ => .ok (sampleDC [⟨"A", "1", none⟩, ⟨"B", "2", none⟩]))
      (fun _ => .ok (sampleDC [⟨"A", "1", none⟩])) (fun _ => none) "ns" (sampleDC [])
      (sampleDC [⟨"A", "1", none⟩, ⟨"B", "2", none⟩]) ["B"] rfl).2.2
      (by decide) (sampleDC [⟨"A", "1", none⟩]) (by decide) rfl).1,
   ((env_var_migration_idempotent
      (fun _ => .ok twoPreHooksDC)
      (fun _ => .ok
        { twoPreHooksDC with
            Spec.Strategy.RecreateParams :=
              some { Pre := some ⟨"Abort", some ⟨[], [], "system"⟩⟩,
                     Mid := none, Post := none } })
      (fun _ => none) "ns" (sampleDC []) twoPreHooksDC ["B"] rfl).2.2
      (by decide)
      { twoPreHooksDC with
          Spec.Strategy.RecreateParams :=
            some { Pre := some ⟨"Abort", some ⟨[], [], "system"⟩⟩,
                   Mid := none, Post := none } }
      (by decide) rfl).2.1⟩

theorem find_none_of_neg (env : List EnvVar) (name : String) (h : FindEnvVar env name < 0) :
    env.find? (fun w => decide (w.Name = name)) = none := by
  rw [List.find?_eq_none]
  intro v hv
  simpa using (findEnvVar_neg_iff env name).mp h v hv

theorem set_found (env : List EnvVar) (name : String) (w : EnvVar) (hw : w.Name = name)
    (h : 0 ≤ FindEnvVar env name) :
    (env.set (FindEnvVar env name).toNat w).find? (fun v => decide (v.Name = name)) = some w ∧
    ((env.set (FindEnvVar env name).toNat w).filter fun v => decide (v.Name ≠ name)) =
      (env.filter fun v => decide (v.Name ≠ name)) ∧
    (env.set (FindEnvVar env name).toNat w).countP (fun v => decide (v.Name = name)) =
      env.countP (fun v => decide (v.Name = name)) := by
  induction env with
  | nil => simp [FindEnvVar] at h
  | cons v vs ih =>
    simp only [FindEnvVar] at h ⊢
    by_cases hv : v.Name = name
    · simp [hv, hw, List.countP_cons]
    · simp only [hv, if_false] at h ⊢
      by_cases hn : FindEnvVar vs name < 0
      · simp [hn] at h
      · have hidx : (FindEnvVar vs name + 1).toNat = (FindEnvVar vs name).toNat + 1 := by
          omega
        obtain ⟨h1, h2, h3⟩ := ih (by omega)
        simp only [hn, if_false, hidx, List.set_cons_succ]
        refine ⟨?_, ?_, ?_⟩
        · simp [List.find?_cons, hv, h1]
        · simp only [List.filter_cons, h2]
        · simp only [List.countP_cons, h3]

theorem append_found (env : List EnvVar) (name : String) (w : EnvVar) (hw : w.Name = name)
    (h : FindEnvVar env name < 0) :
    (env ++ [w]).find? (fun v => decide (v.Name = name)) = some w ∧
    ((env ++ [w]).filter fun v => decide (v.Name ≠ name)) =
      (env.filter fun v => decide (v.Name ≠ name)) ∧
    (env ++ [w]).countP (fun v => decide (v.Name = name)) ≤ 1 := by
  have hnone := (findEnvVar_neg_iff env name).mp h
  have hzero : env.countP (fun v => decide (v.Name = name)) = 0 := by
    rw [List.countP_eq_zero]
    intro v hv
    simpa using hnone v hv
  refine ⟨?_, ?_, ?_⟩
  · rw [List.find?_append, find_none_of_neg env name h]
    simp [hw]
  · simp [List.filter_append, hw]
  · simp [List.countP_append, hzero, hw]

theorem erased_found (env : List EnvVar) (name : String)
    (hcount : env.countP (fun v => decide (v.Name = name)) ≤ 1)
    (h : 0 ≤ FindEnvVar env name) :
    (env.eraseIdx (FindEnvVar env name).toNat).find? (fun v => decide (v.Name = name)) = none ∧
    ((env.eraseIdx (FindEnvVar env name).toNat).filter fun v => decide (v.Name ≠ name)) =
      (env.filter fun v => decide (v.Name ≠ name)) ∧
    (env.eraseIdx (FindEnvVar env name).toNat).countP (fun v => decide (v.Name = name)) ≤ 1 ∧
    (env.eraseIdx (FindEnvVar env name).toNat).length < env.length := by
  have hlt := findEnvVar_lt_length env name h
  refine ⟨?_, ?_, ?_, ?_⟩
  · rw [erase_found_eq_filter env name hcount h, List.find?_eq_none]
    intro v hv
    have := (List.mem_filter.mp hv).2
    simpa using this
  · rw [erase_found_eq_filter env name hcount h, List.filter_filter]
    simp
  · rw [erase_found_eq_filter env name hcount h]
    exact Nat.le_trans (List.Sublist.countP_le _ (List.filter_sublist env)) hcount
  · rw [List.length_eraseIdx]
    simp only [hlt, if_true]
    omega

/-- C19, as stated, fails when the env of `existing` holds two entries of the name: with
`[X=1, X=2]` in existing and no `X` in desired the reconciler removes the first entry only, so
`X` is still present in existing afterwards while absent from desired. -/
theorem env_var_reconciler_counterexample :
    DeploymentConfigEnvVarReconciler (sampleDC [])
        (sampleDC [⟨"X", "1", none⟩, ⟨"X", "2", none⟩]) "X" =
      .returned true (sampleDC [⟨"X", "2", none⟩]) ∧
    FindEnvVar [⟨"X", "2", none⟩] "X" = 0 ∧ FindEnvVar [] "X" = -1 := by
  refine ⟨by decide, by decide, by decide⟩

/-- C19, amended: for desired and existing DeploymentConfigs with one container each, and a
name carried by at most one entry of the env of existing, `DeploymentConfigEnvVarReconciler`
returns with existing changed in the env of its container only, where afterwards the entry
of that name is the one of desired (the first one desired has, present exactly when desired
has one) and is the only entry of that name; the entries with other names are unchanged and
in their order; and the returned flag is true exactly when existing was changed. -/
theorem env_var_reconciler_spec (desired existing : DeploymentConfig)
    (desiredContainer existingContainer : Container) (envVar : String)
    (hd : desired.Spec.Template.Spec.Containers = [desiredContainer])
    (he : existing.Spec.Template.Spec.Containers = [existingContainer])
    (hcount : existingContainer.Env.countP (fun v => decide (v.Name = envVar)) ≤ 1) :
    ∃ update final finalContainer,
      DeploymentConfigEnvVarReconciler desired existing envVar = .returned update final ∧
      final.Spec.Template.Spec.Containers = [finalContainer] ∧
      finalContainer.Env.find? (fun v => decide (v.Name = envVar)) =
        desiredContainer.Env.find? (fun v => decide (v.Name = envVar)) ∧
      finalContainer.Env.countP (fun v => decide (v.Name = envVar)) ≤ 1 ∧
      (finalContainer.Env.filter fun v => decide (v.Name ≠ envVar)) =
        (existingContainer.Env.filter fun v => decide (v.Name ≠ envVar)) ∧
      { finalContainer with Env := existingContainer.Env } = existingContainer ∧
      { final with Spec.Template.Spec.Containers := existing.Spec.Template.Spec.Containers } =
        existing ∧
      (update = true ↔ final ≠ existing) := by
  have hself : { existing with Spec.Template.Spec.Containers := [existingContainer] } =
      existing := by rw [← he]
  by_cases hdneg : FindEnvVar desiredContainer.Env envVar < 0
  · by_cases heneg : FindEnvVar existingContainer.Env envVar < 0
    · have hnot : ¬ (0 ≤ FindEnvVar existingContainer.Env envVar) := by omega
      refine ⟨false, existing, existingContainer, ?_, he, ?_, hcount, rfl, rfl, rfl, by simp⟩
      · simp [DeploymentConfigEnvVarReconciler, hd, he, hdneg, heneg, hnot]
      · rw [find_none_of_neg _ _ hdneg, find_none_of_neg _ _ heneg]
    · have hpos : 0 ≤ FindEnvVar existingContainer.Env envVar := by omega
      obtain ⟨h1, h2, h3, h4⟩ := erased_found existingContainer.Env envVar hcount hpos
      refine ⟨true,
        { existing with
            Spec.Template.Spec.Containers :=
              [{ existingContainer with Env := existingContainer.Env.eraseIdx (FindEnvVar existingContainer.Env envVar).toNat }] },
        { existingContainer with
          Env := existingContainer.Env.eraseIdx (FindEnvVar existingContainer.Env envVar).toNat },
        ?_, rfl, ?_, h3, h2, rfl, ?_, ?_⟩
      · simp [DeploymentConfigEnvVarReconciler, hd, he, hdneg, hpos]
      · rw [h1, find_none_of_neg _ _ hdneg]
      · simp only [he]
        exact hself
      · simp only [true_iff]
        intro heq
        have hc := congrArg (fun dc : DeploymentConfig => dc.Spec.Template.Spec.Containers) heq
        simp only [he] at hc
        have henv := congrArg Container.Env (List.cons.inj hc).1
        simp only at henv
        rw [henv] at h4
        exact Nat.lt_irrefl _ h4
  · have hdpos : 0 ≤ FindEnvVar desiredContainer.Env envVar := by omega
    have hdnot : ¬ (FindEnvVar desiredContainer.Env envVar < 0) := hdneg
    obtain ⟨dv, hdv, hdname, hdfind⟩ := findEnvVar_getElem desiredContainer.Env envVar hdpos
    by_cases heneg : FindEnvVar existingContainer.Env envVar < 0
    · have hnot : ¬ (0 ≤ FindEnvVar existingContainer.Env envVar) := by omega
      obtain ⟨h1, h2, h3⟩ := append_found existingContainer.Env envVar dv hdname heneg
      refine ⟨true,
        { existing with
            Spec.Template.Spec.Containers :=
              [{ existingContainer with Env := existingContainer.Env ++ [dv] }] },
        { existingContainer with Env := existingContainer.Env ++ [dv] },
        ?_, rfl, ?_, h3, h2, rfl, ?_, ?_⟩
      · simp [DeploymentConfigEnvVarReconciler, hd, he, hdnot, hdpos, heneg, hdv]
      · rw [h1, hdfind]
      · simp only [he]
        exact hself
      · simp only [true_iff]
        intro heq
        have hc := congrArg (fun dc : DeploymentConfig => dc.Spec.Template.Spec.Containers) heq
        simp only [he] at hc
        have henv := congrArg (fun c : Container => c.Env.length) (List.cons.inj hc).1
        simp at henv
    · have hepos : 0 ≤ FindEnvVar existingContainer.Env envVar := by omega
      have henot : ¬ (FindEnvVar existingContainer.Env envVar < 0) := heneg
      obtain ⟨ev, hev, hename, hefind⟩ :=
        findEnvVar_getElem existingContainer.Env envVar hepos
      by_cases hsame : ev = dv
      · refine ⟨false, existing, existingContainer, ?_, he, ?_, hcount, rfl, rfl, rfl,
          by simp⟩
        · simp [DeploymentConfigEnvVarReconciler, hd, he, hdnot, hdpos, henot, hepos, hdv, hev,
            hsame]
        · rw [hefind, hdfind, hsame]
      · obtain ⟨h1, h2, h3⟩ := set_found existingContainer.Env envVar dv hdname hepos
        refine ⟨true,
        { existing with
            Spec.Template.Spec.Containers :=
              [{ existingContainer with Env := existingContainer.Env.set (FindEnvVar existingContainer.Env envVar).toNat dv }] },
        { existingContainer with
            Env := existingContainer.Env.set (FindEnvVar existingContainer.Env envVar).toNat dv },
          ?_, rfl, ?_, by rw [h3]; exact hcount, h2, rfl, ?_, ?_⟩
        · simp [DeploymentConfigEnvVarReconciler, hd, he, hdnot, hdpos, henot, hepos, hdv, hev,
            hsame]
        · rw [h1, hdfind]
        · simp only [he]
          exact hself
        · simp only [true_iff]
          intro heq
          have hc :=
            congrArg (fun dc : DeploymentConfig => dc.Spec.Template.Spec.Containers) heq
          simp only [he] at hc
          have henv := congrArg Container.Env (List.cons.inj hc).1
          simp only at henv
          have hget := congrArg
            (fun l : List EnvVar => l[(FindEnvVar existingContainer.Env envVar).toNat]?) henv
          simp only [hev] at hget
          rw [List.getElem?_set_self (findEnvVar_lt_length _ _ hepos)] at hget
          exact hsame (Option.some.inj hget).symm

/-- Witness for C19 (amended): desired holds `X=9`, existing holds `X=1` and `B=2`; the entry
of `X` is updated in place and `B=2` stays. -/
theorem env_var_reconciler_spec_witness :
    ∃ update final finalContainer,
      DeploymentConfigEnvVarReconciler (sampleDC [⟨"X", "9", none⟩])
          (sampleDC [⟨"X", "1", none⟩, ⟨"B", "2", none⟩]) "X" = .returned update final ∧
      final.Spec.Template.Spec.Containers = [finalContainer] ∧
      finalContainer.Env.find? (fun v => decide (v.Name = "X")) = some ⟨"X", "9", none⟩ := by
  obtain ⟨update, final, finalContainer, hrun, hfinal, hfind, _⟩ :=
    env_var_reconciler_spec (sampleDC [⟨"X", "9", none⟩])
      (sampleDC [⟨"X", "1", none⟩, ⟨"B", "2", none⟩])
      ⟨"system", "system:2.10", [⟨"X", "9", none⟩], ⟨[], []⟩⟩
      ⟨"system", "system:2.10", [⟨"X", "1", none⟩, ⟨"B", "2", none⟩], ⟨[], []⟩⟩ "X" rfl rfl
      (by decide)
  exact ⟨update, final, finalContainer, hrun, hfinal, by rw [hfind]; decide⟩

/-! ### Upgrade pipeline -/

theorem sequentially_result (σ : Type) (xs : List (upgradeDependencyFn σ)) (u : σ)
    (h : interrupts (sequentially xs u).1 = false) :
    (sequentially xs u).1 = (Result.empty, none) := by
  induction xs generalizing u with
  | nil => rfl
  | cons f fs ih =>
    simp only [sequentially] at h ⊢
    by_cases hf : ((f u).1.1.Requeue || (f u).1.2.isSome) = true
    · simp only [hf, if_true] at h
      simp only [interrupts] at h
      rw [h] at hf
      cases hf
    · simp only [hf] at h ⊢
      exact ih _ h

theorem sequentially_append (σ : Type) (xs ys : List (upgradeDependencyFn σ)) (u : σ) :
    sequentially (xs ++ ys) u =
      if interrupts (sequentially xs u).1 then sequentially xs u
      else sequentially ys (sequentially xs u).2 := by
  induction xs generalizing u with
  | nil => simp [sequentially, interrupts, Result.empty]
  | cons f fs ih =>
    simp only [List.cons_append, sequentially]
    by_cases hf : ((f u).1.1.Requeue || (f u).1.2.isSome) = true
    · simp [hf, interrupts]
    · simp only [hf, if_false]
      exact ih _

theorem sequentially_nested (σ : Type) (pre xs post : List (upgradeDependencyFn σ)) :
    sequentially (pre ++ sequentially xs :: post) = sequentially (pre ++ xs ++ post) := by
  funext u
  rw [List.append_assoc, sequentially_append, sequentially_append σ pre (xs ++ post)]
  by_cases hpre : interrupts (sequentially pre u).1 = true
  · simp [hpre]
  · simp only [hpre]
    rw [sequentially_append σ xs post]
    simp only [sequentially]
    by_cases hxs : interrupts (sequentially xs (sequentially pre u).2).1 = true
    · have hxs2 := hxs
      simp only [interrupts] at hxs2
      simp [hxs, hxs2]
    · have hxs2 := hxs
      simp only [interrupts] at hxs2
      simp [hxs, hxs2]

theorem upgradeDeploymentConfigs_eq (σ : Type) (s : UpgradeSteps σ) :
    upgradeDeploymentConfigs s =
      sequentially
        [s.upgradeAPIcastDeploymentConfigs, s.upgradeBackendDeploymentConfigs,
         s.upgradeZyncDeploymentConfigs, s.upgradeMemcachedDeploymentConfig,
         s.upgradeSystemDeploymentConfigs,
         when (notExternal s .BackendRedis) s.upgradeBackendRedisDeploymentConfig,
         when (notExternal s .SystemRedis) s.upgradeSystemRedisDeploymentConfig,
         when (notExternal s .SystemDatabase) s.upgradeSystemDatabaseDeploymentConfig] := by
  have h := sequentially_nested σ
    [s.upgradeAPIcastDeploymentConfigs, s.upgradeBackendDeploymentConfigs,
     s.upgradeZyncDeploymentConfigs, s.upgradeMemcachedDeploymentConfig,
     s.upgradeSystemDeploymentConfigs]
    [when (notExternal s .BackendRedis) s.upgradeBackendRedisDeploymentConfig,
     when (notExternal s .SystemRedis) s.upgradeSystemRedisDeploymentConfig,
     when (notExternal s .SystemDatabase) s.upgradeSystemDatabaseDeploymentConfig] []
  simp only [List.cons_append, List.nil_append, List.append_nil] at h
  rw [← h]
  rfl

theorem upgradeImages_eq (σ : Type) (s : UpgradeSteps σ) :
    upgradeImages s = sequentially (upgradePipeline s).dropLast := by
  have h1 := sequentially_nested σ [s.upgradeAMPImageStreams]
    [when (notExternal s .BackendRedis) s.upgradeBackendRedisImageStream,
     when (notExternal s .SystemRedis) s.upgradeSystemRedisImageStream,
     when (notExternal s .SystemDatabase) s.upgradeSystemDatabaseImageStream]
    [upgradeDeploymentConfigs s]
  have h2 := sequentially_nested σ
    [s.upgradeAMPImageStreams,
     when (notExternal s .BackendRedis) s.upgradeBackendRedisImageStream,
     when (notExternal s .SystemRedis) s.upgradeSystemRedisImageStream,
     when (notExternal s .SystemDatabase) s.upgradeSystemDatabaseImageStream]
    [s.upgradeAPIcastDeploymentConfigs, s.upgradeBackendDeploymentConfigs,
     s.upgradeZyncDeploymentConfigs, s.upgradeMemcachedDeploymentConfig,
     s.upgradeSystemDeploymentConfigs,
     when (notExternal s .BackendRedis) s.upgradeBackendRedisDeploymentConfig,
     when (notExternal s .SystemRedis) s.upgradeSystemRedisDeploymentConfig,
     when (notExternal s .SystemDatabase) s.upgradeSystemDatabaseDeploymentConfig] []
  simp only [List.cons_append, List.nil_append, List.append_nil] at h1 h2
  rw [← upgradeDeploymentConfigs_eq, ← h1] at h2
  simp only [upgradePipeline, List.dropLast]
  rw [← h2]
  rfl

theorem upgrade_follows_pipeline (σ : Type) (s : UpgradeSteps σ) (u : σ) :
    (Upgrade s u).2 = (sequentially (upgradePipeline s) u).2 ∧
    (Upgrade s u).1.1 = (sequentially (upgradePipeline s) u).1.1 ∧
    ((sequentially (upgradePipeline s) u).1.2 = none → (Upgrade s u).1.2 = none) ∧
    (∀ e, (sequentially (upgradePipeline s) u).1.2 = some e →
      ∃ msg, (Upgrade s u).1.2 = some (.wrap msg e)) := by
  have hsplit : upgradePipeline s = (upgradePipeline s).dropLast ++ [s.upgradePodTemplateLabels] :=
    rfl
  rw [hsplit, sequentially_append, ← upgradeImages_eq]
  simp only [Upgrade, interrupts, sequentially]
  cases himg : (upgradeImages s u).1.2 with
  | some e => simp [himg]
  | none =>
    by_cases hreq : (upgradeImages s u).1.1.Requeue = true
    · simp [himg, hreq]
    · simp only [himg, hreq, Option.isSome_none, Bool.or_false, if_false]
      cases hlab : (s.upgradePodTemplateLabels (upgradeImages s u).2).1.2 with
      | some e => simp [hlab]
      | none =>
        by_cases hreq2 : (s.upgradePodTemplateLabels (upgradeImages s u).2).1.1.Requeue = true
        · simp [hlab, hreq2]
        · simp [hlab, hreq2, Result.empty]

/-- C18, as stated, fails when the pod template label step requests a requeue without error
(it does so whenever it updated a label): `Upgrade` then returns that requeue, not
`(reconcile.Result{}, nil)`. -/
theorem upgrade_label_requeue_counterexample :
    (Upgrade (sampleUpgradeSteps (Result.empty, none) (⟨true, 0⟩, none)) []).1 =
      (⟨true, 0⟩, none) ∧
    (Upgrade (sampleUpgradeSteps (Result.empty, none) (⟨true, 0⟩, none)) []).1 ≠
      (Result.empty, none) := by
  refine ⟨by decide, by decide⟩

/-- C18, amended: `Upgrade` aborts at the first interrupting step. If the image upgrade step
returns an error `e`, `Upgrade` returns the result of that step with an error that wraps `e`
and whose message is `Upgrading images: ` followed by the message of `e`, and the label step
is not run (the world is the one the image step left, whatever the label step is). If the
image step requests a requeue without error, `Upgrade` returns that requeue with a nil error
and the label step is not run. Otherwise the label step runs: its error `e` is returned
wrapped with the message `Upgrading pod template labels: ` followed by the message of `e`; its
requeue without error is returned with a nil error; and when it returns neither, `Upgrade`
returns `(reconcile.Result{}, nil)`. -/
theorem upgrade_aborts_and_annotates {σ : Type} (s : UpgradeSteps σ) (u : σ) :
    (∀ e, (upgradeImages s u).1.2 = some e →
      Upgrade s u =
        (((upgradeImages s u).1.1, some (.wrap ("Upgrading images: " ++ e.toString) e)),
          (upgradeImages s u).2) ∧
      ∀ labels, Upgrade { s with upgradePodTemplateLabels := labels } u = Upgrade s u) ∧
    ((upgradeImages s u).1.2 = none → (upgradeImages s u).1.1.Requeue = true →
      Upgrade s u = (((upgradeImages s u).1.1, none), (upgradeImages s u).2) ∧
      ∀ labels, Upgrade { s with upgradePodTemplateLabels := labels } u = Upgrade s u) ∧
    ((upgradeImages s u).1.2 = none → (upgradeImages s u).1.1.Requeue = false →
      (∀ e, (s.upgradePodTemplateLabels (upgradeImages s u).2).1.2 = some e →
        Upgrade s u =
          (((s.upgradePodTemplateLabels (upgradeImages s u).2).1.1,
            some (.wrap ("Upgrading pod template labels: " ++ e.toString) e)),
           (s.upgradePodTemplateLabels (upgradeImages s u).2).2)) ∧
      ((s.upgradePodTemplateLabels (upgradeImages s u).2).1.2 = none →
        (s.upgradePodTemplateLabels (upgradeImages s u).2).1.1.Requeue = true →
        Upgrade s u =
          (((s.upgradePodTemplateLabels (upgradeImages s u).2).1.1, none),
           (s.upgradePodTemplateLabels (upgradeImages s u).2).2)) ∧
      ((s.upgradePodTemplateLabels (upgradeImages s u).2).1.2 = none →
        (s.upgradePodTemplateLabels (upgradeImages s u).2).1.1.Requeue = false →
        Upgrade s u =
          ((Result.empty, none), (s.upgradePodTemplateLabels (upgradeImages s u).2).2))) := by
  have himages : ∀ labels,
      upgradeImages { s with upgradePodTemplateLabels := labels } = upgradeImages s :=
    fun _ => rfl
  refine ⟨?_, ?_, ?_⟩
  · intro e he
    refine ⟨by simp [Upgrade, he], ?_⟩
    intro labels
    simp only [Upgrade, himages, he]
  · intro he hreq
    refine ⟨by simp [Upgrade, he, hreq], ?_⟩
    intro labels
    simp only [Upgrade, himages, he, hreq, if_true]
  · intro he hreq
    refine ⟨?_, ?_, ?_⟩
    · intro e hl
      simp [Upgrade, he, hreq, hl]
    · intro hl hreq2
      simp [Upgrade, he, hreq, hl, hreq2]
    · intro hl hreq2
      simp [Upgrade, he, hreq, hl, hreq2]

/-- Witness for C18 (amended): the image stream step of AMP fails; `Upgrade` returns the error
wrapped with the step name and the log holds that step only. -/
theorem upgrade_aborts_and_annotates_witness :
    Upgrade (sampleUpgradeSteps (Result.empty, some (.message "boom")) (Result.empty, none)) [] =
      ((Result.empty, some (.wrap "Upgrading images: boom" (.message "boom"))),
        ["upgradeAMPImageStreams"]) :=
  ((upgrade_aborts_and_annotates
      (sampleUpgradeSteps (Result.empty, some (.message "boom")) (Result.empty, none)) []).1
    (.message "boom") rfl).1

/-- C20, as stated, fails: `Upgrade` does not run the removal of the obsolete configuration
attributes. With every step succeeding, the log of `Upgrade` holds the image stream steps, the
deployment config steps and the label step, and none of the four deletion steps that
`deleteMessageBusConfigurations` runs. -/
theorem upgrade_order_counterexample :
    Upgrade (sampleUpgradeSteps (Result.empty, none) (Result.empty, none)) [] =
      ((Result.empty, none),
        ["upgradeAMPImageStreams", "upgradeBackendRedisImageStream",
         "upgradeSystemRedisImageStream", "upgradeSystemDatabaseImageStream",
         "upgradeAPIcastDeploymentConfigs", "upgradeBackendDeploymentConfigs",
         "upgradeZyncDeploymentConfigs", "upgradeMemcachedDeploymentConfig",
         "upgradeSystemDeploymentConfigs", "upgradeBackendRedisDeploymentConfig",
         "upgradeSystemRedisDeploymentConfig", "upgradeSystemDatabaseDeploymentConfig",
         "upgradePodTemplateLabels"]) ∧
    (deleteMessageBusConfigurations
        (sampleUpgradeSteps (Result.empty, none) (Result.empty, none)) []).2 =
      ["deleteSystemAppMessageBusConfigurations", "deleteSystemSidekiqMessageBusConfigurations",
       "deleteSystemSphinxMessageBusConfigurations",
       "deleteSystemRedisMessageBusSecretAttributes"] ∧
    "deleteSystemAppMessageBusConfigurations" ∉
      (Upgrade (sampleUpgradeSteps (Result.empty, none) (Result.empty, none)) []).2 := by
  refine ⟨by decide, by decide, by decide⟩

/-- C20, amended: `Upgrade` runs, in this order, the image stream step of AMP, the image
stream steps of backend Redis, system Redis and the system database (each when that component
is not external), the image change trigger steps of the deployment configs (APIcast, backend,
Zync, memcached, system, then backend Redis, system Redis and the system database when not
external) and the pod template label step. A step is run only when every earlier one returned
without error and without requeue: `Upgrade` leaves the world and returns the result of the
flat pipeline of these steps, its error being the error of the interrupting step, wrapped.
The removal of the obsolete configuration attributes is not part of `Upgrade`: whatever the
four deletion steps are, `Upgrade` is the same. -/
theorem upgrade_order {σ : Type} (s : UpgradeSteps σ) (u : σ) :
    ((Upgrade s u).2 = (sequentially (upgradePipeline s) u).2 ∧
      (Upgrade s u).1.1 = (sequentially (upgradePipeline s) u).1.1 ∧
      ((sequentially (upgradePipeline s) u).1.2 = none → (Upgrade s u).1.2 = none) ∧
      (∀ e, (sequentially (upgradePipeline s) u).1.2 = some e →
        ∃ msg, (Upgrade s u).1.2 = some (.wrap msg e))) ∧
    (∀ pre fn post v, upgradePipeline s = pre ++ fn :: post → PassesThrough pre u v →
      interrupts (fn v).1 = true →
      (Upgrade s u).2 = (fn v).2 ∧ (Upgrade s u).1.1 = (fn v).1.1) ∧
    (∀ v, PassesThrough (upgradePipeline s) u v → Upgrade s u = ((Result.empty, none), v)) ∧
    (∀ f1 f2 f3 f4,
      Upgrade { s with
                  deleteSystemAppMessageBusConfigurations := f1
                  deleteSystemSidekiqMessageBusConfigurations := f2
                  deleteSystemSphinxMessageBusConfigurations := f3
                  deleteSystemRedisMessageBusSecretAttributes := f4 } = Upgrade s) := by
  obtain ⟨h1, h2, h3, h4⟩ := upgrade_follows_pipeline σ s u
  refine ⟨⟨h1, h2, h3, h4⟩, ?_, ?_, fun _ _ _ _ => rfl⟩
  · intro pre fn post v hsplit hpass hint
    rw [h1, h2, hsplit, sequentially_append_interrupt pre post fn u v hpass hint]
    exact ⟨rfl, rfl⟩
  · intro v hpass
    have hflat := sequentially_passes (upgradePipeline s) u v hpass
    rw [hflat] at h1 h2 h3
    have h5 := h3 rfl
    rcases hU : Upgrade s u with ⟨⟨res, err⟩, w⟩
    rw [hU] at h1 h2 h5
    simp only at h1 h2 h5
    rw [h1, h2, h5]

/-- Witness for C20 (amended): the image stream step of AMP requests a requeue; no later step
is run and `Upgrade` returns the requeue. -/
theorem upgrade_order_witness :
    (Upgrade (sampleUpgradeSteps (⟨true, 0⟩, none) (Result.empty, none)) []).2 =
      ["upgradeAMPImageStreams"] ∧
    (Upgrade (sampleUpgradeSteps (⟨true, 0⟩, none) (Result.empty, none)) []).1.1 = ⟨true, 0⟩ :=
  (upgrade_order (sampleUpgradeSteps (⟨true, 0⟩, none) (Result.empty, none)) []).2.1
    [] (logStep "upgradeAMPImageStreams" (⟨true, 0⟩, none)) _ [] rfl (PassesThrough.nil [])
    rfl

/-! ### Redis reconciler -/

theorem redis_reconcile_eq (σ : Type) (s : RedisReconcilerSteps σ) (u : σ)
    (hredis : s.Redis u = none) :
    RedisReconciler.Reconcile s u = sequentially ((redisObjectSteps s).map objectStep) u := by
  simp only [RedisReconciler.Reconcile, hredis, redisObjectSteps]
  cases h1 : (s.ReconcileDeploymentConfig u).1 with
  | some e => simp [sequentially, objectStep, h1, Result.empty]
  | none =>
    cases h2 : (s.ReconcileService (s.ReconcileDeploymentConfig u).2).1 with
    | some e => simp [sequentially, objectStep, h1, h2, Result.empty]
    | none =>
      cases hcm : s.ConfigMap with
      | true =>
        cases h3 : (s.ReconcileConfigMap
            (s.ReconcileService (s.ReconcileDeploymentConfig u).2).2).1 with
        | some e => simp [sequentially, objectStep, h1, h2, h3, Result.empty]
        | none =>
          cases h4 : (s.ReconcilePersistentVolumeClaim (s.ReconcileConfigMap
              (s.ReconcileService (s.ReconcileDeploymentConfig u).2).2).2).1 with
          | some e => simp [sequentially, objectStep, h1, h2, h3, h4, Result.empty]
          | none =>
            cases h5 : (s.ReconcileImagestream (s.ReconcilePersistentVolumeClaim
                (s.ReconcileConfigMap
                  (s.ReconcileService (s.ReconcileDeploymentConfig u).2).2).2).2).1 with
            | some e => simp [sequentially, objectStep, h1, h2, h3, h4, h5, Result.empty]
            | none =>
              cases h6 : (s.ReconcileSecret (s.ReconcileImagestream
                  (s.ReconcilePersistentVolumeClaim (s.ReconcileConfigMap
                    (s.ReconcileService (s.ReconcileDeploymentConfig u).2).2).2).2).2).1 with
              | some e => simp [sequentially, objectStep, h1, h2, h3, h4, h5, h6, Result.empty]
              | none => simp [sequentially, objectStep, h1, h2, h3, h4, h5, h6, Result.empty]
      | false =>
        cases h4 : (s.ReconcilePersistentVolumeClaim
            (s.ReconcileService (s.ReconcileDeploymentConfig u).2).2).1 with
        | some e => simp [sequentially, objectStep, h1, h2, h4, Result.empty]
        | none =>
          cases h5 : (s.ReconcileImagestream (s.ReconcilePersistentVolumeClaim
              (s.ReconcileService (s.ReconcileDeploymentConfig u).2).2).2).1 with
          | some e => simp [sequentially, objectStep, h1, h2, h4, h5, Result.empty]
          | none =>
            cases h6 : (s.ReconcileSecret (s.ReconcileImagestream
                (s.ReconcilePersistentVolumeClaim
                  (s.ReconcileService (s.ReconcileDeploymentConfig u).2).2).2).2).1 with
            | some e => simp [sequentially, objectStep, h1, h2, h4, h5, h6, Result.empty]
            | none => simp [sequentially, objectStep, h1, h2, h4, h5, h6, Result.empty]

/-- C17, as stated, fails when the Redis component cannot be built: `Redis(...)` returns an
error, `Reconcile` returns it, yet no object failed (none was reconciled: the log is empty), so
"no object fails" does not give `(reconcile.Result{}, nil)`. -/
theorem redis_reconcile_options_counterexample :
    RedisReconciler.Reconcile (sampleRedisSteps true "") [] =
      ((Result.empty, some (.message "redis options: secret not found")), []) ∧
    (RedisReconciler.Reconcile (sampleRedisSteps true "") []).1 ≠ (Result.empty, none) := by
  refine ⟨by decide, by decide⟩

/-- C17, amended: when the Redis component cannot be built, `RedisReconciler.Reconcile` returns
that error with `reconcile.Result{}` and reconciles no object. Otherwise it reconciles its
objects in the fixed order DeploymentConfig, Service, ConfigMap (when the reconciler has one,
as those of both constructors do), PersistentVolumeClaim, ImageStream, Secret; at the first
object whose reconciliation returns an error it returns that error with `reconcile.Result{}`
and reconciles no later object, the world being as the earlier reconciliations and the failed
one left it; if no object fails it returns `(reconcile.Result{}, nil)`. -/
theorem redis_reconcile_short_circuit {σ : Type} (s : RedisReconcilerSteps σ) (u : σ) :
    (∀ err, s.Redis u = some err →
      RedisReconciler.Reconcile s u = ((Result.empty, some err), u)) ∧
    (s.ConfigMap = true →
      redisObjectSteps s =
        [s.ReconcileDeploymentConfig, s.ReconcileService, s.ReconcileConfigMap,
         s.ReconcilePersistentVolumeClaim, s.ReconcileImagestream, s.ReconcileSecret]) ∧
    (s.ConfigMap = false →
      redisObjectSteps s =
        [s.ReconcileDeploymentConfig, s.ReconcileService,
         s.ReconcilePersistentVolumeClaim, s.ReconcileImagestream, s.ReconcileSecret]) ∧
    (s.Redis u = none →
      (∀ pre f post v err, redisObjectSteps s = pre ++ f :: post →
        PassesThrough (pre.map objectStep) u v → (f v).1 = some err →
        RedisReconciler.Reconcile s u = ((Result.empty, some err), (f v).2)) ∧
      (∀ v, PassesThrough ((redisObjectSteps s).map objectStep) u v →
        RedisReconciler.Reconcile s u = ((Result.empty, none), v))) := by
  refine ⟨?_, ?_, ?_, ?_⟩
  · intro err herr
    simp [RedisReconciler.Reconcile, herr]
  · intro h
    simp [redisObjectSteps, h]
  · intro h
    simp [redisObjectSteps, h]
  · intro hredis
    rw [redis_reconcile_eq σ s u hredis]
    constructor
    · intro pre f post v err hsplit hpass herr
      rw [hsplit, List.map_append, List.map_cons,
        sequentially_append_interrupt _ _ (objectStep f) u v hpass
          (by simp [interrupts, objectStep, herr])]
      simp [objectStep, herr]
    · intro v hpass
      exact sequentially_passes _ u v hpass

/-- Witness for C17 (amended): the ConfigMap fails; `Reconcile` returns that error after the
DeploymentConfig, the Service and the ConfigMap, and reconciles nothing after it. -/
theorem redis_reconcile_short_circuit_witness :
    RedisReconciler.Reconcile (sampleRedisSteps false "ConfigMap") [] =
      ((Result.empty, some (.message "ConfigMap failed")),
        ["DeploymentConfig", "Service", "ConfigMap"]) :=
  ((redis_reconcile_short_circuit (sampleRedisSteps false "ConfigMap") []).2.2.2 rfl).1
    [(sampleRedisSteps false "ConfigMap").ReconcileDeploymentConfig,
     (sampleRedisSteps false "ConfigMap").ReconcileService]
    (sampleRedisSteps false "ConfigMap").ReconcileConfigMap
    [(sampleRedisSteps false "ConfigMap").ReconcilePersistentVolumeClaim,
     (sampleRedisSteps false "ConfigMap").ReconcileImagestream,
     (sampleRedisSteps false "ConfigMap").ReconcileSecret]
    ["DeploymentConfig", "Service"] (.message "ConfigMap failed") rfl
    (PassesThrough.cons _ _ _ _ rfl (PassesThrough.cons _ _ _ _ rfl (PassesThrough.nil _)))
    rfl

theorem findDeploymentTriggerLoop_found (ps : List DeploymentTriggerPolicy) (i : Nat) (r : Int)
    (hr : r ≠ -1) :
    findDeploymentTriggerLoop ps i r =
      if ps.countP isImageChangeTrigger = 0 then (r, none)
      else (-1,
        some (.message "found more than one imageChangeParams Deployment trigger policy")) := by
  induction ps generalizing i with
  | nil => simp [findDeploymentTriggerLoop, hr]
  | cons p ps ih =>
    by_cases hp : p.TriggerType = DeploymentTriggerOnImageChange
    · simp [findDeploymentTriggerLoop, hp, hr, isImageChangeTrigger, List.countP_cons]
    · have hq : isImageChangeTrigger p = false := by simp [isImageChangeTrigger, hp]
      rw [findDeploymentTriggerLoop, if_neg hp, ih (i + 1), List.countP_cons_of_neg]
      simp [hq]

theorem findDeploymentTriggerLoop_start (ps : List DeploymentTriggerPolicy) (i : Nat) :
    findDeploymentTriggerLoop ps i (-1) =
      if ps.countP isImageChangeTrigger = 0 then
        (-1, some (.message "no imageChangeParams deployment trigger policy found"))
      else if ps.countP isImageChangeTrigger = 1 then
        (((i + ps.findIdx isImageChangeTrigger : Nat) : Int), none)
      else (-1,
        some (.message "found more than one imageChangeParams Deployment trigger policy")) := by
  induction ps generalizing i with
  | nil => simp [findDeploymentTriggerLoop]
  | cons p ps ih =>
    by_cases hp : p.TriggerType = DeploymentTriggerOnImageChange
    · have hq : isImageChangeTrigger p = true := by simp [isImageChangeTrigger, hp]
      have hi : (i : Int) ≠ -1 := by omega
      rw [findDeploymentTriggerLoop, if_pos hp, if_neg (by simp),
        findDeploymentTriggerLoop_found ps (i + 1) i hi, List.countP_cons_of_pos _ ps hq,
        List.findIdx_cons, hq]
      by_cases hc : ps.countP isImageChangeTrigger = 0
      · simp [hc]
      · simp [hc]
    · have hq : isImageChangeTrigger p = false := by simp [isImageChangeTrigger, hp]
      rw [findDeploymentTriggerLoop, if_neg hp, ih (i + 1), List.countP_cons_of_neg,
        List.findIdx_cons, hq]
      · simp only [cond_false]
        have : i + 1 + List.findIdx isImageChangeTrigger ps
            = i + (List.findIdx isImageChangeTrigger ps + 1) := by omega
        rw [this]
      · simp [hq]

theorem findDeploymentTrigger_eq (ps : List DeploymentTriggerPolicy) :
    findDeploymentTriggerOnImageChange ps =
      if ps.countP isImageChangeTrigger = 0 then
        ((-1 : Int), some (.message "no imageChangeParams deployment trigger policy found"))
      else if ps.countP isImageChangeTrigger = 1 then
        ((ps.findIdx isImageChangeTrigger : Nat), none)
      else (-1,
        some (.message "found more than one imageChangeParams Deployment trigger policy")) := by
  unfold findDeploymentTriggerOnImageChange
  rw [findDeploymentTriggerLoop_start]
  simp

theorem findDeploymentTrigger_ok (ps : List DeploymentTriggerPolicy) (i : Int)
    (h : findDeploymentTriggerOnImageChange ps = (i, none)) :
    ps.countP isImageChangeTrigger = 1 ∧ i = (ps.findIdx isImageChangeTrigger : Nat) := by
  rw [findDeploymentTrigger_eq] at h
  split_ifs at h with h0 h1
  · simp at h
  · exact ⟨h1, by simpa using (congrArg Prod.fst h).symm⟩
  · simp at h

theorem countP_one_unique (ps : List DeploymentTriggerPolicy)
    (h : ps.countP isImageChangeTrigger = 1) :
    ps.findIdx isImageChangeTrigger < ps.length ∧
    ∀ (j : Nat) (p : DeploymentTriggerPolicy), ps[j]? = some p →
      (isImageChangeTrigger p = true ↔ j = ps.findIdx isImageChangeTrigger) := by
  induction ps with
  | nil => simp at h
  | cons q qs ih =>
    by_cases hq : isImageChangeTrigger q = true
    · rw [List.countP_cons_of_pos _ qs hq] at h
      have h0 : qs.countP isImageChangeTrigger = 0 := by omega
      rw [List.countP_eq_zero] at h0
      refine ⟨by simp [List.findIdx_cons, hq], ?_⟩
      intro j p hj
      rw [List.findIdx_cons, hq]
      cases j with
      | zero =>
        simp at hj
        subst hj
        simp [hq]
      | succ j =>
        simp only [List.getElem?_cons_succ] at hj
        have hmem : p ∈ qs := List.getElem?_mem hj
        have := h0 p hmem
        simp [this]
    · rw [List.countP_cons_of_neg _ qs hq] at h
      obtain ⟨hlt, huniq⟩ := ih h
      have hq2 : isImageChangeTrigger q = false := by simpa using hq
      refine ⟨by simp [List.findIdx_cons, hq2, hlt], ?_⟩
      intro j p hj
      rw [List.findIdx_cons, hq2]
      cases j with
      | zero =>
        simp at hj
        subst hj
        simp [hq2]
      | succ j =>
        simp only [List.getElem?_cons_succ] at hj
        simpa using huniq j p hj

theorem triggerAt_found (ps : List DeploymentTriggerPolicy) (i : Int)
    (h : findDeploymentTriggerOnImageChange ps = (i, none)) :
    ∃ p, triggerAt ps i = some p ∧ isImageChangeTrigger p = true := by
  obtain ⟨h1, hi⟩ := findDeploymentTrigger_ok ps i h
  obtain ⟨hlt, huniq⟩ := countP_one_unique ps h1
  subst hi
  refine ⟨ps[ps.findIdx isImageChangeTrigger], ?_, ?_⟩
  · simp [triggerAt, List.getElem?_eq_getElem hlt]
  · exact (huniq _ _ (List.getElem?_eq_getElem hlt)).2 rfl

/-- C22: `findDeploymentTriggerOnImageChange` returns `(i, nil)` if and only if exactly one
policy of the list has type ImageChange; then `i` is a valid index of the list and a policy of
the list has type ImageChange exactly when it stands at index `i`. When the number of such
policies is not one it returns -1 and a non-nil error. Hence
`ensureDeploymentConfigImageChangeTrigger` never panics with an index out of range. -/
theorem findDeploymentTrigger_exactly_one (ps : List DeploymentTriggerPolicy) :
    ((∃ i, findDeploymentTriggerOnImageChange ps = (i, none)) ↔
        ps.countP isImageChangeTrigger = 1) ∧
    (∀ i, findDeploymentTriggerOnImageChange ps = (i, none) →
        0 ≤ i ∧ i.toNat < ps.length ∧
        ∀ (j : Nat) (p : DeploymentTriggerPolicy), ps[j]? = some p →
          (p.TriggerType = DeploymentTriggerOnImageChange ↔ j = i.toNat)) ∧
    (ps.countP isImageChangeTrigger ≠ 1 →
        (findDeploymentTriggerOnImageChange ps).1 = -1 ∧
        (findDeploymentTriggerOnImageChange ps).2 ≠ none) ∧
    (∀ (desired existing e : DeploymentConfig) (i : Int) (n : Nat),
        ensureDeploymentConfigImageChangeTrigger desired existing
          ≠ .panicked (.indexOutOfRange i n) e) := by
  refine ⟨⟨?_, ?_⟩, ?_, ?_, ?_⟩
  · rintro ⟨i, hi⟩
    exact (findDeploymentTrigger_ok ps i hi).1
  · intro h1
    refine ⟨(ps.findIdx isImageChangeTrigger : Nat), ?_⟩
    rw [findDeploymentTrigger_eq]
    simp [h1]
  · intro i hi
    obtain ⟨h1, hi⟩ := findDeploymentTrigger_ok ps i hi
    obtain ⟨hlt, huniq⟩ := countP_one_unique ps h1
    subst hi
    refine ⟨by omega, by simpa using hlt, ?_⟩
    intro j p hj
    have := huniq j p hj
    simpa [isImageChangeTrigger] using this
  · intro hne
    rw [findDeploymentTrigger_eq]
    by_cases h0 : ps.countP isImageChangeTrigger = 0
    · simp [h0]
    · simp [h0, hne]
  · intro desired existing e i n
    unfold ensureDeploymentConfigImageChangeTrigger
    split
    · simp
    · rename_i desiredPos hd
      split
      · simp
      · rename_i existingPos he
        obtain ⟨p, hp, -⟩ := triggerAt_found _ _ hd
        obtain ⟨q, hq, -⟩ := triggerAt_found _ _ he
        rw [hp, hq]
        dsimp only
        split
        · simp
        · split
          · simp
          · split <;> simp

/-- C22 on concrete lists: one image change trigger after a config change trigger is found at
index 1; with none, or with two, the lookup returns -1 and an error. -/
theorem findDeploymentTrigger_exactly_one_witness :
    findDeploymentTriggerOnImageChange (triggerDC "2.9").Spec.Triggers = (1, none) ∧
    (findDeploymentTriggerOnImageChange [⟨"ConfigChange", none⟩]).1 = -1 ∧
    (findDeploymentTriggerOnImageChange
      ((triggerDC "2.9").Spec.Triggers ++ (triggerDC "2.8").Spec.Triggers)).1 = -1 ∧
    ((∃ i, findDeploymentTriggerOnImageChange (triggerDC "2.9").Spec.Triggers = (i, none)) ↔
      (triggerDC "2.9").Spec.Triggers.countP isImageChangeTrigger = 1) :=
  ⟨by decide, by decide, by decide,
    (findDeploymentTrigger_exactly_one (triggerDC "2.9").Spec.Triggers).1⟩

theorem findDeploymentTriggerLoop_set (ps : List DeploymentTriggerPolicy) (j : Nat)
    (p q : DeploymentTriggerPolicy) (i : Nat) (r : Int) (hj : ps[j]? = some p)
    (hq : q.TriggerType = p.TriggerType) :
    findDeploymentTriggerLoop (ps.set j q) i r = findDeploymentTriggerLoop ps i r := by
  induction ps generalizing j i r with
  | nil => simp
  | cons a as ih =>
    cases j with
    | zero =>
      simp at hj
      subst hj
      simp [findDeploymentTriggerLoop, hq]
    | succ j =>
      simp only [List.getElem?_cons_succ] at hj
      simp only [List.set_cons_succ, findDeploymentTriggerLoop, ih j _ _ hj]

theorem set_same {α : Type} (ps : List α) (j : Nat) (p : α) (h : ps[j]? = some p) :
    ps.set j p = ps := by
  induction ps generalizing j with
  | nil => simp
  | cons a as ih =>
    cases j with
    | zero =>
      simp at h
      simp [h]
    | succ j =>
      simp only [List.getElem?_cons_succ] at h
      simp [ih j h]

theorem findDeploymentTrigger_unique (ps : List DeploymentTriggerPolicy) (j : Nat)
    (p : DeploymentTriggerPolicy) (h1 : ps.countP isImageChangeTrigger = 1)
    (hj : ps[j]? = some p) (hp : p.TriggerType = DeploymentTriggerOnImageChange) :
    findDeploymentTriggerOnImageChange ps = ((j : Int), none) ∧ triggerAt ps j = some p := by
  obtain ⟨-, huniq⟩ := countP_one_unique ps h1
  have hidx : j = ps.findIdx isImageChangeTrigger :=
    (huniq j p hj).1 (by simp [isImageChangeTrigger, hp])
  refine ⟨?_, ?_⟩
  · rw [findDeploymentTrigger_eq, hidx]
    simp [h1]
  · simp [triggerAt, hj]

theorem ensureDeploymentConfigImageChangeTrigger_eq (desired existing : DeploymentConfig)
    (i j : Int) (dt et : DeploymentTriggerPolicy) (dp ep : DeploymentTriggerImageChangeParams)
    (hfd : findDeploymentTriggerOnImageChange desired.Spec.Triggers = (i, none))
    (hfe : findDeploymentTriggerOnImageChange existing.Spec.Triggers = (j, none))
    (hdt : triggerAt desired.Spec.Triggers i = some dt)
    (het : triggerAt existing.Spec.Triggers j = some et)
    (hdp : dt.ImageChangeParams = some dp) (hep : et.ImageChangeParams = some ep) :
    ensureDeploymentConfigImageChangeTrigger desired existing =
      if ¬ (ep.From.Name = dp.From.Name) then
        .returned true none
          { existing with
              Spec.Triggers :=
                existing.Spec.Triggers.set j.toNat
                  { et with
                      ImageChangeParams := some { ep with From.Name := dp.From.Name } } }
      else .returned false none existing := by
  unfold ensureDeploymentConfigImageChangeTrigger
  simp only [hfd, hfe, hdt, het, hdp, hep]

/-- C23: when desired and existing each have exactly one image change trigger, at the indices
`i` and `j`, with parameters `dp` and `ep`, `ensureDeploymentConfigImageChangeTrigger` returns
`(changed, nil)` where `changed` holds exactly when the two `From.Name` differ, and leaves
existing with the `From.Name` of its trigger equal to the one of desired and nothing else
changed; a second call on that object returns `(false, nil)` and leaves it as it is; and
`upgradeDeploymentConfigImageChangeTrigger`, reading existing from the cluster, passes the object
to `UpdateResource` and asks for a requeue exactly when `changed` holds. -/
theorem image_change_trigger_idempotent (desired existing : DeploymentConfig) (i j : Nat)
    (dt et : DeploymentTriggerPolicy) (dp ep : DeploymentTriggerImageChangeParams)
    (hd : desired.Spec.Triggers.countP isImageChangeTrigger = 1)
    (he : existing.Spec.Triggers.countP isImageChangeTrigger = 1)
    (hdt : desired.Spec.Triggers[i]? = some dt)
    (hdtype : dt.TriggerType = DeploymentTriggerOnImageChange)
    (hdp : dt.ImageChangeParams = some dp)
    (het : existing.Spec.Triggers[j]? = some et)
    (hetype : et.TriggerType = DeploymentTriggerOnImageChange)
    (hep : et.ImageChangeParams = some ep) :
    ∃ (changed : Bool) (existing1 : DeploymentConfig),
      (changed = true ↔ ep.From.Name ≠ dp.From.Name) ∧
      existing1 =
        { existing with
            Spec.Triggers :=
              existing.Spec.Triggers.set j
                { et with
                    ImageChangeParams :=
                      some { ep with From := { ep.From with Name := dp.From.Name } } } } ∧
      ensureDeploymentConfigImageChangeTrigger desired existing
        = .returned changed none existing1 ∧
      ensureDeploymentConfigImageChangeTrigger desired existing1
        = .returned false none existing1 ∧
      ∀ (get : NamespacedName → Except Error DeploymentConfig)
        (UpdateResource : DeploymentConfig → Option Error) (ns : String),
        get { Name := desired.Name, Namespace := ns } = .ok existing →
        upgradeDeploymentConfigImageChangeTrigger get UpdateResource ns desired =
          { returned :=
              some ({ Requeue := changed, RequeueAfter := 0 },
                if changed then UpdateResource existing1 else none),
            updateCalls := if changed then [existing1] else [] } := by
  obtain ⟨hfd, htd⟩ := findDeploymentTrigger_unique _ i dt hd hdt hdtype
  obtain ⟨hfe, hte⟩ := findDeploymentTrigger_unique _ j et he het hetype
  have hcall := ensureDeploymentConfigImageChangeTrigger_eq desired existing i j dt et dp ep
    hfd hfe htd hte hdp hep
  have hjlt : j < existing.Spec.Triggers.length := by
    rcases List.getElem?_eq_some.1 het with ⟨h, -⟩
    exact h
  refine ⟨decide (ep.From.Name ≠ dp.From.Name), _, by simp, rfl, ?_, ?_, ?_⟩
  · rw [hcall]
    by_cases hn : ep.From.Name = dp.From.Name
    · have hel : ({ et with
          ImageChangeParams :=
            some { ep with From := { ep.From with Name := dp.From.Name } } } :
          DeploymentTriggerPolicy) = et := by
        rw [← hn]
        show (⟨et.TriggerType, some ep⟩ : DeploymentTriggerPolicy) = et
        rw [← hep]
      rw [hel, set_same _ _ _ het, if_neg (not_not.2 hn)]
      simp [hn]
    · simp [hn]
  · have hfe1 : findDeploymentTriggerOnImageChange
        (existing.Spec.Triggers.set j
          { et with
              ImageChangeParams :=
                some { ep with From := { ep.From with Name := dp.From.Name } } })
        = ((j : Int), none) := by
      unfold findDeploymentTriggerOnImageChange at hfe ⊢
      rw [findDeploymentTriggerLoop_set existing.Spec.Triggers j et
        { et with
            ImageChangeParams :=
              some { ep with From := { ep.From with Name := dp.From.Name } } } 0 (-1) het rfl]
      exact hfe
    have hte1 : triggerAt
        (existing.Spec.Triggers.set j
          { et with
              ImageChangeParams :=
                some { ep with From := { ep.From with Name := dp.From.Name } } }) j
        = some { et with
              ImageChangeParams :=
                some { ep with From := { ep.From with Name := dp.From.Name } } } := by
      simp [triggerAt, List.getElem?_set_self hjlt]
    rw [ensureDeploymentConfigImageChangeTrigger_eq desired _ i j dt _ dp _ hfd hfe1 htd hte1
      hdp rfl]
    simp
  · intro get UpdateResource ns hget
    unfold upgradeDeploymentConfigImageChangeTrigger
    rw [hget]
    dsimp only
    rw [hcall]
    by_cases hn : ep.From.Name = dp.From.Name
    · simp [hn, Result.empty]
    · simp [hn]

/-- C23 on a concrete pair: existing follows the image stream tag 2.8 and desired the tag 2.9;
the call reports a change and leaves existing equal to desired, and a second call reports
none. -/
theorem image_change_trigger_idempotent_witness :
    ensureDeploymentConfigImageChangeTrigger (triggerDC "2.9") (triggerDC "2.8")
      = .returned true none (triggerDC "2.9") ∧
    ensureDeploymentConfigImageChangeTrigger (triggerDC "2.9") (triggerDC "2.9")
      = .returned false none (triggerDC "2.9") ∧
    ∃ (changed : Bool) (existing1 : DeploymentConfig),
      (changed = true ↔ "2.8" ≠ "2.9") ∧
      existing1 = triggerDC "2.9" ∧
      ensureDeploymentConfigImageChangeTrigger (triggerDC "2.9") (triggerDC "2.8")
        = .returned changed none existing1 ∧
      ensureDeploymentConfigImageChangeTrigger (triggerDC "2.9") existing1
        = .returned false none existing1 :=
  ⟨by decide, by decide,
    (image_change_trigger_idempotent (triggerDC "2.9") (triggerDC "2.8") 1 1
      ⟨"ImageChange", some ⟨true, ["apicast-staging"], ⟨"ImageStreamTag", "", "2.9"⟩⟩⟩
      ⟨"ImageChange", some ⟨true, ["apicast-staging"], ⟨"ImageStreamTag", "", "2.8"⟩⟩⟩
      ⟨true, ["apicast-staging"], ⟨"ImageStreamTag", "", "2.9"⟩⟩
      ⟨true, ["apicast-staging"], ⟨"ImageStreamTag", "", "2.8"⟩⟩
      (by decide) (by decide) rfl rfl rfl rfl rfl rfl).imp
      (fun _ h => h.imp (fun _ h => ⟨h.1, h.2.1, h.2.2.1, h.2.2.2.1⟩))⟩

theorem lookup_filter_key (m : List (String × String)) (p : String → Bool) (k : String) :
    (m.filter fun e => p e.1).lookup k = if p k = true then m.lookup k else none := by
  induction m with
  | nil => simp
  | cons e m ih =>
    obtain ⟨a, b⟩ := e
    by_cases hk : k = a
    · subst hk
      by_cases hpa : p k = true
      · rw [List.filter_cons_of_pos (by simpa using hpa)]
        simp [hpa]
      · rw [List.filter_cons_of_neg (by simpa using hpa), ih]
        simp [hpa]
    · have hbeq : (k == a) = false := by simpa using hk
      by_cases hpa : p a = true
      · rw [List.filter_cons_of_pos (by simpa using hpa)]
        simp only [List.lookup_cons, hbeq, ih]
      · rw [List.filter_cons_of_neg (by simpa using hpa), ih]
        simp only [List.lookup_cons, hbeq]

theorem lookup_mapStore (m : List (String × String)) (k v k' : String) :
    (mapStore m k v).lookup k' = if k' = k then some v else m.lookup k' := by
  unfold mapStore
  by_cases hk : k' = k
  · subst hk
    simp
  · have hbeq : (k' == k) = false := by simpa using hk
    rw [List.lookup_cons, hbeq]
    simp only [if_neg hk]
    rw [lookup_filter_key m (fun a => decide (a ≠ k)) k']
    simp [hk]

theorem lookup_none_iff (m : List (String × String)) (k : String) :
    m.lookup k = none ↔ ∀ e ∈ m, e.1 ≠ k := by
  induction m with
  | nil => simp
  | cons e m ih =>
    obtain ⟨a, b⟩ := e
    by_cases hk : k = a
    · subst hk
      simp
    · have hbeq : (k == a) = false := by simpa using hk
      simp only [List.lookup_cons, hbeq, ih, List.mem_cons, forall_eq_or_imp]
      constructor
      · intro h
        exact ⟨fun h' => hk h'.symm, h⟩
      · intro h
        exact h.2

theorem lookup_of_mem_nodup (m : List (String × String)) (a b : String)
    (hnodup : (m.map Prod.fst).Nodup) (hmem : (a, b) ∈ m) : m.lookup a = some b := by
  induction m with
  | nil => simp at hmem
  | cons e m ih =>
    obtain ⟨c, d⟩ := e
    simp only [List.map_cons, List.nodup_cons] at hnodup
    rcases List.mem_cons.1 hmem with h | h
    · cases h
      simp
    · have hne : a ≠ c := by
        intro hac
        subst hac
        exact hnodup.1 (List.mem_map.2 ⟨(a, b), h, rfl⟩)
      have hbeq : (a == c) = false := by simpa using hne
      rw [List.lookup_cons, hbeq]
      exact ih hnodup.2 h

theorem deleteOldLabelsLoop_labels (keys : List String) (updated : Bool)
    (labels : List (String × String)) :
    (deleteOldLabelsLoop keys updated labels).2 =
      labels.filter fun e => decide (e.1 ∉ keys) := by
  induction keys generalizing updated labels with
  | nil => simp [deleteOldLabelsLoop]
  | cons key keys ih =>
    unfold deleteOldLabelsLoop
    split
    · rw [ih, mapDelete, List.filter_filter]
      apply List.filter_congr
      intro e _
      by_cases h1 : e.1 = key <;> by_cases h2 : e.1 ∈ keys <;> simp [h1, h2]
    · rename_i hnone
      have hnone2 : labels.lookup key = none := by
        cases h : labels.lookup key with
        | none => rfl
        | some v => simp [h] at hnone
      rw [ih]
      apply List.filter_congr
      intro e he
      have hne : e.1 ≠ key := (lookup_none_iff labels key).1 hnone2 e he
      simp [hne]

theorem deleteOldLabelsLoop_clean (keys : List String) (updated : Bool)
    (labels : List (String × String)) (h : ∀ key ∈ keys, labels.lookup key = none) :
    deleteOldLabelsLoop keys updated labels = (updated, labels) := by
  induction keys generalizing updated with
  | nil => rfl
  | cons key keys ih =>
    unfold deleteOldLabelsLoop
    rw [h key (List.mem_cons_self _ _)]
    simp only [Option.isSome_none, Bool.false_eq_true, if_false]
    exact ih updated fun k hk => h k (List.mem_cons_of_mem _ hk)

theorem mergeMapStringString_clean (desired existing : List (String × String)) (modified : Bool)
    (h : ∀ e ∈ desired, existing.lookup e.1 = some e.2) :
    MergeMapStringString modified existing desired = (modified, existing) := by
  induction desired with
  | nil => rfl
  | cons e desired ih =>
    obtain ⟨k, v⟩ := e
    unfold MergeMapStringString
    rw [if_pos (h (k, v) (List.mem_cons_self _ _))]
    exact ih fun e he => h e (List.mem_cons_of_mem _ he)

theorem mergeMapStringString_lookup (desired : List (String × String))
    (hnodup : (desired.map Prod.fst).Nodup) (modified : Bool)
    (existing : List (String × String)) (k : String) :
    (∀ v, desired.lookup k = some v →
      (MergeMapStringString modified existing desired).2.lookup k = some v) ∧
    (desired.lookup k = none →
      (MergeMapStringString modified existing desired).2.lookup k = existing.lookup k) := by
  induction desired generalizing modified existing with
  | nil => simp [MergeMapStringString]
  | cons e desired ih =>
    obtain ⟨a, b⟩ := e
    simp only [List.map_cons, List.nodup_cons] at hnodup
    have hrest : desired.lookup a = none := by
      rw [lookup_none_iff]
      intro e he hea
      exact hnodup.1 (List.mem_map.2 ⟨e, he, hea⟩)
    unfold MergeMapStringString
    by_cases hk : k = a
    · subst hk
      simp only [List.lookup_cons_self, Option.some.injEq, forall_eq', reduceCtorEq,
        false_implies, and_true]
      split
      · rename_i hex
        rw [(ih hnodup.2 modified existing).2 hrest, hex]
      · rw [(ih hnodup.2 true (mapStore existing k b)).2 hrest, lookup_mapStore]
        simp
    · have hbeq : (k == a) = false := by simpa using hk
      simp only [List.lookup_cons, hbeq]
      split
      · exact ih hnodup.2 modified existing
      · have h := ih hnodup.2 true (mapStore existing a b)
        rw [lookup_mapStore, if_neg hk] at h
        exact h

theorem mergePodTemplateLabels_labels (desired existing : DeploymentConfig) :
    (mergePodTemplateLabels desired existing).2 =
      { existing with
          Spec.Template.Labels :=
            (MergeMapStringString false existing.Spec.Template.Labels
              desired.Spec.Template.Labels).2.filter fun e => decide (e.1 ∉ oldLabelKeys) } := by
  simp only [mergePodTemplateLabels, deleteOldLabelsLoop_labels]

theorem mergePodTemplateLabels_lookup (desired existing : DeploymentConfig)
    (hnodup : (desired.Spec.Template.Labels.map Prod.fst).Nodup) (k : String) :
    (∀ v, desired.Spec.Template.Labels.lookup k = some v → k ∉ oldLabelKeys →
      (mergePodTemplateLabels desired existing).2.Spec.Template.Labels.lookup k = some v) ∧
    (k ∈ oldLabelKeys →
      (mergePodTemplateLabels desired existing).2.Spec.Template.Labels.lookup k = none) ∧
    (k ∉ oldLabelKeys → desired.Spec.Template.Labels.lookup k = none →
      (mergePodTemplateLabels desired existing).2.Spec.Template.Labels.lookup k =
        existing.Spec.Template.Labels.lookup k) := by
  rw [mergePodTemplateLabels_labels]
  have hl := lookup_filter_key
    (MergeMapStringString false existing.Spec.Template.Labels desired.Spec.Template.Labels).2
    (fun a => decide (a ∉ oldLabelKeys)) k
  have hm := mergeMapStringString_lookup desired.Spec.Template.Labels hnodup false
    existing.Spec.Template.Labels k
  refine ⟨?_, ?_, ?_⟩
  · intro v hv hk
    show List.lookup k (List.filter _ _) = some v
    rw [hl]
    simp [hk, hm.1 v hv]
  · intro hk
    show List.lookup k (List.filter _ _) = none
    rw [hl]
    simp [hk]
  · intro hk hv
    show List.lookup k (List.filter _ _) = _
    rw [hl]
    simp [hk, hm.2 hv]

theorem mergePodTemplateLabels_idempotent (desired existing : DeploymentConfig)
    (hd : LabelsMigrated desired) :
    mergePodTemplateLabels desired (mergePodTemplateLabels desired existing).2 =
      (false, (mergePodTemplateLabels desired existing).2) := by
  obtain ⟨hnodup, hold⟩ := hd
  have hmerge : ∀ e ∈ desired.Spec.Template.Labels,
      (mergePodTemplateLabels desired existing).2.Spec.Template.Labels.lookup e.1 = some e.2 := by
    intro e he
    have hlook := lookup_of_mem_nodup _ e.1 e.2 hnodup he
    refine (mergePodTemplateLabels_lookup desired existing hnodup e.1).1 e.2 hlook ?_
    intro hmem
    rw [hold e.1 hmem] at hlook
    exact Option.noConfusion hlook
  have hclean : ∀ key ∈ oldLabelKeys,
      (mergePodTemplateLabels desired existing).2.Spec.Template.Labels.lookup key = none :=
    fun key hkey => (mergePodTemplateLabels_lookup desired existing hnodup key).2.1 hkey
  generalize (mergePodTemplateLabels desired existing).2 = after at hmerge hclean
  unfold mergePodTemplateLabels
  simp only [mergeMapStringString_clean _ _ _ hmerge, deleteOldLabelsLoop_clean _ _ _ hclean]

theorem lookup_some_mem (m : List (String × String)) (k v : String)
    (h : m.lookup k = some v) : (k, v) ∈ m := by
  induction m with
  | nil => simp at h
  | cons e m ih =>
    obtain ⟨a, b⟩ := e
    by_cases hk : k = a
    · subst hk
      simp only [List.lookup_cons_self, Option.some.injEq] at h
      subst h
      exact List.mem_cons_self _ _
    · have hbeq : (k == a) = false := by simpa using hk
      rw [List.lookup_cons, hbeq] at h
      exact List.mem_cons_of_mem _ (ih h)

theorem mergeMapStringString_flag (desired existing : List (String × String))
    (modified : Bool) :
    (MergeMapStringString modified existing desired).1 =
      (modified || desired.any fun e => decide (existing.lookup e.1 ≠ some e.2)) := by
  have htrue : ∀ (d m : List (String × String)), (MergeMapStringString true m d).1 = true := by
    intro d
    induction d with
    | nil => intro m; rfl
    | cons e d ih =>
      intro m
      obtain ⟨k, v⟩ := e
      unfold MergeMapStringString
      split
      · exact ih m
      · exact ih _
  induction desired with
  | nil => simp [MergeMapStringString]
  | cons e desired ih =>
    obtain ⟨k, v⟩ := e
    unfold MergeMapStringString
    by_cases hk : existing.lookup k = some v
    · rw [if_pos hk, ih]
      simp [hk]
    · rw [if_neg hk, htrue]
      simp [hk]

theorem deleteOldLabelsLoop_flag (keys : List String) (updated : Bool)
    (labels : List (String × String)) :
    (deleteOldLabelsLoop keys updated labels).1 =
      (updated || keys.any fun key => (labels.lookup key).isSome) := by
  have htrue : ∀ (ks : List String) (l : List (String × String)),
      (deleteOldLabelsLoop ks true l).1 = true := by
    intro ks
    induction ks with
    | nil => intro l; rfl
    | cons key ks ih =>
      intro l
      unfold deleteOldLabelsLoop
      split
      · exact ih _
      · exact ih l
  induction keys generalizing updated with
  | nil => simp [deleteOldLabelsLoop]
  | cons key keys ih =>
    unfold deleteOldLabelsLoop
    by_cases hk : (labels.lookup key).isSome = true
    · rw [if_pos hk, htrue]
      simp [hk]
    · rw [if_neg hk, ih]
      simp [hk]

theorem mergePodTemplateLabels_flag (desired existing : DeploymentConfig)
    (hnodup : (desired.Spec.Template.Labels.map Prod.fst).Nodup) :
    (mergePodTemplateLabels desired existing).1 = true ↔
      (∃ k v, desired.Spec.Template.Labels.lookup k = some v ∧
        existing.Spec.Template.Labels.lookup k ≠ some v) ∨
      (∃ key ∈ oldLabelKeys, existing.Spec.Template.Labels.lookup key ≠ none) := by
  have hm := mergeMapStringString_lookup desired.Spec.Template.Labels hnodup false
    existing.Spec.Template.Labels
  simp only [mergePodTemplateLabels, deleteOldLabelsLoop_flag, mergeMapStringString_flag,
    Bool.false_or, Bool.or_eq_true, List.any_eq_true, decide_eq_true_eq]
  constructor
  · rintro (⟨e, he, hne⟩ | ⟨key, hkey, hsome⟩)
    · exact Or.inl ⟨e.1, e.2, lookup_of_mem_nodup _ e.1 e.2 hnodup he, hne⟩
    · cases hd : desired.Spec.Template.Labels.lookup key with
      | none =>
        rw [(hm key).2 hd] at hsome
        right
        refine ⟨key, hkey, ?_⟩
        intro hnone
        rw [hnone] at hsome
        exact Bool.noConfusion hsome
      | some v =>
        by_cases hex : existing.Spec.Template.Labels.lookup key = some v
        · right
          refine ⟨key, hkey, ?_⟩
          rw [hex]
          exact Option.noConfusion
        · exact Or.inl ⟨key, v, hd, hex⟩
  · rintro (⟨k, v, hd, hne⟩ | ⟨key, hkey, hne⟩)
    · exact Or.inl ⟨(k, v), lookup_some_mem _ k v hd, hne⟩
    · right
      refine ⟨key, hkey, ?_⟩
      cases hd : desired.Spec.Template.Labels.lookup key with
      | none =>
        rw [(hm key).2 hd]
        cases hex : existing.Spec.Template.Labels.lookup key with
        | none => exact absurd hex hne
        | some w => rfl
      | some v =>
        rw [(hm key).1 v hd]
        rfl

theorem mergePodTemplateLabels_unchanged (desired existing : DeploymentConfig)
    (hnodup : (desired.Spec.Template.Labels.map Prod.fst).Nodup)
    (hflag : (mergePodTemplateLabels desired existing).1 = false) :
    (mergePodTemplateLabels desired existing).2 = existing := by
  have hiff := mergePodTemplateLabels_flag desired existing hnodup
  have hno : ¬ ((∃ k v, desired.Spec.Template.Labels.lookup k = some v ∧
        existing.Spec.Template.Labels.lookup k ≠ some v) ∨
      (∃ key ∈ oldLabelKeys, existing.Spec.Template.Labels.lookup key ≠ none)) := by
    intro h
    rw [hiff.2 h] at hflag
    exact Bool.noConfusion hflag
  have hmerge : ∀ e ∈ desired.Spec.Template.Labels,
      existing.Spec.Template.Labels.lookup e.1 = some e.2 := by
    intro e he
    by_contra hne
    exact hno (Or.inl ⟨e.1, e.2, lookup_of_mem_nodup _ e.1 e.2 hnodup he, hne⟩)
  have hclean : ∀ key ∈ oldLabelKeys, existing.Spec.Template.Labels.lookup key = none := by
    intro key hkey
    by_contra hne
    exact hno (Or.inr ⟨key, hkey, hne⟩)
  unfold mergePodTemplateLabels
  simp only [mergeMapStringString_clean _ _ _ hmerge, deleteOldLabelsLoop_clean _ _ _ hclean]

theorem clusterClient_readsItsWrites : ReadsItsWrites clusterClient := by
  intro world world1 key existing updated hget hupd hname hns
  have hfound : world.objects.find? (hasKey key) = some existing := by
    simp only [clusterClient] at hget
    split at hget
    · rename_i o ho
      rw [ho]
      exact congrArg some (Except.ok.inj hget)
    · exact Except.noConfusion hget
  have hkey : hasKey key existing = true := List.find?_some hfound
  have hkeyeq : key = ⟨updated.Namespace, updated.Name⟩ := by
    simp only [hasKey, decide_eq_true_eq] at hkey
    cases key
    simp only [NamespacedName.mk.injEq]
    exact ⟨by rw [hns]; exact hkey.1.symm, by rw [hname]; exact hkey.2.symm⟩
  have hupdkey : hasKey key updated = true := by
    rw [hkeyeq]
    simp [hasKey]
  have hw : world1 =
      { objects := world.objects.map fun o =>
          if hasKey ⟨updated.Namespace, updated.Name⟩ o then updated else o
        updateCalls := world.updateCalls ++ [updated] } := by
    simp only [clusterClient] at hupd
    exact (congrArg Prod.snd hupd).symm
  subst hw
  rw [← hkeyeq]
  constructor
  · have : (world.objects.map fun o => if hasKey key o then updated else o).find? (hasKey key)
        = some updated := by
      generalize world.objects = objs at hfound
      induction objs with
      | nil => simp at hfound
      | cons o objs ih =>
        by_cases ho : hasKey key o = true
        · simp [List.find?_cons, ho, hupdkey]
        · have ho2 : hasKey key o = false := by simpa using ho
          rw [List.find?_cons, ho2] at hfound
          simp only [List.map_cons, ho2, Bool.false_eq_true, if_false, List.find?_cons]
          exact ih hfound
    simp only [clusterClient, this]
  · intro other hother
    have : (world.objects.map fun o => if hasKey key o then updated else o).find? (hasKey other)
        = world.objects.find? (hasKey other) := by
      generalize world.objects = objs
      induction objs with
      | nil => rfl
      | cons o objs ih =>
        by_cases ho : hasKey key o = true
        · have h1 : hasKey other updated = false := by
            simp only [hasKey, decide_eq_false_iff_not, not_and]
            intro h1 h2
            apply hother
            rw [hkeyeq]
            cases other
            simp only [NamespacedName.mk.injEq]
            exact ⟨h1.symm, h2.symm⟩
          have h2 : hasKey other o = false := by
            simp only [hasKey, decide_eq_true_eq] at ho
            simp only [hasKey, decide_eq_false_iff_not, not_and]
            intro h1 h2
            apply hother
            cases other
            cases key
            simp only [NamespacedName.mk.injEq]
            exact ⟨h1.symm.trans ho.1, h2.symm.trans ho.2⟩
          simp only [List.map_cons, ho, if_true, List.find?_cons, h1, h2, ih]
        · have ho2 : hasKey key o = false := by simpa using ho
          simp only [List.map_cons, ho2, Bool.false_eq_true, if_false, List.find?_cons, ih]
    simp only [clusterClient, this]

/-- C24 does not hold as stated: when the pod template of desired carries one of the old
metering labels, the merge writes it into existing and the removal loop deletes it again, so
that label of desired is not in existing after the call. -/
theorem pod_template_labels_counterexample :
    (labelledDC "apicast" [("com.redhat.component-name", "apicast")]).Spec.Template.Labels.lookup
        "com.redhat.component-name" = some "apicast" ∧
    (mergePodTemplateLabels (labelledDC "apicast" [("com.redhat.component-name", "apicast")])
        (labelledDC "apicast" [])).2.Spec.Template.Labels.lookup "com.redhat.component-name"
      = none ∧
    ensurePodTemplateLabels clusterClient "ns"
        (labelledDC "apicast" [("com.redhat.component-name", "apicast")])
        ⟨[labelledDC "apicast" []], []⟩
      = ((true, none), ⟨[labelledDC "apicast" []], [labelledDC "apicast" []]⟩) := by
  refine ⟨by decide, by decide, by decide⟩

/-- C24, amended: after the label migration of `ensurePodTemplateLabels` the pod template labels
of existing hold every label of desired whose key is not one of the five old metering keys, with
the value of desired; hold none of the five old metering keys; and hold every other key with the
value it had before. Nothing but the pod template labels of existing changes. The flag `updated`
holds exactly when existing lacks a label of desired, or has it with another value, or carries
an old metering key; when it does not hold, existing is left as it was read. When the flag
holds the call passes the migrated object to `UpdateResource` and returns the error of the
update. So, on a cluster that answers reads with what was last written, after a call that
returns a nil error the cluster holds the migrated object. -/
theorem pod_template_labels_result (desired existing : DeploymentConfig)
    (hnodup : (desired.Spec.Template.Labels.map Prod.fst).Nodup) :
    (∀ k v, desired.Spec.Template.Labels.lookup k = some v → k ∉ oldLabelKeys →
      (mergePodTemplateLabels desired existing).2.Spec.Template.Labels.lookup k = some v) ∧
    (∀ k ∈ oldLabelKeys,
      (mergePodTemplateLabels desired existing).2.Spec.Template.Labels.lookup k = none) ∧
    (∀ k, k ∉ oldLabelKeys → desired.Spec.Template.Labels.lookup k = none →
      (mergePodTemplateLabels desired existing).2.Spec.Template.Labels.lookup k =
        existing.Spec.Template.Labels.lookup k) ∧
    { (mergePodTemplateLabels desired existing).2 with
        Spec.Template.Labels := existing.Spec.Template.Labels } = existing ∧
    ((mergePodTemplateLabels desired existing).1 = true ↔
      (∃ k v, desired.Spec.Template.Labels.lookup k = some v ∧
        existing.Spec.Template.Labels.lookup k ≠ some v) ∨
      (∃ key ∈ oldLabelKeys, existing.Spec.Template.Labels.lookup key ≠ none)) ∧
    ((mergePodTemplateLabels desired existing).1 = false →
      (mergePodTemplateLabels desired existing).2 = existing) ∧
    (∀ (σ : Type) (client : Client σ) (ns : String) (world : σ),
      client.Get ⟨ns, desired.Name⟩ world = .ok existing →
      ensurePodTemplateLabels client ns desired world =
        if (mergePodTemplateLabels desired existing).1 = true then
          (((client.UpdateResource (mergePodTemplateLabels desired existing).2 world).1.isNone,
            (client.UpdateResource (mergePodTemplateLabels desired existing).2 world).1),
           (client.UpdateResource (mergePodTemplateLabels desired existing).2 world).2)
        else ((false, none), world)) ∧
    (∀ (σ : Type) (client : Client σ) (ns : String) (world world1 : σ) (updated : Bool),
      ReadsItsWrites client →
      client.Get ⟨ns, desired.Name⟩ world = .ok existing →
      ensurePodTemplateLabels client ns desired world = ((updated, none), world1) →
      client.Get ⟨ns, desired.Name⟩ world1 = .ok (mergePodTemplateLabels desired existing).2) := by
  have hcall : ∀ (σ : Type) (client : Client σ) (ns : String) (world : σ),
      client.Get ⟨ns, desired.Name⟩ world = .ok existing →
      ensurePodTemplateLabels client ns desired world =
        if (mergePodTemplateLabels desired existing).1 = true then
          (((client.UpdateResource (mergePodTemplateLabels desired existing).2 world).1.isNone,
            (client.UpdateResource (mergePodTemplateLabels desired existing).2 world).1),
           (client.UpdateResource (mergePodTemplateLabels desired existing).2 world).2)
        else ((false, none), world) := by
    intro σ client ns world hget
    unfold ensurePodTemplateLabels
    rw [hget]
    dsimp only
    split
    · split <;> rename_i hupd <;> simp [hupd]
    · rfl
  refine ⟨?_, ?_, ?_, rfl, mergePodTemplateLabels_flag desired existing hnodup,
    mergePodTemplateLabels_unchanged desired existing hnodup, hcall, ?_⟩
  · intro k v hv hk
    exact (mergePodTemplateLabels_lookup desired existing hnodup k).1 v hv hk
  · intro k hk
    exact (mergePodTemplateLabels_lookup desired existing hnodup k).2.1 hk
  · intro k hk hv
    exact (mergePodTemplateLabels_lookup desired existing hnodup k).2.2 hk hv
  · intro σ client ns world world1 updated hclient hget hrun
    rw [hcall σ client ns world hget] at hrun
    by_cases hflag : (mergePodTemplateLabels desired existing).1 = true
    · rw [if_pos hflag] at hrun
      have herr : (client.UpdateResource (mergePodTemplateLabels desired existing).2 world).1
          = none := by
        simpa using congrArg (fun r => r.1.2) hrun
      have hw : (client.UpdateResource (mergePodTemplateLabels desired existing).2 world).2
          = world1 := by
        simpa using congrArg Prod.snd hrun
      have hupd : client.UpdateResource (mergePodTemplateLabels desired existing).2 world
          = (none, world1) := by
        rw [← herr, ← hw]
      exact (hclient world world1 ⟨ns, desired.Name⟩ existing
        (mergePodTemplateLabels desired existing).2 hget hupd rfl rfl).1
    · rw [if_neg hflag] at hrun
      have hw : world = world1 := by simpa using congrArg Prod.snd hrun
      have hfalse : (mergePodTemplateLabels desired existing).1 = false := by
        simpa using hflag
      rw [← hw, mergePodTemplateLabels_unchanged desired existing hnodup hfalse]
      exact hget

/-- C24 on a concrete pair: existing carries an old metering label, the label `app` with an
old value and a label of its own; desired carries `app` and a new label. After the call the
cluster holds the migrated object, and the update was issued once. -/
theorem pod_template_labels_result_witness :
    (mergePodTemplateLabels
        (labelledDC "apicast" [("app", "3scale"), ("rht.comp", "apicast")])
        (labelledDC "apicast"
          [("com.redhat.product-name", "3scale"), ("app", "old"), ("own", "1")])).2
      = labelledDC "apicast" [("rht.comp", "apicast"), ("app", "3scale"), ("own", "1")] ∧
    ensurePodTemplateLabels clusterClient "ns"
        (labelledDC "apicast" [("app", "3scale"), ("rht.comp", "apicast")])
        ⟨[labelledDC "apicast"
          [("com.redhat.product-name", "3scale"), ("app", "old"), ("own", "1")]], []⟩
      = ((true, none),
          ⟨[labelledDC "apicast" [("rht.comp", "apicast"), ("app", "3scale"), ("own", "1")]],
           [labelledDC "apicast" [("rht.comp", "apicast"), ("app", "3scale"), ("own", "1")]]⟩) ∧
    (∀ k ∈ oldLabelKeys,
      (mergePodTemplateLabels
        (labelledDC "apicast" [("app", "3scale"), ("rht.comp", "apicast")])
        (labelledDC "apicast"
          [("com.redhat.product-name", "3scale"), ("app", "old"),
           ("own", "1")])).2.Spec.Template.Labels.lookup k = none) ∧
    clusterClient.Get ⟨"ns", "apicast"⟩
        ⟨[labelledDC "apicast" [("rht.comp", "apicast"), ("app", "3scale"), ("own", "1")]],
         [labelledDC "apicast" [("rht.comp", "apicast"), ("app", "3scale"), ("own", "1")]]⟩
      = .ok (mergePodTemplateLabels
          (labelledDC "apicast" [("app", "3scale"), ("rht.comp", "apicast")])
          (labelledDC "apicast"
            [("com.redhat.product-name", "3scale"), ("app", "old"), ("own", "1")])).2 :=
  ⟨by decide, by decide,
    (pod_template_labels_result
      (labelledDC "apicast" [("app", "3scale"), ("rht.comp", "apicast")])
      (labelledDC "apicast"
        [("com.redhat.product-name", "3scale"), ("app", "old"), ("own", "1")])
      (by decide)).2.1,
    (pod_template_labels_result
      (labelledDC "apicast" [("app", "3scale"), ("rht.comp", "apicast")])
      (labelledDC "apicast"
        [("com.redhat.product-name", "3scale"), ("app", "old"), ("own", "1")])
      (by decide)).2.2.2.2.2.2.2 Cluster clusterClient "ns"
      ⟨[labelledDC "apicast"
        [("com.redhat.product-name", "3scale"), ("app", "old"), ("own", "1")]], []⟩
      ⟨[labelledDC "apicast" [("rht.comp", "apicast"), ("app", "3scale"), ("own", "1")]],
       [labelledDC "apicast" [("rht.comp", "apicast"), ("app", "3scale"), ("own", "1")]]⟩
      true clusterClient_readsItsWrites rfl (by decide)⟩

theorem ensurePodTemplateLabels_settled {σ : Type} (client : Client σ) (ns : String)
    (desired existing : DeploymentConfig) (world : σ)
    (hget : client.Get ⟨ns, desired.Name⟩ world = .ok existing)
    (hflag : (mergePodTemplateLabels desired existing).1 = false) :
    ensurePodTemplateLabels client ns desired world = ((false, none), world) := by
  unfold ensurePodTemplateLabels
  rw [hget]
  simp [hflag]

theorem ensurePodTemplateLabels_after {σ : Type} (client : Client σ) (ns : String)
    (hclient : ReadsItsWrites client) (desired : DeploymentConfig)
    (hd : LabelsMigrated desired) (world world1 : σ) (updated : Bool)
    (hrun : ensurePodTemplateLabels client ns desired world = ((updated, none), world1)) :
    (∃ existing, client.Get ⟨ns, desired.Name⟩ world1 = .ok existing ∧
      (mergePodTemplateLabels desired existing).1 = false) ∧
    ∀ other, other ≠ ⟨ns, desired.Name⟩ → client.Get other world1 = client.Get other world := by
  unfold ensurePodTemplateLabels at hrun
  cases hget : client.Get ⟨ns, desired.Name⟩ world with
  | error err => simp [hget] at hrun
  | ok existing =>
    rw [hget] at hrun
    dsimp only at hrun
    by_cases hflag : (mergePodTemplateLabels desired existing).1 = true
    · rw [if_pos hflag] at hrun
      cases hupd : client.UpdateResource (mergePodTemplateLabels desired existing).2 world with
      | mk err world2 =>
        rw [hupd] at hrun
        cases err with
        | some e => simp at hrun
        | none =>
          have hw : world2 = world1 := by simpa using congrArg Prod.snd hrun
          subst hw
          obtain ⟨hread, hother⟩ := hclient world world2 ⟨ns, desired.Name⟩ existing
            (mergePodTemplateLabels desired existing).2 hget hupd rfl rfl
          refine ⟨⟨_, hread, ?_⟩, hother⟩
          rw [mergePodTemplateLabels_idempotent desired existing hd]
    · rw [if_neg hflag] at hrun
      have hw : world = world1 := by simpa using congrArg Prod.snd hrun
      subst hw
      exact ⟨⟨existing, hget, by simpa using hflag⟩, fun _ _ => rfl⟩

theorem podTemplateLabelsLoop_cons {σ : Type} (client : Client σ) (ns : String)
    (desired : DeploymentConfig) (rest : List DeploymentConfig) (updated : Bool)
    (world world1 : σ) (result : Result)
    (hrun : podTemplateLabelsLoop client ns (desired :: rest) updated world
      = ((result, none), world1)) :
    ∃ updatedTmp world2,
      ensurePodTemplateLabels client ns desired world = ((updatedTmp, none), world2) ∧
      podTemplateLabelsLoop client ns rest (updated || updatedTmp) world2
        = ((result, none), world1) := by
  unfold podTemplateLabelsLoop at hrun
  split at hrun
  · simp at hrun
  · rename_i updatedTmp world2 heq
    exact ⟨updatedTmp, world2, heq, hrun⟩

theorem podTemplateLabelsLoop_frame {σ : Type} (client : Client σ) (ns : String)
    (hclient : ReadsItsWrites client) (dcs : List DeploymentConfig)
    (hd : ∀ d ∈ dcs, LabelsMigrated d) (updated : Bool) (world world1 : σ) (result : Result)
    (hrun : podTemplateLabelsLoop client ns dcs updated world = ((result, none), world1))
    (key : NamespacedName) (hkey : ∀ d ∈ dcs, key ≠ ⟨ns, d.Name⟩) :
    client.Get key world1 = client.Get key world := by
  induction dcs generalizing updated world with
  | nil =>
    unfold podTemplateLabelsLoop at hrun
    have hw : world = world1 := by simpa using congrArg Prod.snd hrun
    rw [hw]
  | cons d rest ih =>
    obtain ⟨updatedTmp, world2, hfirst, hrest⟩ :=
      podTemplateLabelsLoop_cons client ns d rest updated world world1 result hrun
    have hstep := (ensurePodTemplateLabels_after client ns hclient d
      (hd d (List.mem_cons_self _ _)) world world2 updatedTmp hfirst).2 key
      (hkey d (List.mem_cons_self _ _))
    rw [ih (fun x hx => hd x (List.mem_cons_of_mem _ hx)) _ _ hrest
      (fun x hx => hkey x (List.mem_cons_of_mem _ hx)), hstep]

theorem podTemplateLabelsLoop_settles {σ : Type} (client : Client σ) (ns : String)
    (hclient : ReadsItsWrites client) (dcs : List DeploymentConfig)
    (hnames : (dcs.map fun d => d.Name).Nodup) (hd : ∀ d ∈ dcs, LabelsMigrated d)
    (updated : Bool) (world world1 : σ) (result : Result)
    (hrun : podTemplateLabelsLoop client ns dcs updated world = ((result, none), world1)) :
    ∀ d ∈ dcs, ∃ existing, client.Get ⟨ns, d.Name⟩ world1 = .ok existing ∧
      (mergePodTemplateLabels d existing).1 = false := by
  induction dcs generalizing updated world with
  | nil => simp
  | cons d rest ih =>
    obtain ⟨updatedTmp, world2, hfirst, hrest⟩ :=
      podTemplateLabelsLoop_cons client ns d rest updated world world1 result hrun
    simp only [List.map_cons, List.nodup_cons] at hnames
    have hdrest : ∀ x ∈ rest, LabelsMigrated x := fun x hx => hd x (List.mem_cons_of_mem _ hx)
    intro x hx
    rcases List.mem_cons.1 hx with hxd | hxr
    · subst hxd
      obtain ⟨existing, hget, hflag⟩ := (ensurePodTemplateLabels_after client ns hclient x
        (hd x (List.mem_cons_self _ _)) world world2 updatedTmp hfirst).1
      refine ⟨existing, ?_, hflag⟩
      rw [podTemplateLabelsLoop_frame client ns hclient rest hdrest _ world2 world1 result hrest
        ⟨ns, x.Name⟩ ?_]
      · exact hget
      · intro y hy heq
        have hname : x.Name = y.Name := by simpa using heq
        exact hnames.1 (List.mem_map.2 ⟨y, hy, hname.symm⟩)
    · exact ih hnames.2 hdrest _ _ hrest x hxr

theorem podTemplateLabelsLoop_settled {σ : Type} (client : Client σ) (ns : String)
    (dcs : List DeploymentConfig) (updated : Bool) (world : σ)
    (h : ∀ d ∈ dcs, ∃ existing, client.Get ⟨ns, d.Name⟩ world = .ok existing ∧
      (mergePodTemplateLabels d existing).1 = false) :
    podTemplateLabelsLoop client ns dcs updated world
      = (({ Requeue := updated, RequeueAfter := 0 }, none), world) := by
  induction dcs generalizing updated with
  | nil => rfl
  | cons d rest ih =>
    obtain ⟨existing, hget, hflag⟩ := h d (List.mem_cons_self _ _)
    unfold podTemplateLabelsLoop
    rw [ensurePodTemplateLabels_settled client ns d existing world hget hflag]
    simpa using ih updated fun x hx => h x (List.mem_cons_of_mem _ hx)

/-- C25 does not hold as stated: when the pod template of desired carries one of the old
metering labels, every run writes that label and deletes it again, so a second run against the
cluster left by the first one again reports `updated = true` and issues another update call, and
the loop of `upgradePodTemplateLabels` asks for a requeue in every pass. -/
theorem pod_template_labels_rerun_counterexample :
    ensurePodTemplateLabels clusterClient "ns"
        (labelledDC "apicast" [("com.redhat.component-name", "apicast")])
        ⟨[labelledDC "apicast" []], []⟩
      = ((true, none), ⟨[labelledDC "apicast" []], [labelledDC "apicast" []]⟩) ∧
    ensurePodTemplateLabels clusterClient "ns"
        (labelledDC "apicast" [("com.redhat.component-name", "apicast")])
        ⟨[labelledDC "apicast" []], [labelledDC "apicast" []]⟩
      = ((true, none),
          ⟨[labelledDC "apicast" []], [labelledDC "apicast" [], labelledDC "apicast" []]⟩) ∧
    (podTemplateLabelsLoop clusterClient "ns"
        [labelledDC "apicast" [("com.redhat.component-name", "apicast")]] false
        ⟨[labelledDC "apicast" []], [labelledDC "apicast" []]⟩).1
      = ({ Requeue := true, RequeueAfter := 0 }, none) := by
  refine ⟨by decide, by decide, by decide⟩

/-- C25, amended: let the pod template labels of desired hold none of the five old metering
keys. Then a second run of `ensurePodTemplateLabels`, against a cluster that returns the object
produced by a first run, returns `updated = false` with no error and leaves the cluster as it
is, so it issues no update call. And when the DeploymentConfigs of `upgradePodTemplateLabels`
have distinct names and the cluster answers reads with what was last written, the pass after a
pass without error returns `Requeue = false` with no error and leaves the cluster as it is. -/
theorem pod_template_labels_idempotent {σ : Type} (client : Client σ) (ns : String)
    (hclient : ReadsItsWrites client) :
    (∀ (desired existing : DeploymentConfig) (world : σ), LabelsMigrated desired →
      client.Get ⟨ns, desired.Name⟩ world = .ok (mergePodTemplateLabels desired existing).2 →
      ensurePodTemplateLabels client ns desired world = ((false, none), world)) ∧
    (∀ (desired : DeploymentConfig) (world world1 : σ) (updated : Bool),
      LabelsMigrated desired →
      ensurePodTemplateLabels client ns desired world = ((updated, none), world1) →
      ensurePodTemplateLabels client ns desired world1 = ((false, none), world1)) ∧
    (∀ (deploymentConfigs : σ → Except Error (List DeploymentConfig))
      (dcs : List DeploymentConfig) (world world1 : σ) (result : Result),
      (dcs.map fun d => d.Name).Nodup → (∀ d ∈ dcs, LabelsMigrated d) →
      deploymentConfigs world = .ok dcs → deploymentConfigs world1 = .ok dcs →
      upgradePodTemplateLabels client ns deploymentConfigs world = ((result, none), world1) →
      upgradePodTemplateLabels client ns deploymentConfigs world1
        = (({ Requeue := false, RequeueAfter := 0 }, none), world1)) := by
  refine ⟨?_, ?_, ?_⟩
  · intro desired existing world hd hget
    exact ensurePodTemplateLabels_settled client ns desired _ world hget
      (by rw [mergePodTemplateLabels_idempotent desired existing hd])
  · intro desired world world1 updated hd hrun
    obtain ⟨existing, hget, hflag⟩ :=
      (ensurePodTemplateLabels_after client ns hclient desired hd world world1 updated hrun).1
    exact ensurePodTemplateLabels_settled client ns desired existing world1 hget hflag
  · intro deploymentConfigs dcs world world1 result hnames hd hdcs hdcs1 hrun
    unfold upgradePodTemplateLabels at hrun ⊢
    rw [hdcs] at hrun
    rw [hdcs1]
    dsimp only at hrun ⊢
    exact podTemplateLabelsLoop_settled client ns dcs false world1
      (podTemplateLabelsLoop_settles client ns hclient dcs hnames hd false world world1 result
        hrun)

/-- C25 on a concrete cluster with two DeploymentConfigs: the first pass updates both and asks
for a requeue, the second pass updates nothing and asks for none. -/
theorem pod_template_labels_idempotent_witness :
    upgradePodTemplateLabels clusterClient "ns"
        (fun _ => .ok [labelledDC "apicast" [("app", "3scale")],
                        labelledDC "zync" [("app", "3scale")]])
        ⟨[labelledDC "apicast" [("com.redhat.product-name", "3scale")],
          labelledDC "zync" [("app", "old")]], []⟩
      = (({ Requeue := true, RequeueAfter := 0 }, none),
          ⟨[labelledDC "apicast" [("app", "3scale")], labelledDC "zync" [("app", "3scale")]],
           [labelledDC "apicast" [("app", "3scale")], labelledDC "zync" [("app", "3scale")]]⟩) ∧
    upgradePodTemplateLabels clusterClient "ns"
        (fun _ => .ok [labelledDC "apicast" [("app", "3scale")],
                        labelledDC "zync" [("app", "3scale")]])
        ⟨[labelledDC "apicast" [("app", "3scale")], labelledDC "zync" [("app", "3scale")]],
         [labelledDC "apicast" [("app", "3scale")], labelledDC "zync" [("app", "3scale")]]⟩
      = (({ Requeue := false, RequeueAfter := 0 }, none),
          ⟨[labelledDC "apicast" [("app", "3scale")], labelledDC "zync" [("app", "3scale")]],
           [labelledDC "apicast" [("app", "3scale")], labelledDC "zync" [("app", "3scale")]]⟩) :=
  ⟨by decide,
    (pod_template_labels_idempotent clusterClient "ns" clusterClient_readsItsWrites).2.2
      (fun _ => .ok [labelledDC "apicast" [("app", "3scale")],
                      labelledDC "zync" [("app", "3scale")]])
      [labelledDC "apicast" [("app", "3scale")], labelledDC "zync" [("app", "3scale")]]
      ⟨[labelledDC "apicast" [("com.redhat.product-name", "3scale")],
        labelledDC "zync" [("app", "old")]], []⟩
      ⟨[labelledDC "apicast" [("app", "3scale")], labelledDC "zync" [("app", "3scale")]],
       [labelledDC "apicast" [("app", "3scale")], labelledDC "zync" [("app", "3scale")]]⟩
      { Requeue := true, RequeueAfter := 0 }
      (by decide) (by decide) rfl rfl (by decide)⟩

theorem sequentially_objectStep_cons {σ : Type} (f : σ → Option Error × σ)
    (fs : List (upgradeDependencyFn σ)) :
    sequentially (objectStep f :: fs) = orReturn f (sequentially fs) := by
  funext u
  simp only [sequentially, objectStep, orReturn, Result.empty]
  cases h : (f u).1 <;> simp

theorem system_reconcile_eq {σ : Type} (s : SystemReconcilerSteps σ) (u : σ)
    (hsystem : s.System u = none) :
    SystemReconciler.Reconcile s u =
      sequentially
        ((systemStepsBeforeWorkloads s ++ systemWorkloadSteps s ++ systemConfigMapSteps s ++
          systemSecretSteps s ++ systemStepsAfterSecrets s).map objectStep) u := by
  have hnil : sequentially ([] : List (upgradeDependencyFn σ))
      = fun v => ((Result.empty, none), v) := by
    funext v
    rfl
  simp only [SystemReconciler.Reconcile, hsystem, systemStepsBeforeWorkloads,
    systemWorkloadSteps, systemConfigMapSteps, systemSecretSteps, systemStepsAfterSecrets,
    List.cons_append, List.nil_append, List.map_cons, List.map_nil,
    sequentially_objectStep_cons, hnil]

/-- C21 does not hold as stated: both reconcilers reconcile the DeploymentConfigs before the
secrets. In the logs of the concrete reconcilers the DeploymentConfig entries come before the
Secret entries, and when the reconciliation of a DeploymentConfig fails the run ends with no
secret reconciled. -/
theorem secret_before_workload_counterexample :
    (RedisReconciler.Reconcile (sampleRedisSteps false "") []).2 =
      ["DeploymentConfig", "Service", "ConfigMap", "PersistentVolumeClaim", "ImageStream",
       "Secret"] ∧
    RedisReconciler.Reconcile (sampleRedisSteps false "DeploymentConfig") [] =
      ((Result.empty, some (.message "DeploymentConfig failed")), ["DeploymentConfig"]) ∧
    ((SystemReconciler.Reconcile (sampleSystemSteps none) []).2.map Prod.fst) =
      ["PersistentVolumeClaim", "Service", "Service", "Service", "Service", "Service",
       "DeploymentConfig", "DeploymentConfig", "DeploymentConfig", "ConfigMap", "ConfigMap",
       "Secret", "Secret", "Secret", "Secret", "Secret", "Secret", "Secret",
       "PodDisruptionBudget", "PodDisruptionBudget", "PodMonitor", "PodMonitor",
       "GrafanaDashboard", "PrometheusRules", "PrometheusRules"] ∧
    SystemReconciler.Reconcile (sampleSystemSteps (some .AppDeploymentConfig)) [] =
      ((Result.empty, some (.message "DeploymentConfig failed")),
        [("PersistentVolumeClaim", .SharedStorage), ("Service", .ProviderService),
         ("Service", .MasterService), ("Service", .DeveloperService),
         ("Service", .SphinxService), ("Service", .MemcachedService),
         ("DeploymentConfig", .AppDeploymentConfig)]) := by
  refine ⟨by decide, by decide, by decide, by decide⟩

/-- C21, amended: the dependency reconcilers reconcile the workload before its secret. Once the
Redis component is built, `RedisReconciler.Reconcile` runs its object reconciliations one after
the other, the DeploymentConfig first and the Secret last, and when the DeploymentConfig fails
it returns that error whatever the reconciliation of the Secret is. Once the System component is
built, `SystemReconciler.Reconcile` runs, one after the other, the file storage and the
services, then the three DeploymentConfigs, then the two ConfigMaps, then the seven secrets,
then the remaining objects; when a step up to the DeploymentConfigs fails it returns that error
whatever the reconciliation of the secrets is. -/
theorem workload_before_secret {σ τ : Type} (r : RedisReconcilerSteps σ)
    (s : SystemReconcilerSteps τ) (u : σ) (w : τ) :
    (r.Redis u = none →
      RedisReconciler.Reconcile r u = sequentially ((redisObjectSteps r).map objectStep) u ∧
      (∃ mid, redisObjectSteps r =
        [r.ReconcileDeploymentConfig] ++ mid ++ [r.ReconcileSecret]) ∧
      ∀ err, (r.ReconcileDeploymentConfig u).1 = some err →
        ∀ secret, RedisReconciler.Reconcile { r with ReconcileSecret := secret } u =
          ((Result.empty, some err), (r.ReconcileDeploymentConfig u).2)) ∧
    (s.System w = none →
      SystemReconciler.Reconcile s w =
        sequentially
          ((systemStepsBeforeWorkloads s ++ systemWorkloadSteps s ++ systemConfigMapSteps s ++
            systemSecretSteps s ++ systemStepsAfterSecrets s).map objectStep) w ∧
      ∀ pre f post v err,
        systemStepsBeforeWorkloads s ++ systemWorkloadSteps s = pre ++ f :: post →
        PassesThrough (pre.map objectStep) w v → (f v).1 = some err →
        ∀ secret, SystemReconciler.Reconcile { s with ReconcileSecret := secret } w =
          ((Result.empty, some err), (f v).2)) := by
  refine ⟨?_, ?_⟩
  · intro hredis
    refine ⟨redis_reconcile_eq σ r u hredis, ?_, ?_⟩
    · cases hcm : r.ConfigMap
      · exact ⟨[r.ReconcileService, r.ReconcilePersistentVolumeClaim, r.ReconcileImagestream],
          by simp [redisObjectSteps, hcm]⟩
      · exact ⟨[r.ReconcileService, r.ReconcileConfigMap, r.ReconcilePersistentVolumeClaim,
          r.ReconcileImagestream], by simp [redisObjectSteps, hcm]⟩
    · intro err herr secret
      simp [RedisReconciler.Reconcile, hredis, herr]
  · intro hsystem
    refine ⟨system_reconcile_eq s w hsystem, ?_⟩
    intro pre f post v err hsplit hpass herr secret
    rw [system_reconcile_eq { s with ReconcileSecret := secret } w hsystem]
    have hsplit2 :
        systemStepsBeforeWorkloads { s with ReconcileSecret := secret } ++
          systemWorkloadSteps { s with ReconcileSecret := secret } = pre ++ f :: post := hsplit
    rw [List.append_assoc _ _ (systemStepsAfterSecrets _),
      List.append_assoc _ _ (systemSecretSteps _ ++ _), hsplit2, List.append_assoc,
      List.cons_append, List.map_append, List.map_cons,
      sequentially_append_interrupt _ _ (objectStep f) w v hpass
        (by simp [interrupts, objectStep, herr])]
    simp [objectStep, herr]

/-- C21 (amended) on the concrete system reconciler: the Sphinx DeploymentConfig fails after
the file storage, the services and the two other DeploymentConfigs; the run ends there, with no
ConfigMap and no secret reconciled. -/
theorem workload_before_secret_witness :
    SystemReconciler.Reconcile (sampleSystemSteps (some .SphinxDeploymentConfig)) [] =
      ((Result.empty, some (.message "DeploymentConfig failed")),
        [("PersistentVolumeClaim", .SharedStorage), ("Service", .ProviderService),
         ("Service", .MasterService), ("Service", .DeveloperService),
         ("Service", .SphinxService), ("Service", .MemcachedService),
         ("DeploymentConfig", .AppDeploymentConfig),
         ("DeploymentConfig", .SidekiqDeploymentConfig),
         ("DeploymentConfig", .SphinxDeploymentConfig)]) ∧
    RedisReconciler.Reconcile (sampleRedisSteps false "") [] =
      sequentially ((redisObjectSteps (sampleRedisSteps false "")).map objectStep) [] :=
  ⟨((workload_before_secret (sampleRedisSteps false "")
      (sampleSystemSteps (some .SphinxDeploymentConfig)) [] []).2 rfl).2
      ((systemStepsBeforeWorkloads (sampleSystemSteps (some .SphinxDeploymentConfig))) ++
        [(sampleSystemSteps (some .SphinxDeploymentConfig)).ReconcileDeploymentConfig
            .AppDeploymentConfig,
         (sampleSystemSteps (some .SphinxDeploymentConfig)).ReconcileDeploymentConfig
            .SidekiqDeploymentConfig])
      ((sampleSystemSteps (some .SphinxDeploymentConfig)).ReconcileDeploymentConfig
        .SphinxDeploymentConfig)
      []
      [("PersistentVolumeClaim", .SharedStorage), ("Service", .ProviderService),
       ("Service", .MasterService), ("Service", .DeveloperService),
       ("Service", .SphinxService), ("Service", .MemcachedService),
       ("DeploymentConfig", .AppDeploymentConfig),
       ("DeploymentConfig", .SidekiqDeploymentConfig)]
      (.message "DeploymentConfig failed") rfl
      (PassesThrough.cons _ _ _ _ rfl (PassesThrough.cons _ _ _ _ rfl
        (PassesThrough.cons _ _ _ _ rfl (PassesThrough.cons _ _ _ _ rfl
          (PassesThrough.cons _ _ _ _ rfl (PassesThrough.cons _ _ _ _ rfl
            (PassesThrough.cons _ _ _ _ rfl (PassesThrough.cons _ _ _ _ rfl
              (PassesThrough.nil _)))))))))
      rfl (sampleSystemSteps (some .SphinxDeploymentConfig)).ReconcileSecret,
   ((workload_before_secret (sampleRedisSteps false "")
      (sampleSystemSteps (some .SphinxDeploymentConfig)) [] []).1 rfl).1⟩

theorem findParentAccount_no_event (c : Collaborators) (userCR : DeveloperUser)
    (account : ProviderAccount) :
    (findParentAccount c userCR account).2.filterMap Call.toEvent = [] := by
  unfold findParentAccount
  dsimp only
  split
  · split <;> rfl
  · split
    · rfl
    · split
      · rfl
      · split <;> rfl

theorem reconcileSpec_no_event (c : Collaborators) (userCR : DeveloperUser) :
    (reconcileSpec c userCR).2.2.filterMap Call.toEvent = [] := by
  unfold reconcileSpec
  split
  · rfl
  · split
    · rfl
    · rename_i providerAccount _
      have hparent := findParentAccount_no_event c userCR providerAccount
      split
      · rename_i err calls hfp
        rw [hfp] at hparent
        simp [List.filterMap_append, List.filterMap_cons, Call.toEvent, hparent]
      · rename_i parentAccountCR calls hfp
        rw [hfp] at hparent
        split <;> simp [List.filterMap_append, List.filterMap_cons, Call.toEvent, hparent]

theorem reconcile_events_before_status (c : Collaborators) (req : NamespacedName)
    (userCR : DeveloperUser) :
    ([Call.getDeveloperUser req] ++ (reconcileSpec c userCR).2.2 ++
      [Call.statusReconcile (reconcileSpec c userCR).1]).filterMap Call.toEvent = [] := by
  simp [List.filterMap_append, List.filterMap_cons, Call.toEvent, reconcileSpec_no_event]

/-- C26: when the status reconciler returns no error and no requeue, `Reconcile` records exactly
one event, of type Warning and on the resource, for an InvalidSpec primary error (reason
"Invalid developer user spec") and for a primary error that is neither InvalidSpec nor Orphan
(reason "ReconcileError"), the message being the one of the error; it records no event for an
Orphan primary error and none when the primary error is nil. -/
theorem event_classification (c : Collaborators) (req : NamespacedName) (userCR : DeveloperUser)
    (statusResult : Result)
    (hget : c.getDeveloperUser req = .ok userCR)
    (hmarshal : c.debugLogging = true → c.marshalIndent userCR = none)
    (hdel : userCR.DeletionTimestamp = none)
    (hstatus : c.statusReconcile (reconcileSpec c userCR).1 = (statusResult, none))
    (hreq : statusResult.Requeue = false) :
    (∀ rErr, (reconcileSpec c userCR).2.1 = some rErr → IsInvalidSpecError rErr = true →
      (DeveloperUserReconciler.Reconcile c req).events =
        [⟨userCR, "Warning", "Invalid developer user spec", rErr.toString⟩]) ∧
    (∀ rErr, (reconcileSpec c userCR).2.1 = some rErr → IsOrphanSpecError rErr = true →
      (DeveloperUserReconciler.Reconcile c req).events = []) ∧
    (∀ rErr, (reconcileSpec c userCR).2.1 = some rErr → IsInvalidSpecError rErr = false →
      IsOrphanSpecError rErr = false →
      (DeveloperUserReconciler.Reconcile c req).events =
        [⟨userCR, "Warning", "ReconcileError", rErr.toString⟩]) ∧
    ((reconcileSpec c userCR).2.1 = none →
      (DeveloperUserReconciler.Reconcile c req).events = []) := by
  have hbefore := reconcile_events_before_status c req userCR
  rw [reconcile_reached c req userCR hget hmarshal hdel, hstatus]
  refine ⟨?_, ?_, ?_, ?_⟩
  · intro rErr hspec hinvalid
    simp only [hspec, hreq, hinvalid, Bool.false_eq_true, if_false, if_true,
      ReconcileTrace.events, List.filterMap_append, hbefore]
    rfl
  · intro rErr hspec horphan
    have hinvalid := isOrphan_not_invalid rErr horphan
    simp only [hspec, hreq, hinvalid, horphan, Bool.false_eq_true, if_false, if_true,
      ReconcileTrace.events, hbefore]
  · intro rErr hspec hinvalid horphan
    simp only [hspec, hreq, hinvalid, horphan, Bool.false_eq_true, if_false,
      ReconcileTrace.events, List.filterMap_append, hbefore]
    rfl
  · intro hspec
    simp only [hspec, hreq, Bool.false_eq_true, if_false, ReconcileTrace.events, hbefore]

/-- C26 on concrete collaborators: an invalid spec gives one Warning event on the resource; a
failure of the 3scale API gives one Warning event of reason ReconcileError. -/
theorem event_classification_witness :
    (DeveloperUserReconciler.Reconcile (invalidCollaborators false) ⟨"ns", "bob"⟩).events =
      [⟨⟨"bob", "ns", none, "bob", "bob@example.com", "missing", none⟩, "Warning",
        "Invalid developer user spec",
        (Error.specField .InvalidError
          [⟨"spec.username", "", "username is required"⟩]).toString⟩] ∧
    (DeveloperUserReconciler.Reconcile remoteFailureCollaborators ⟨"ns", "alice"⟩).events =
      [⟨⟨"alice", "ns", none, "alice", "alice@example.com", "acme", none⟩, "Warning",
        "ReconcileError", "3scale API unreachable"⟩] :=
  ⟨(event_classification (invalidCollaborators false) ⟨"ns", "bob"⟩
      ⟨"bob", "ns", none, "bob", "bob@example.com", "missing", none⟩ Result.empty
      rfl (fun _ => rfl) rfl rfl rfl).1
      (.specField .InvalidError [⟨"spec.username", "", "username is required"⟩]) rfl rfl,
   (event_classification remoteFailureCollaborators ⟨"ns", "alice"⟩
      ⟨"alice", "ns", none, "alice", "alice@example.com", "acme", none⟩ Result.empty
      rfl (fun _ => rfl) rfl rfl rfl).2.2.1
      (.message "3scale API unreachable") rfl rfl rfl⟩

/-- C27: when the status reconciler returns no error and a result with `Requeue = true`,
`Reconcile` returns exactly that result with a nil error and records no event, whatever the
primary reconcile error is: nil, InvalidSpec, Orphan or any other. -/
theorem status_requeue_wins (c : Collaborators) (req : NamespacedName) (userCR : DeveloperUser)
    (statusResult : Result)
    (hget : c.getDeveloperUser req = .ok userCR)
    (hmarshal : c.debugLogging = true → c.marshalIndent userCR = none)
    (hdel : userCR.DeletionTimestamp = none)
    (hstatus : c.statusReconcile (reconcileSpec c userCR).1 = (statusResult, none))
    (hreq : statusResult.Requeue = true) :
    (DeveloperUserReconciler.Reconcile c req).result = statusResult ∧
    (DeveloperUserReconciler.Reconcile c req).err = none ∧
    (DeveloperUserReconciler.Reconcile c req).events = [] ∧
    (DeveloperUserReconciler.Reconcile c req).calls =
      [.getDeveloperUser req] ++ (reconcileSpec c userCR).2.2 ++
        [.statusReconcile (reconcileSpec c userCR).1] := by
  have hbefore := reconcile_events_before_status c req userCR
  rw [reconcile_reached c req userCR hget hmarshal hdel, hstatus]
  simp only [hreq, if_true, ReconcileTrace.events, hbefore, and_self]

/-- C27 on concrete collaborators: the spec is invalid, or the 3scale API fails, and the status
reconciler asks for a requeue after 30; `Reconcile` returns that result with a nil error and
records no event. -/
theorem status_requeue_wins_witness :
    DeveloperUserReconciler.Reconcile (statusRequeueCollaborators (invalidCollaborators false) 30)
        ⟨"ns", "bob"⟩ =
      ⟨{ Requeue := true, RequeueAfter := 30 }, none,
        [.getDeveloperUser ⟨"ns", "bob"⟩, .validate,
         .statusReconcile
          ⟨⟨"bob", "ns", none, "bob", "bob@example.com", "missing", none⟩, none, "", none,
            some (.specField .InvalidError [⟨"spec.username", "", "username is required"⟩])⟩]⟩ ∧
    (DeveloperUserReconciler.Reconcile (statusRequeueCollaborators remoteFailureCollaborators 30)
        ⟨"ns", "alice"⟩).result = { Requeue := true, RequeueAfter := 30 } ∧
    (DeveloperUserReconciler.Reconcile (statusRequeueCollaborators remoteFailureCollaborators 30)
        ⟨"ns", "alice"⟩).err = none ∧
    (DeveloperUserReconciler.Reconcile (statusRequeueCollaborators remoteFailureCollaborators 30)
        ⟨"ns", "alice"⟩).events = [] :=
  ⟨by decide,
   (status_requeue_wins (statusRequeueCollaborators remoteFailureCollaborators 30)
      ⟨"ns", "alice"⟩ ⟨"alice", "ns", none, "alice", "alice@example.com", "acme", none⟩
      { Requeue := true, RequeueAfter := 30 } rfl (fun _ => rfl) rfl rfl rfl).1,
   (status_requeue_wins (statusRequeueCollaborators remoteFailureCollaborators 30)
      ⟨"ns", "alice"⟩ ⟨"alice", "ns", none, "alice", "alice@example.com", "acme", none⟩
      { Requeue := true, RequeueAfter := 30 } rfl (fun _ => rfl) rfl rfl rfl).2.1,
   (status_requeue_wins (statusRequeueCollaborators remoteFailureCollaborators 30)
      ⟨"ns", "alice"⟩ ⟨"alice", "ns", none, "alice", "alice@example.com", "acme", none⟩
      { Requeue := true, RequeueAfter := 30 } rfl (fun _ => rfl) rfl rfl rfl).2.2.1⟩

end ThreeScale
